import Mathlib

/- Shallow embedding of the office worker simulation core: the second
   iteration of `OfficeWorkerManager` in `src/app/officeWorker.ts`
   (the one whose data model matches `src/unnamed/part_002`, the types
   module with id-based references and the four-field occupancy
   histories), together with the movement and random utilities of
   `src/app/utils.ts`.  Coordinates are modelled over `ℝ` (JS numbers
   under real-number semantics), simulation times over `ℚ`. -/

set_option maxRecDepth 8000

namespace OfficeSim

/-- Oracle for `Math.random()`: a stream `val` of rational draws in `[0,1)`
together with a stream `str` of strings modelling randomly generated text
fragments (the id suffixes `Math.random().toString(36).slice(2, 11)` and the
random name picks); `k` is the index of the next unread draw. -/
structure Rand where
  val : ℕ → ℚ
  str : ℕ → String
  k : ℕ

/-- Consume one numeric draw (`Math.random()`). -/
def Rand.next (r : Rand) : ℚ × Rand := (r.val r.k, ⟨r.val, r.str, r.k + 1⟩)

/-- Consume one string draw (a random id suffix or random name pick). -/
def Rand.nextStr (r : Rand) : String × Rand := (r.str r.k, ⟨r.val, r.str, r.k + 1⟩)

/-- All numeric draws of the oracle lie in `[0, 1)`, as `Math.random()`
guarantees. -/
def ValidRand (r : Rand) : Prop := ∀ n, 0 ≤ r.val n ∧ r.val n < 1

/-- The string stream never repeats: random id-suffix collisions, which the
source ignores entirely, are not modelled. -/
def InjStr (r : Rand) : Prop := Function.Injective r.str

/- ## Data model (`src/unnamed/part_002`, the types module) -/

/-- `WorkerMentalState` enum. -/
inductive WorkerMentalState
  | FRUSTRATED
  | HAPPY
  | CONFUSED
deriving DecidableEq, Repr, Inhabited

/-- `WorkerPhysicalState` enum. -/
inductive WorkerPhysicalState
  | WANDERING
  | MOVING_TO_SPACE
  | WORKING
  | MOVING_TO_DESK
  | ARRIVING
  | ATTENDING_EVENT
deriving DecidableEq, Repr, Inhabited

/-- `SpaceState` enum. -/
inductive SpaceState
  | AVAILABLE
  | OCCUPIED
  | ASSIGNED
deriving DecidableEq, Repr, Inhabited

/-- `DeskState` enum. -/
inductive DeskState
  | AVAILABLE
  | ASSIGNED
  | OCCUPIED
deriving DecidableEq, Repr, Inhabited

/-- 2D point. -/
@[ext]
structure Point where
  x : ℝ
  y : ℝ
deriving Inhabited

/-- The weak back-reference `occupiedBy` stored on a desk. -/
structure OccupiedBy where
  workerId : String
  workerName : String
deriving DecidableEq, Repr, Inhabited

/-- `Desk` record. -/
structure Desk where
  x : ℝ
  y : ℝ
  width : ℝ
  height : ℝ
  destinationX : ℝ
  destinationY : ℝ
  id : String
  name : String
  state : DeskState
  occupiedBy : Option OccupiedBy
deriving Inhabited

/-- Event time window. -/
structure TimeFrame where
  startTime : ℚ
  endTime : ℚ
deriving DecidableEq, Repr, Inhabited

/-- `WorkerEvent` record: attendees and the event space are referenced by id. -/
structure WorkerEvent where
  id : String
  title : String
  timeFrame : TimeFrame
  attendeeIds : List String
  spaceId : String
deriving DecidableEq, Repr, Inhabited

/-- `Space` record (`destinationX`/`destinationY` are optional fields). -/
structure Space where
  id : String
  name : String
  x : ℝ
  y : ℝ
  width : ℝ
  height : ℝ
  state : SpaceState
  destinationX : Option ℝ
  destinationY : Option ℝ
deriving Inhabited

/-- Transient speech bubble. -/
structure Dialog where
  text : String
  duration : ℚ
  startTime : ℚ
deriving DecidableEq, Repr, Inhabited

/-- The `occupiedDesk` occupancy history of a worker. -/
structure OccupiedDeskRec where
  lastOccupiedDeskId : Option String
  lastOccupiedTime : Option ℚ
  currentOccupiedDeskId : Option String
  currentOccupiedTime : Option ℚ
deriving DecidableEq, Repr, Inhabited

/-- The `occupiedSpace` occupancy history of a worker. -/
structure OccupiedSpaceRec where
  lastOccupiedSpaceId : Option String
  lastOccupiedTime : Option ℚ
  currentOccupiedSpaceId : Option String
  currentOccupiedTime : Option ℚ
deriving DecidableEq, Repr, Inhabited

/-- `Worker` record.  The source declares `deskSearchAttempts` as an optional
number accessed through `(worker as any)`; an absent field behaves exactly as
`0` at every use site (`undefined >= 3` is false, `undefined || 0` is `0`,
and it is explicitly initialised to `0` before any increment), so it is
modelled as a `ℕ` field. -/
structure Worker where
  id : String
  name : String
  location : Point
  workerEventIds : List String
  assignedDeskId : Option String
  occupiedDesk : OccupiedDeskRec
  occupiedSpace : OccupiedSpaceRec
  mentalState : WorkerMentalState
  physicalState : WorkerPhysicalState
  destinationLocation : Option Point
  nextEventTime : Option ℚ
  dialog : Option Dialog
  deskSearchAttempts : ℕ
deriving Inhabited

/- ## JS truthiness helpers -/

/-- JS truthiness of an optional string (`undefined` and `""` are falsy). -/
def strTruthy : Option String → Bool
  | none => false
  | some s => s != ""

/-- JS `a || b` on an optional number (`undefined` and `0` are falsy): used
for `space.destinationX || space.x`. -/
noncomputable def orElseNum (o : Option ℝ) (fb : ℝ) : ℝ :=
  match o with
  | none => fb
  | some v => if v = 0 then fb else v

/- ## Utilities (`src/app/utils.ts`) -/

/-- `getRandomNumber(min, max)`: random integer between `min` and `max`
(inclusive); the source first coerces the bounds with `Math.ceil`/`Math.floor`.
Generic over the scalar so that the same function serves event times (`ℚ`)
and canvas coordinates (`ℝ`). -/
def getRandomNumber {K : Type} [LinearOrderedField K] [FloorRing K]
    (mn mx : K) (r : Rand) : K × Rand :=
  let lo : K := (⌈mn⌉ : ℤ)
  let hi : K := (⌊mx⌋ : ℤ)
  let (q, r1) := r.next
  (((⌊(q : K) * (hi - lo + 1)⌋ : ℤ) : K) + lo, r1)

/-- `generateId(prefix)`: the prefix, a dash, and a random string suffix. -/
def generateId (pre : String) (r : Rand) : String × Rand :=
  let (s, r1) := r.nextStr
  (pre ++ "-" ++ s, r1)

/-- `calculateDistance(x1, y1, x2, y2)`. -/
noncomputable def calculateDistance (x1 y1 x2 y2 : ℝ) : ℝ :=
  Real.sqrt ((x2 - x1) * (x2 - x1) + (y2 - y1) * (y2 - y1))

/-- Retry loop of `getRandomDestination`: draw a candidate point, stop after
`maxTries` draws, otherwise redraw while the candidate is closer than
`minDistance`.  The fuel argument counts the remaining draws. -/
noncomputable def getRandomDestinationGo (cx cy cw ch minD : ℝ) :
    ℕ → Rand → Point × Rand
  | 0, r =>
    let (nx, r1) := getRandomNumber (50 : ℝ) (cw - 50) r
    let (ny, r2) := getRandomNumber (50 : ℝ) (ch - 50) r1
    (⟨nx, ny⟩, r2)
  | (fuel + 1), r =>
    let (nx, r1) := getRandomNumber (50 : ℝ) (cw - 50) r
    let (ny, r2) := getRandomNumber (50 : ℝ) (ch - 50) r1
    if fuel = 0 then (⟨nx, ny⟩, r2)
    else if calculateDistance cx cy nx ny < minD then
      getRandomDestinationGo cx cy cw ch minD fuel r2
    else (⟨nx, ny⟩, r2)

/-- `getRandomDestination(currentX, currentY, canvasWidth, canvasHeight)` with
its default `minDistance = 100` and `maxTries = 10`. -/
noncomputable def getRandomDestination (cx cy cw ch : ℝ) (r : Rand) :
    Point × Rand :=
  getRandomDestinationGo cx cy cw ch 100 10 r

/-- `moveWorkerTowardsDestination(worker, speed)`: snap onto the destination
when closer than `speed`, clearing `destinationLocation`; otherwise advance
`speed` units along the straight line. -/
noncomputable def moveWorkerTowardsDestination (w : Worker) (speed : ℝ) :
    Worker :=
  match w.destinationLocation with
  | none => w
  | some dest =>
    let dx := dest.x - w.location.x
    let dy := dest.y - w.location.y
    let distance := Real.sqrt (dx * dx + dy * dy)
    if distance < speed then
      { w with location := ⟨dest.x, dest.y⟩, destinationLocation := none }
    else
      { w with location :=
          ⟨w.location.x + (dx / distance) * speed,
           w.location.y + (dy / distance) * speed⟩ }

/- ## Manager state (`OfficeWorkerManager` fields)

The `workersMap` / `desksMap` / `spacesMap` records of the source always
mirror the corresponding arrays (entries are inserted together and never
removed), and ids are unique in every modelled state, so map lookup is
modelled as first-match search in the array.  The `events` record preserves
insertion order (all keys are non-numeric strings), so it is modelled as a
list in insertion order. -/

/-- The mutable fields of `OfficeWorkerManager`. -/
structure OfficeState where
  workers : List Worker
  desks : List Desk
  spaces : List Space
  events : List WorkerEvent
  utilityItems : List Point
  canvasWidth : ℝ
  canvasHeight : ℝ
  isManaged : Bool
  currentTime : ℚ

/-- `workersMap[id]` / `getWorkerById`. -/
def findW (s : OfficeState) (wid : String) : Option Worker :=
  s.workers.find? (fun w => w.id == wid)

/-- `desksMap[id]` / `getDeskById`. -/
def getDeskById (s : OfficeState) (did : String) : Option Desk :=
  s.desks.find? (fun d => d.id == did)

/-- `spacesMap[id]` / `getSpaceById`. -/
def getSpaceById (s : OfficeState) (sid : String) : Option Space :=
  s.spaces.find? (fun sp => sp.id == sid)

/-- `events[id]` lookup. -/
def findEvent (s : OfficeState) (eid : String) : Option WorkerEvent :=
  s.events.find? (fun e => e.id == eid)

/-- In-place mutation of the worker object with the given id. -/
def updW (s : OfficeState) (wid : String) (f : Worker → Worker) : OfficeState :=
  { s with workers := s.workers.map (fun w => if w.id = wid then f w else w) }

/-- In-place mutation of the desk object with the given id. -/
def updD (s : OfficeState) (did : String) (f : Desk → Desk) : OfficeState :=
  { s with desks := s.desks.map (fun d => if d.id = did then f d else d) }

/-- In-place mutation of the space object with the given id. -/
def updSp (s : OfficeState) (sid : String) (f : Space → Space) : OfficeState :=
  { s with spaces := s.spaces.map (fun sp => if sp.id = sid then f sp else sp) }

/-- In-place mutation of the event object with the given id. -/
def updEv (s : OfficeState) (eid : String) (f : WorkerEvent → WorkerEvent) :
    OfficeState :=
  { s with events := s.events.map (fun e => if e.id = eid then f e else e) }

/-- `desk.occupiedBy?.workerId === worker.id` (optional chaining: an empty
`occupiedBy` compares unequal). -/
def occupiedByIs (ob : Option OccupiedBy) (wid : String) : Bool :=
  match ob with
  | some o => o.workerId == wid
  | none => false

/- ## Dialog subsystem -/

/-- The keys of the `DIALOG_PHRASES` table (second iteration, which adds
`STOLEN_DESK`). -/
inductive DialogKey
  | STOLEN_DESK
  | DESK_OCCUPIED
  | SPACE_OCCUPIED
  | FRUSTRATED
  | CONFUSED
  | HAPPY
  | WANDERING
  | EVENT_STARTING
  | EVENT_ENDING
  | SHARED_EVENT
deriving DecidableEq, Repr

/-- The `DIALOG_PHRASES` table. -/
def DIALOG_PHRASES : DialogKey → List String
  | .STOLEN_DESK =>
    ["Someone took my desk!"]
  | .DESK_OCCUPIED =>
    ["Someone\x27s sitting here already!",
     "This desk is taken.",
     "I need to find another desk.",
     "Excuse me, I thought this was free."]
  | .SPACE_OCCUPIED =>
    ["This room is occupied!",
     "Shoot, room is taken. I\x27ll find another.",
     "Wrong meeting room.",
     "Is there another space available?"]
  | .FRUSTRATED =>
    ["I can\x27t find a desk anywhere!",
     "This is ridiculous...",
     "I just want to sit down!",
     "Third desk that\x27s taken, seriously?!",
     "Where am I supposed to work?!"]
  | .CONFUSED =>
    ["Where was I sitting again?",
     "I\x27m a bit lost...",
     "Which desk was mine?",
     "I swear I was sitting here."]
  | .HAPPY =>
    ["Great spot!",
     "Perfect, got my desk!",
     "Time to get some work done.",
     "Coffee and coding time!"]
  | .WANDERING =>
    ["Just stretching my legs.",
     "Looking around...",
     "Taking a little walk.",
     "Need some fresh perspective."]
  | .EVENT_STARTING =>
    ["Meeting time!",
     "Off to my event!",
     "Gotta run to a meeting.",
     "Time for that presentation."]
  | .EVENT_ENDING =>
    ["That meeting could have been an email.",
     "Finally, meeting\x27s over!",
     "Back to my desk now.",
     "One meeting down, more to go."]
  | .SHARED_EVENT =>
    ["I\x27m here for the same meeting!",
     "We\x27re in this meeting together.",
     "Glad to join the team.",
     "Looks like we\x27re collaborating."]

/-- `setWorkerDialog(worker, text, duration = 5000)`: overwrite the worker's
dialog with a random phrase of the given key, stamped at the current time. -/
def setWorkerDialog (s : OfficeState) (wid : String) (key : DialogKey)
    (duration : ℚ) (r : Rand) : OfficeState × Rand :=
  let phrases := DIALOG_PHRASES key
  let (q, r1) := r.next
  let text := phrases.getD (⌊q * phrases.length⌋).toNat ""
  (updW s wid (fun w =>
    { w with dialog := some ⟨text, duration, s.currentTime⟩ }), r1)

/-- `updateWorkerDialog(worker)`: clear the dialog once
`currentTime - startTime > duration`. -/
def updateWorkerDialog (s : OfficeState) (wid : String) : OfficeState :=
  match findW s wid with
  | none => s
  | some w =>
    match w.dialog with
    | none => s
    | some dl =>
      if s.currentTime - dl.startTime > dl.duration then
        updW s wid (fun w2 => { w2 with dialog := none })
      else s

/- ## Simple worker helpers -/

/-- `setRandomDestination(worker)`. -/
noncomputable def setRandomDestination (s : OfficeState) (wid : String)
    (r : Rand) : OfficeState × Rand :=
  match findW s wid with
  | none => (s, r)
  | some w =>
    let (p, r1) := getRandomDestination w.location.x w.location.y
      s.canvasWidth s.canvasHeight r
    (updW s wid (fun w2 => { w2 with destinationLocation := some p }), r1)

/-- `findDeskAtLocation(x, y)`: first desk whose destination point lies within
15 units. -/
noncomputable def findDeskAtLocation (s : OfficeState) (x y : ℝ) :
    Option Desk :=
  s.desks.find? (fun d =>
    decide (Real.sqrt ((d.destinationX - x) * (d.destinationX - x) +
      (d.destinationY - y) * (d.destinationY - y)) ≤ 15))

/-- `findSpaceAtLocation(x, y)`: first space whose destination point (falling
back on its corner through JS `||`) lies within 20 units. -/
noncomputable def findSpaceAtLocation (s : OfficeState) (x y : ℝ) :
    Option Space :=
  s.spaces.find? (fun sp =>
    let destX := orElseNum sp.destinationX sp.x
    let destY := orElseNum sp.destinationY sp.y
    decide (Real.sqrt ((destX - x) * (destX - x) +
      (destY - y) * (destY - y)) ≤ 20))

/-- `findEventBySpace(spaceId)`: first event (in insertion order) whose
`spaceId` matches. -/
def findEventBySpace (s : OfficeState) (sid : String) : Option WorkerEvent :=
  s.events.find? (fun e => e.spaceId == sid)

/-- `getRandomPreEventTime()`: 1-10 simulated minutes converted at the fixed
ratio (60s day over a 9h shift). -/
def getRandomPreEventTime (r : Rand) : ℚ × Rand :=
  let totalTime : ℚ := 60 * 1000
  let simulationWorkDay : ℚ := 9 * 60
  let msPerSimMinute := totalTime / simulationWorkDay
  let (q, r1) := r.next
  ((((⌊q * 10⌋ : ℤ) : ℚ) + 1) * msPerSimMinute, r1)

/-- `getNextEventStartingSoon(worker)`: first event of the worker whose start
lies within a freshly rolled lookahead window and whose end is still ahead.
A dangling event id would crash the source, so modelled states never contain
one; the lookup failure case is mapped to a non-match. -/
def getNextEventStartingSoon (s : OfficeState) (w : Worker) (r : Rand) :
    Option WorkerEvent × Rand :=
  let (timeWindow, r1) := getRandomPreEventTime r
  let eid? := w.workerEventIds.find? (fun eid =>
    match findEvent s eid with
    | some e => decide (e.timeFrame.startTime - s.currentTime ≤ timeWindow ∧
        e.timeFrame.endTime > s.currentTime)
    | none => false)
  (match eid? with
   | some eid => findEvent s eid
   | none => none, r1)

/-- `getNextEvent(worker)`: the second iteration simply dereferences the
worker's first event id. -/
def getNextEvent (s : OfficeState) (w : Worker) : Option WorkerEvent :=
  w.workerEventIds.head?.bind (findEvent s)

/- ## Desk search (`findDeskForWorker`) -/

/-- `findDeskForWorker(worker)`: give up (FRUSTRATED/WANDERING) once the retry
counter has reached 3; otherwise move towards a candidate desk — the assigned
one in managed mode when present among candidates, else a random candidate —
resetting the counter; with no candidates, increment the counter and become
CONFUSED (or FRUSTRATED at 3) and wander. -/
noncomputable def findDeskForWorker (s : OfficeState) (wid : String)
    (r : Rand) : OfficeState × Rand :=
  match findW s wid with
  | none => (s, r)
  | some w =>
    if w.deskSearchAttempts ≥ 3 then
      let s1 := updW s wid (fun w2 => { w2 with
        mentalState := .FRUSTRATED, physicalState := .WANDERING })
      let (s2, r1) := setWorkerDialog s1 wid .FRUSTRATED 5000 r
      setRandomDestination s2 wid r1
    else
      let availableDesks := s.desks.filter (fun d =>
        d.state == DeskState.AVAILABLE ||
        (d.state == DeskState.ASSIGNED && occupiedByIs d.occupiedBy w.id))
      if 0 < availableDesks.length then
        let assigned? : Option Desk :=
          if s.isManaged && strTruthy w.assignedDeskId then
            availableDesks.find? (fun d => w.assignedDeskId == some d.id)
          else none
        match assigned? with
        | some assignedDesk =>
          (updW s wid (fun w2 => { w2 with
            destinationLocation :=
              some ⟨assignedDesk.destinationX, assignedDesk.destinationY⟩,
            physicalState := .MOVING_TO_DESK,
            deskSearchAttempts := 0 }), r)
        | none =>
          let (q, r1) := r.next
          let desk := availableDesks.getD (⌊q * availableDesks.length⌋).toNat
            default
          (updW s wid (fun w2 => { w2 with
            destinationLocation := some ⟨desk.destinationX, desk.destinationY⟩,
            physicalState := .MOVING_TO_DESK,
            deskSearchAttempts := 0 }), r1)
      else
        let s1 := updW s wid (fun w2 => { w2 with
          deskSearchAttempts := w2.deskSearchAttempts + 1 })
        if w.deskSearchAttempts + 1 ≥ 3 then
          let s2 := updW s1 wid (fun w2 => { w2 with
            mentalState := .FRUSTRATED, physicalState := .WANDERING })
          let (s3, r1) := setWorkerDialog s2 wid .FRUSTRATED 5000 r
          setRandomDestination s3 wid r1
        else
          let s2 := updW s1 wid (fun w2 => { w2 with
            mentalState := .CONFUSED, physicalState := .WANDERING })
          let (s3, r1) := setWorkerDialog s2 wid .CONFUSED 5000 r
          setRandomDestination s3 wid r1

/- ## Space search (`findSpaceForWorkerEvent`) -/

/-- `findSpaceForWorkerEvent(worker, event)`.  The attendee scan
(`attendeeIds.map(id => this.workersMap[id])`) is modelled with `filterMap`
(a dangling attendee id would crash the source, so modelled states never
contain one); the loop body only acts on an attendee whose occupied space
also resolves, continuing the scan otherwise, which is folded into the
search predicate. -/
noncomputable def findSpaceForWorkerEvent (s : OfficeState) (wid : String)
    (event : WorkerEvent) (r : Rand) : OfficeState × Rand :=
  match findW s wid with
  | none => (s, r)
  | some w =>
    let goSpace? : Option Space :=
      if event.spaceId != "" then
        match getSpaceById s event.spaceId with
        | some sp => if sp.state = SpaceState.AVAILABLE then some sp else none
        | none => none
      else none
    match goSpace? with
    | some sp =>
      (updW s wid (fun w2 => { w2 with
        destinationLocation :=
          some ⟨orElseNum sp.destinationX sp.x, orElseNum sp.destinationY sp.y⟩,
        physicalState := .MOVING_TO_SPACE }), r)
    | none =>
      let availableSpaces := s.spaces.filter
        (fun sp => sp.state == SpaceState.AVAILABLE)
      if 0 < availableSpaces.length then
        let eventAttendees := (match findEvent s event.id with
          | some e => e.attendeeIds
          | none => []).filterMap (findW s)
        match eventAttendees.find? (fun a =>
            a.id != w.id &&
            strTruthy a.occupiedSpace.currentOccupiedSpaceId &&
            a.physicalState == WorkerPhysicalState.ATTENDING_EVENT &&
            (getSpaceById s
              (a.occupiedSpace.currentOccupiedSpaceId.getD "")).isSome) with
        | some a =>
          let attendeeSpace := (getSpaceById s
            (a.occupiedSpace.currentOccupiedSpaceId.getD "")).getD default
          (updW s wid (fun w2 => { w2 with
            destinationLocation := some
              ⟨orElseNum attendeeSpace.destinationX attendeeSpace.x,
               orElseNum attendeeSpace.destinationY attendeeSpace.y⟩,
            physicalState := .MOVING_TO_SPACE }), r)
        | none =>
          let (q, r1) := r.next
          let sp := availableSpaces.getD (⌊q * availableSpaces.length⌋).toNat
            default
          (updW s wid (fun w2 => { w2 with
            destinationLocation := some
              ⟨orElseNum sp.destinationX sp.x, orElseNum sp.destinationY sp.y⟩,
            physicalState := .MOVING_TO_SPACE }), r1)
      else
        let s1 := updW s wid (fun w2 => { w2 with
          mentalState := .FRUSTRATED })
        if strTruthy w.occupiedDesk.lastOccupiedDeskId then
          let deskId := w.occupiedDesk.lastOccupiedDeskId.getD ""
          match getDeskById s1 deskId with
          | some desk =>
            if desk.state = DeskState.AVAILABLE then
              (updW s1 wid (fun w2 => { w2 with
                destinationLocation :=
                  some ⟨desk.destinationX, desk.destinationY⟩,
                physicalState := .MOVING_TO_DESK }), r)
            else findDeskForWorker s1 wid r
          | none => findDeskForWorker s1 wid r
        else findDeskForWorker s1 wid r

/- ## Arrival handlers -/

/-- `handleDeskArrival(worker)`: claim the desk at the worker's location when
it is AVAILABLE or ASSIGNED to this worker (recording the occupancy on both
sides), otherwise turn CONFUSED and re-run the desk search; with no desk at
the location, wander. -/
noncomputable def handleDeskArrival (s : OfficeState) (wid : String)
    (r : Rand) : OfficeState × Rand :=
  match findW s wid with
  | none => (s, r)
  | some w =>
    match findDeskAtLocation s w.location.x w.location.y with
    | none =>
      let s1 := updW s wid (fun w2 => { w2 with physicalState := .WANDERING })
      setRandomDestination s1 wid r
    | some desk =>
      if desk.state == DeskState.AVAILABLE ||
          (desk.state == DeskState.ASSIGNED &&
            occupiedByIs desk.occupiedBy w.id) then
        let s1 := updD s desk.id (fun d => { d with
          state := if d.state = DeskState.ASSIGNED then DeskState.ASSIGNED
            else DeskState.OCCUPIED,
          occupiedBy := some ⟨w.id, w.name⟩ })
        let s2 := updW s1 wid (fun w2 => { w2 with
          physicalState := .WORKING, mentalState := .HAPPY })
        let (s3, r1) := setWorkerDialog s2 wid .HAPPY 5000 r
        (updW s3 wid (fun w2 => { w2 with
          occupiedDesk := { w2.occupiedDesk with
            currentOccupiedDeskId := some desk.id,
            currentOccupiedTime := some s.currentTime } }), r1)
      else
        let s1 := updW s wid (fun w2 => { w2 with mentalState := .CONFUSED })
        let (s2, r1) := setWorkerDialog s1 wid .DESK_OCCUPIED 5000 r
        findDeskForWorker s2 wid r1

/-- `handleSpaceArrival(worker)`: join the space at the worker's location when
its occupying event equals the worker's target event; claim it when
AVAILABLE (binding it to the event); otherwise look for another space. -/
noncomputable def handleSpaceArrival (s : OfficeState) (wid : String)
    (r : Rand) : OfficeState × Rand :=
  match findW s wid with
  | none => (s, r)
  | some w =>
    let (currentEvent?, r1) := getNextEventStartingSoon s w r
    match currentEvent? with
    | none =>
      let s1 := updW s wid (fun w2 => { w2 with physicalState := .WANDERING })
      setRandomDestination s1 wid r1
    | some currentEvent =>
      match findSpaceAtLocation s w.location.x w.location.y with
      | none =>
        let s1 := updW s wid (fun w2 => { w2 with
          physicalState := .WANDERING })
        setRandomDestination s1 wid r1
      | some space =>
        if space.state = SpaceState.OCCUPIED then
          if (match findEventBySpace s space.id with
              | some se => se.id == currentEvent.id
              | none => false) then
            let s1 := updW s wid (fun w2 => { w2 with
              physicalState := .ATTENDING_EVENT,
              occupiedSpace := { w2.occupiedSpace with
                currentOccupiedSpaceId := some space.id,
                currentOccupiedTime := some s.currentTime } })
            setWorkerDialog s1 wid .SHARED_EVENT 5000 r1
          else
            let s1 := updW s wid (fun w2 => { w2 with
              mentalState := .CONFUSED })
            let (s2, r2) := setWorkerDialog s1 wid .SPACE_OCCUPIED 5000 r1
            findSpaceForWorkerEvent s2 wid currentEvent r2
        else
          let s1 := updSp s space.id (fun sp => { sp with
            state := SpaceState.OCCUPIED })
          let s2 := updW s1 wid (fun w2 => { w2 with
            physicalState := .ATTENDING_EVENT,
            occupiedSpace := { w2.occupiedSpace with
              currentOccupiedSpaceId := some space.id,
              currentOccupiedTime := some s.currentTime } })
          (updEv s2 currentEvent.id (fun e => { e with
            spaceId := space.id }), r1)

/- ## Per-tick state update (`updateWorkerState`)

The source body is one long method; it is split here into its four
consecutive blocks (the ATTENDING_EVENT block, the upcoming-event check,
the WANDERING checks and the WORKING dialog check), each of which re-reads
the live worker object exactly where the source does. -/

/-- The ATTENDING_EVENT block of `updateWorkerState`: the second iteration
dereferences `this.events[worker.workerEventIds[0]]` and treats the event as
over when that lookup fails or `currentTime` has passed its `endTime`; it
then releases the space (the crowd check filters workers on
`w.workerEventIds.includes(spaceId)`, exactly as written) and tries to return
to the last occupied desk. -/
noncomputable def attendingEventBranch (s : OfficeState) (wid : String)
    (r : Rand) : OfficeState × Rand :=
  match findW s wid with
  | none => (s, r)
  | some w =>
    let currentEvent? := w.workerEventIds.head?.bind (findEvent s)
    if (match currentEvent? with
        | none => true
        | some e => decide (s.currentTime > e.timeFrame.endTime)) then
      let (s1, r1) := setWorkerDialog s wid .EVENT_ENDING 5000 r
      let s2 :=
        if strTruthy w.occupiedSpace.currentOccupiedSpaceId then
          let spaceId := w.occupiedSpace.currentOccupiedSpaceId.getD ""
          match getSpaceById s1 spaceId with
          | some _ =>
            let otherWorkersInSpace := s1.workers.filter (fun w2 =>
              w2.workerEventIds.contains spaceId)
            let s2a :=
              if otherWorkersInSpace.length = 0 then
                updSp s1 spaceId (fun sp => { sp with
                  state := SpaceState.AVAILABLE })
              else s1
            updW s2a wid (fun w2 => { w2 with
              occupiedSpace := { w2.occupiedSpace with
                lastOccupiedSpaceId := some spaceId,
                currentOccupiedSpaceId := none } })
          | none => s1
        else s1
      if strTruthy w.occupiedDesk.lastOccupiedDeskId then
        let deskId := w.occupiedDesk.lastOccupiedDeskId.getD ""
        match getDeskById s2 deskId with
        | some desk =>
          if desk.state = DeskState.AVAILABLE then
            (updW s2 wid (fun w2 => { w2 with
              destinationLocation :=
                some ⟨desk.destinationX, desk.destinationY⟩,
              physicalState := .MOVING_TO_DESK,
              deskSearchAttempts := 0 }), r1)
          else
            let s3 := updW s2 wid (fun w2 => { w2 with
              mentalState := .CONFUSED, physicalState := .WANDERING })
            let (s4, r2) := setWorkerDialog s3 wid .STOLEN_DESK 5000 r1
            let s5 := updW s4 wid (fun w2 => { w2 with
              deskSearchAttempts := w2.deskSearchAttempts + 1 })
            findDeskForWorker s5 wid r2
        | none =>
          let s3 := updW s2 wid (fun w2 => { w2 with
            deskSearchAttempts := w2.deskSearchAttempts + 1,
            physicalState := .WANDERING })
          findDeskForWorker s3 wid r1
      else
        let s3 := updW s2 wid (fun w2 => { w2 with
          deskSearchAttempts := w2.deskSearchAttempts + 1,
          physicalState := .WANDERING })
        findDeskForWorker s3 wid r1
    else (s, r)

/-- The upcoming-event block of `updateWorkerState`: when the worker's first
event starts within a freshly rolled lookahead window, vacate the desk (when
WORKING at one) and search for the event's space.  The lookahead is only
rolled when `timeUntilEvent > 0`, mirroring JS short-circuit evaluation. -/
noncomputable def upcomingEventCheck (s : OfficeState) (wid : String)
    (r : Rand) : OfficeState × Rand :=
  match findW s wid with
  | none => (s, r)
  | some w =>
    if 0 < w.workerEventIds.length then
      match getNextEvent s w with
      | some nextEvent =>
        let timeUntilEvent := nextEvent.timeFrame.startTime - s.currentTime
        if 0 < timeUntilEvent then
          let (preT, r1) := getRandomPreEventTime r
          if timeUntilEvent ≤ preT then
            let (s1, r2) := setWorkerDialog s wid .EVENT_STARTING 5000 r1
            let s2 :=
              if w.physicalState = WorkerPhysicalState.WORKING ∧
                  strTruthy w.occupiedDesk.currentOccupiedDeskId then
                let deskId := w.occupiedDesk.currentOccupiedDeskId.getD ""
                match getDeskById s1 deskId with
                | some _ =>
                  let s2a := updD s1 deskId (fun d => { d with
                    state := if d.state = DeskState.OCCUPIED then
                      DeskState.AVAILABLE else d.state,
                    occupiedBy := none })
                  updW s2a wid (fun w2 => { w2 with
                    occupiedDesk := { w2.occupiedDesk with
                      lastOccupiedDeskId := some deskId,
                      currentOccupiedDeskId := none } })
                | none => s1
              else s1
            findSpaceForWorkerEvent s2 wid nextEvent r2
          else (s, r1)
        else (s, r)
      | none => (s, r)
    else (s, r)

/-- The FRUSTRATED/random-mood part of the WANDERING block of
`updateWorkerState`. -/
noncomputable def wanderingMoodSub (s : OfficeState) (wid : String)
    (r : Rand) : OfficeState × Rand :=
  match findW s wid with
  | none => (s, r)
  | some w =>
    if w.mentalState = WorkerMentalState.FRUSTRATED then
      let (q1, r1) := r.next
      let (s1, r2) := if q1 < 3 / 100 then
          setWorkerDialog s wid .FRUSTRATED 5000 r1
        else (s, r1)
      let (q2, r3) := r2.next
      if q2 < 5 / 1000 then
        let s2 := updW s1 wid (fun w2 => { w2 with deskSearchAttempts := 0 })
        findDeskForWorker s2 wid r3
      else (s1, r3)
    else
      let (q1, r1) := r.next
      if q1 < 2 / 100 then
        let (mood, r2) := r1.next
        if mood < 6 / 10 then
          let s1 := updW s wid (fun w2 => { w2 with
            mentalState := .FRUSTRATED })
          setWorkerDialog s1 wid .FRUSTRATED 5000 r2
        else if mood < 8 / 10 then
          let s1 := updW s wid (fun w2 => { w2 with
            mentalState := .CONFUSED })
          setWorkerDialog s1 wid .CONFUSED 5000 r2
        else
          let s1 := updW s wid (fun w2 => { w2 with
            mentalState := .HAPPY })
          let (q3, r3) := r2.next
          if q3 < 7 / 10 then setWorkerDialog s1 wid .WANDERING 5000 r3
          else (s1, r3)
      else (s, r1)

/-- The trailing random-dialog part of the WANDERING block (only drawn when
the worker currently has no dialog, mirroring JS short-circuiting). -/
noncomputable def wanderingRandomDialog (s : OfficeState) (wid : String)
    (r : Rand) : OfficeState × Rand :=
  match findW s wid with
  | none => (s, r)
  | some w =>
    if w.dialog = none then
      let (q, r1) := r.next
      if q < 1 / 100 then
        let key := match w.mentalState with
          | .FRUSTRATED => DialogKey.FRUSTRATED
          | .CONFUSED => DialogKey.CONFUSED
          | _ => DialogKey.WANDERING
        setWorkerDialog s wid key 5000 r1
      else (s, r1)
    else (s, r)

/-- The WANDERING block of `updateWorkerState` (guard evaluated once, then
both parts run on the live worker). -/
noncomputable def wanderingCheck (s : OfficeState) (wid : String) (r : Rand) :
    OfficeState × Rand :=
  match findW s wid with
  | none => (s, r)
  | some w =>
    if w.physicalState = WorkerPhysicalState.WANDERING then
      let (s1, r1) := wanderingMoodSub s wid r
      wanderingRandomDialog s1 wid r1
    else (s, r)

/-- The trailing WORKING dialog check of `updateWorkerState`. -/
noncomputable def workingDialogCheck (s : OfficeState) (wid : String)
    (r : Rand) : OfficeState × Rand :=
  match findW s wid with
  | none => (s, r)
  | some w =>
    if w.physicalState = WorkerPhysicalState.WORKING ∧ w.dialog = none then
      let (q, r1) := r.next
      if q < 5 / 1000 then setWorkerDialog s wid .HAPPY 5000 r1
      else (s, r1)
    else (s, r)

/-- `updateWorkerState(worker)`: early return unless the worker is WORKING,
WANDERING or ATTENDING_EVENT; the ATTENDING_EVENT block returns without
processing the rest. -/
noncomputable def updateWorkerState (s : OfficeState) (wid : String)
    (r : Rand) : OfficeState × Rand :=
  match findW s wid with
  | none => (s, r)
  | some w =>
    if w.physicalState ≠ WorkerPhysicalState.WORKING ∧
        w.physicalState ≠ WorkerPhysicalState.WANDERING ∧
        w.physicalState ≠ WorkerPhysicalState.ATTENDING_EVENT then
      (s, r)
    else if w.physicalState = WorkerPhysicalState.ATTENDING_EVENT then
      attendingEventBranch s wid r
    else
      let (s1, r1) := upcomingEventCheck s wid r
      let (s2, r2) := wanderingCheck s1 wid r1
      workingDialogCheck s2 wid r2

/- ## Tick driver (`updateWorkers`) -/

/-- `handleWorkerArrival(worker)`: dispatch on the physical state. -/
noncomputable def handleWorkerArrival (s : OfficeState) (wid : String)
    (r : Rand) : OfficeState × Rand :=
  match findW s wid with
  | none => (s, r)
  | some w =>
    match w.physicalState with
    | .MOVING_TO_DESK => handleDeskArrival s wid r
    | .MOVING_TO_SPACE => handleSpaceArrival s wid r
    | .ARRIVING => findDeskForWorker s wid r
    | .WANDERING =>
      let (s1, r1) := setRandomDestination s wid r
      let (q, r2) := r1.next
      if q < 5 / 10 then setWorkerDialog s1 wid .WANDERING 5000 r2
      else (s1, r2)
    | _ => (s, r)

/-- One worker's slice of `updateWorkers`: state update, movement towards a
destination with arrival detection, then dialog expiry. -/
noncomputable def processWorker (s : OfficeState) (wid : String) (r : Rand) :
    OfficeState × Rand :=
  let (s1, r1) := updateWorkerState s wid r
  let (s2, r2) :=
    match findW s1 wid with
    | none => (s1, r1)
    | some w1 =>
      if w1.destinationLocation.isSome then
        let s2a := updW s1 wid (fun w2 => moveWorkerTowardsDestination w2 2)
        match findW s2a wid with
        | none => (s2a, r1)
        | some w2 =>
          if w2.destinationLocation.isNone then handleWorkerArrival s2a wid r1
          else (s2a, r1)
      else (s1, r1)
  (updateWorkerDialog s2 wid, r2)

/-- `updateWorkers()`: iterate over the worker array (its ids are fixed for
the duration of the tick) and process each worker in order. -/
noncomputable def updateWorkers (s : OfficeState) (r : Rand) :
    OfficeState × Rand :=
  (s.workers.map (fun w => w.id)).foldl
    (fun (p : OfficeState × Rand) wid => processWorker p.1 wid p.2) (s, r)

/- ## Initialization (`initializeOffice` and its helpers) -/

/-- `getUniqueName(names, usedNames)`: the source redraws random pool names
until an unused one comes up (an unbounded loop).  Which pool name is chosen
affects no specified property, so the draw is modelled as one oracle string
draw. -/
def getUniqueName (r : Rand) : String × Rand := r.nextStr

/-- `new OfficeWorkerManager(canvasWidth, canvasHeight)`. -/
def OfficeWorkerManager (canvasWidth canvasHeight : ℝ) : OfficeState :=
  { workers := [], desks := [], spaces := [], events := [],
      utilityItems := [], canvasWidth := canvasWidth,
      canvasHeight := canvasHeight, isManaged := false, currentTime := 0 }

/-- `setManagedMode(isManaged)`. -/
def setManagedMode (s : OfficeState) (m : Bool) : OfficeState :=
  { s with isManaged := m }

/-- `setCurrentTime(time)`. -/
def setCurrentTime (s : OfficeState) (t : ℚ) : OfficeState :=
  { s with currentTime := t }

/-- `createDeskGroup({...})`: a rows-by-cols grid of AVAILABLE desks, each
consuming an id draw and a name draw. -/
def createDeskGroup (s : OfficeState) (startX startY : ℝ) (cols rows : ℕ)
    (spacingX spacingY deskWidth deskHeight : ℝ) (r : Rand) :
    OfficeState × Rand :=
  ((List.range rows).flatMap (fun row =>
    (List.range cols).map (fun col => (row, col)))).foldl
    (fun (p : OfficeState × Rand) rc =>
      let deskX := startX + (rc.2 : ℝ) * spacingX
      let deskY := startY + (rc.1 : ℝ) * spacingY
      let (did, r1) := generateId "desk" p.2
      let (nm, r2) := getUniqueName r1
      let d : Desk :=
        { x := deskX, y := deskY, width := deskWidth,
          height := deskHeight, destinationX := deskX, destinationY := deskY,
          id := did, name := nm, state := .AVAILABLE, occupiedBy := none }
      ({ p.1 with desks := p.1.desks ++ [d] }, r2)) (s, r)

/-- `createDesks()`: reset the desk registry and lay out the five groups. -/
def createDesks (s : OfficeState) (r : Rand) : OfficeState × Rand :=
  let s0 := { s with desks := [] }
  let (s1, r1) := createDeskGroup s0 500 220 2 4 30 50 20 40 r
  let (s2, r2) := createDeskGroup s1 650 220 2 4 30 50 20 40 r1
  let (s3, r3) := createDeskGroup s2 800 270 2 3 30 50 20 40 r2
  let (s4, r4) := createDeskGroup s3 950 270 2 3 30 50 20 40 r3
  createDeskGroup s4 500 470 3 2 50 30 40 20 r4

/-- `createSpace({x, y, width, height})`: one AVAILABLE space, destination at
its corner; consumes an id draw and a (discarded, fresh-set) name draw. -/
def createSpace (s : OfficeState) (x y width height : ℝ) (r : Rand) :
    OfficeState × Rand :=
  let (sid, r1) := generateId "space" r
  let (nm, r2) := getUniqueName r1
  let sp : Space :=
    { id := sid, name := nm, x := x, y := y,
      width := width, height := height, state := .AVAILABLE,
      destinationX := some x, destinationY := some y }
  ({ s with spaces := s.spaces ++ [sp] }, r2)

/-- The trailing rename pass of `createSpaces` (`forEach` assigning each
space a pool name). -/
def renameSpaces (s : OfficeState) (r : Rand) : OfficeState × Rand :=
  (s.spaces.map (fun sp => sp.id)).foldl
    (fun (p : OfficeState × Rand) sid =>
      let (nm, r1) := getUniqueName p.2
      (updSp p.1 sid (fun sp => { sp with name := nm }), r1)) (s, r)

/-- `createSpaces()`: reset the space registry, create the seven rooms, then
name them. -/
def createSpaces (s : OfficeState) (r : Rand) : OfficeState × Rand :=
  let s0 := { s with spaces := [] }
  let (s1, r1) := createSpace s0 300 300 100 200 r
  let (s2, r2) := createSpace s1 300 450 100 60 r1
  let (s3, r3) := createSpace s2 300 525 100 60 r2
  let (s4, r4) := createSpace s3 325 620 150 100 r3
  let (s5, r5) := createSpace s4 450 640 60 60 r4
  let (s6, r6) := createSpace s5 530 640 60 60 r5
  let (s7, r7) := createSpace s6 610 640 60 60 r6
  renameSpaces s7 r7

/-- `createUtilityItems()`: eight fixed positions. -/
def createUtilityItems (s : OfficeState) : OfficeState :=
  { s with utilityItems := s.utilityItems ++
    [⟨730, 520⟩, ⟨780, 570⟩, ⟨730, 650⟩, ⟨700, 680⟩,
     ⟨790, 400⟩, ⟨760, 430⟩, ⟨820, 430⟩, ⟨790, 460⟩] }

/-- The reject-and-retry start-time draw of `createEvents` (at most 10
attempts against the minimum-spacing heuristic). -/
def pickStartTime (evs : List WorkerEvent) (eventDuration total : ℚ) :
    ℕ → Rand → ℚ × Rand
  | 0, r => getRandomNumber (0 : ℚ) (total - eventDuration) r
  | (fuel + 1), r =>
    let (st, r1) := getRandomNumber (0 : ℚ) (total - eventDuration) r
    let tooClose := evs.any (fun e =>
      decide (|e.timeFrame.startTime - st| < eventDuration / 2))
    if fuel = 0 then (st, r1)
    else if tooClose then pickStartTime evs eventDuration total fuel r1
    else (st, r1)

/-- The event-creation loop of `createEvents`; `n` counts the remaining
events, `acc` is the registry built so far (insertion order). -/
def createEventsGo (spaces : List Space) (total : ℚ) (numEvents : ℕ) :
    ℕ → List WorkerEvent → Rand → List WorkerEvent × Rand
  | 0, acc, r => (acc, r)
  | (n + 1), acc, r =>
    let i := numEvents - (n + 1)
    let eventDuration : ℚ := 3 * 60 * 1000 / (numEvents : ℚ)
    let (st, r1) := pickStartTime acc eventDuration total 10 r
    let endTime := st + eventDuration
    let availableSpaces := spaces.filter
      (fun sp => sp.state == SpaceState.AVAILABLE)
    let (eid, r2) := generateId "event" r1
    let ev : WorkerEvent :=
      { id := eid,
        title := "Meeting " ++ toString (i + 1),
        timeFrame := ⟨st, endTime⟩, attendeeIds := [],
        spaceId := (match availableSpaces.head? with
          | some sp => sp.id
          | none => (spaces.headD default).id) }
    createEventsGo spaces total numEvents n (acc ++ [ev]) r2

/-- `createEvents(totalSimulationTime)`: replace the event registry with 5-10
fresh events. -/
def createEvents (s : OfficeState) (total : ℚ) (r : Rand) :
    OfficeState × Rand :=
  let (q, r1) := r.next
  let numEvents : ℕ := 5 + (⌊q * 6⌋).toNat
  let (evs, r2) := createEventsGo s.spaces total numEvents numEvents [] r1
  ({ s with events := evs }, r2)

/-- The event-assignment loop of `assignEventsToWorker`: each draw picks a
registry event (the registry's ids and order are fixed during the loop, so
the live list serves as the captured `allEvents` array), appends the worker
to its attendees, and records the event id. -/
def assignEventsGo (wid : String) :
    ℕ → OfficeState → List String → Rand → OfficeState × List String × Rand
  | 0, s, acc, r => (s, acc, r)
  | (n + 1), s, acc, r =>
    let (q, r1) := r.next
    let idx := (⌊q * s.events.length⌋).toNat
    let selected := s.events.getD idx default
    let s1 := updEv s selected.id (fun e => { e with
      attendeeIds := e.attendeeIds ++ [wid] })
    assignEventsGo wid n s1 (acc ++ [selected.id]) r1

/-- `assignEventsToWorker(worker)`: draw 1-3 events, register the worker as
attendee, sort the drawn ids by event start time (JS numeric sort is stable
ascending), and cache the first start time in `nextEventTime`. -/
def assignEventsToWorker (s : OfficeState) (wid : String) (r : Rand) :
    OfficeState × Rand :=
  if s.events.length = 0 then (s, r)
  else
    let (q, r1) := r.next
    let numEvents := 1 + (⌊q * 3⌋).toNat
    let (s1, assignedIds, r2) := assignEventsGo wid numEvents s [] r1
    let sorted := assignedIds.mergeSort (fun a b =>
      decide ((((findEvent s1 a).getD default).timeFrame.startTime) ≤
        (((findEvent s1 b).getD default).timeFrame.startTime)))
    let s2 := updW s1 wid (fun w => { w with workerEventIds := sorted })
    let nextStart :=
      (((sorted.head?.bind (findEvent s1)).getD default).timeFrame.startTime)
    let s3 :=
      if 0 < sorted.length then
        updW s2 wid (fun w => { w with nextEventTime := some nextStart })
      else s2
    (s3, r2)

/-- The worker name pool of `generateRandomNames`. -/
def WORKER_NAMES : List String :=
  ["Alice", "Bob", "Charlie", "David", "Emma",
   "Frank", "Grace", "Henry", "Ivy", "Jack",
   "Kate", "Leo", "Mia", "Noah", "Olivia",
   "Peter", "Quinn", "Ruby", "Sam", "Tina",
   "Uma", "Victor", "Wendy", "Xander", "Yasmin",
   "Zach"]

/-- `generateRandomNames(count)`: the source shuffles the pool with a
random-comparator `sort`, whose resulting permutation is engine-defined; the
permutation is modelled as the identity (no specified property depends on
name values), keeping the `i % length` cycling. -/
def generateRandomNames (count : ℕ) : List String :=
  (List.range count).map (fun i =>
    WORKER_NAMES.getD (i % WORKER_NAMES.length) "")

/-- The worker-creation loop of `createWorkers`; `n` counts the remaining
workers out of `numWorkers`. -/
noncomputable def createWorkersGo (names : List String) (numWorkers : ℕ) :
    ℕ → OfficeState → Rand → OfficeState × Rand
  | 0, s, r => (s, r)
  | (n + 1), s, r =>
    let i := numWorkers - (n + 1)
    let (workerId, r1) := generateId "worker" r
    let (lx, r2) := getRandomNumber (30 : ℝ) (s.canvasWidth - 30) r1
    let workerName := names.getD (i % names.length) ""
    let assignedDeskId : Option String :=
      if s.isManaged then some ((s.desks.getD (i % s.desks.length) default).id)
      else none
    let w : Worker :=
      { id := workerId, name := workerName,
        location := ⟨lx, 30⟩, workerEventIds := [],
        assignedDeskId := assignedDeskId,
        occupiedDesk := ⟨none, none, none, none⟩,
        occupiedSpace := ⟨none, none, none, none⟩,
        mentalState := .HAPPY, physicalState := .ARRIVING,
        destinationLocation := none, nextEventTime := none,
        dialog := some ⟨"Hello, I\x27m " ++ workerName ++ "!", 60000,
          s.currentTime⟩,
        deskSearchAttempts := 0 }
    let s1 := { s with workers := s.workers ++ [w] }
    let (s2, r3) :=
      if s.isManaged && strTruthy assignedDeskId then
        match getDeskById s1 (assignedDeskId.getD "") with
        | some assignedDesk =>
          let s2a := updD s1 assignedDesk.id (fun d => { d with
            state := DeskState.ASSIGNED,
            occupiedBy := some ⟨workerId, workerName⟩ })
          (updW s2a workerId (fun w2 => { w2 with
            destinationLocation :=
              some ⟨assignedDesk.destinationX, assignedDesk.destinationY⟩,
            physicalState := .MOVING_TO_DESK }), r2)
        | none => (s1, r2)
      else
        setRandomDestination s1 workerId r2
    let (s3, r4) := assignEventsToWorker s2 workerId r3
    createWorkersGo names numWorkers n s3 r4

/-- `createWorkers(numWorkers)`: reset the worker registry and create the
workers (ARRIVING, HAPPY, with a greeting dialog), assigning desks
round-robin in managed mode and random wander destinations otherwise. -/
noncomputable def createWorkers (s : OfficeState) (numWorkers : ℕ) (r : Rand) :
    OfficeState × Rand :=
  let names := generateRandomNames numWorkers
  createWorkersGo names numWorkers numWorkers { s with workers := [] } r

/-- `initializeOffice(numWorkers)`. -/
noncomputable def initializeOffice (s : OfficeState) (numWorkers : ℕ)
    (r : Rand) : OfficeState × Rand :=
  let (s1, r1) := createDesks s r
  let (s2, r2) := createSpaces s1 r1
  let s3 := createUtilityItems s2
  let (s4, r3) := createEvents s3 (60 * 1000) r2
  createWorkers s4 numWorkers r3

/- ## Day reset (`resetDay`) -/

/-- The per-worker reset loop of `resetDay`. -/
def resetWorkersGo : List String → OfficeState → Rand → OfficeState × Rand
  | [], s, r => (s, r)
  | wid :: rest, s, r =>
    let s1 := updW s wid (fun w => { w with
      occupiedDesk := ⟨none, none, none, none⟩,
      occupiedSpace := ⟨none, none, none, none⟩,
      location := ⟨150, 300⟩,
      physicalState := .ARRIVING,
      mentalState := .HAPPY,
      destinationLocation := none,
      dialog := none,
      deskSearchAttempts := 0,
      workerEventIds := [] })
    let (s2, r1) := assignEventsToWorker s1 wid r
    let s3 := updW s2 wid (fun w => { w with
      dialog := some ⟨"Starting a new day!", 5000, s2.currentTime⟩ })
    resetWorkersGo rest s3 r1

/-- `resetDay()`: desks keep (in managed mode) or drop their assignment,
spaces become AVAILABLE, a fresh day of events is generated, and every worker
is reset to the entrance in ARRIVING/HAPPY with fresh events. -/
def resetDay (s : OfficeState) (r : Rand) : OfficeState × Rand :=
  let resetDesk : Desk → Desk := fun d =>
    { d with
      state := if s.isManaged && d.occupiedBy.isSome then DeskState.ASSIGNED
        else DeskState.AVAILABLE,
      occupiedBy := if s.isManaged then d.occupiedBy else none }
  let s1 := { s with desks := s.desks.map resetDesk }
  let s2 :=
    { s1 with
      spaces := s1.spaces.map (fun sp =>
        { sp with state := SpaceState.AVAILABLE }) }
  let (s3, r1) := createEvents s2 (60 * 1000) r
  resetWorkersGo (s3.workers.map (fun w => w.id)) s3 r1

/- ## Derived observations and invariant predicates -/

/-- The Euclidean distance from a worker's location to a destination point,
exactly as computed inside `moveWorkerTowardsDestination`. -/
noncomputable def distTo (w : Worker) (dest : Point) : ℝ :=
  Real.sqrt ((dest.x - w.location.x) * (dest.x - w.location.x) +
    (dest.y - w.location.y) * (dest.y - w.location.y))

/-- Desk exclusivity: no two distinct workers hold the same
`currentOccupiedDeskId`. -/
def DeskExclusive (s : OfficeState) : Prop :=
  s.workers.Pairwise (fun w1 w2 => ∀ d : String,
    w1.occupiedDesk.currentOccupiedDeskId = some d →
    w2.occupiedDesk.currentOccupiedDeskId = some d → False)

/-- Well-formed registries: worker ids and desk ids are duplicate-free (the
random id generator of the source is collision-free in modelled states). -/
def WfIds (s : OfficeState) : Prop :=
  (s.workers.map (fun w => w.id)).Nodup ∧
  (s.desks.map (fun d => d.id)).Nodup

/-- An AVAILABLE desk carries no `occupiedBy` back-reference. -/
def AvailClean (s : OfficeState) : Prop :=
  ∀ d ∈ s.desks, d.state = DeskState.AVAILABLE → d.occupiedBy = none

/-- Every held `currentOccupiedDeskId` refers to an existing desk whose
`occupiedBy` back-reference names the holding worker. -/
def OwnsDesk (s : OfficeState) : Prop :=
  ∀ w ∈ s.workers, ∀ did : String,
    w.occupiedDesk.currentOccupiedDeskId = some did →
    ∃ d ∈ s.desks, d.id = did ∧
      ∃ ob : OccupiedBy, d.occupiedBy = some ob ∧ ob.workerId = w.id

/-- The inductive ownership invariant behind desk exclusivity. -/
def OwnInv (s : OfficeState) : Prop := WfIds s ∧ AvailClean s ∧ OwnsDesk s

/-- A concrete worker used to evaluate movement: at the origin, headed to
`(3, 4)`. -/
def mover0 : Worker :=
  { id := "worker-a", name := "A", location := ⟨0, 0⟩,
    workerEventIds := [], assignedDeskId := none,
    occupiedDesk := ⟨none, none, none, none⟩,
    occupiedSpace := ⟨none, none, none, none⟩,
    mentalState := .HAPPY, physicalState := .ARRIVING,
    destinationLocation := some ⟨3, 4⟩, nextEventTime := none,
    dialog := none, deskSearchAttempts := 0 }

/-- A fixed oracle: every numeric draw is `0`, string draws are pairwise
distinct. -/
def rand0 : Rand := ⟨fun _ => 0, fun n => String.mk (List.replicate n 'a'), 0⟩

/-- A concrete worker whose desk-search retry counter is already at 5. -/
def w5 : Worker :=
  { id := "w5", name := "Wanda", location := ⟨50, 150⟩,
    workerEventIds := [], assignedDeskId := none,
    occupiedDesk := ⟨none, none, none, none⟩,
    occupiedSpace := ⟨none, none, none, none⟩,
    mentalState := .HAPPY, physicalState := .WANDERING,
    destinationLocation := none, nextEventTime := none,
    dialog := none, deskSearchAttempts := 5 }

/-- A deskless office holding only `w5`. -/
def s5s : OfficeState :=
  { workers := [w5], desks := [], spaces := [], events := [],
    utilityItems := [], canvasWidth := 100, canvasHeight := 100,
    isManaged := false, currentTime := 0 }

/-- A concrete AVAILABLE desk with destination point `(10, 20)`. -/
def d6 : Desk :=
  { x := 10, y := 20, width := 20, height := 40, destinationX := 10,
    destinationY := 20, id := "d6", name := "Desk Six",
    state := .AVAILABLE, occupiedBy := none }

/-- A managed-mode worker assigned to `d6` whose retry counter is at the cap. -/
def w6 : Worker :=
  { id := "w6", name := "Walt", location := ⟨50, 150⟩,
    workerEventIds := [], assignedDeskId := some "d6",
    occupiedDesk := ⟨none, none, none, none⟩,
    occupiedSpace := ⟨none, none, none, none⟩,
    mentalState := .HAPPY, physicalState := .WANDERING,
    destinationLocation := none, nextEventTime := none,
    dialog := none, deskSearchAttempts := 3 }

/-- Managed-mode office: only `w6` and its vacant assigned desk `d6`. -/
def s6s : OfficeState :=
  { workers := [w6], desks := [d6], spaces := [], events := [],
    utilityItems := [], canvasWidth := 100, canvasHeight := 100,
    isManaged := true, currentTime := 0 }

/-- Like `w6`, but with the retry counter still at 0. -/
def w6b : Worker :=
  { id := "w6", name := "Walt", location := ⟨50, 150⟩,
    workerEventIds := [], assignedDeskId := some "d6",
    occupiedDesk := ⟨none, none, none, none⟩,
    occupiedSpace := ⟨none, none, none, none⟩,
    mentalState := .HAPPY, physicalState := .WANDERING,
    destinationLocation := none, nextEventTime := none,
    dialog := none, deskSearchAttempts := 0 }

/-- Managed-mode office: only `w6b` and its vacant assigned desk `d6`. -/
def s6ok : OfficeState :=
  { workers := [w6b], desks := [d6], spaces := [], events := [],
    utilityItems := [], canvasWidth := 100, canvasHeight := 100,
    isManaged := true, currentTime := 0 }

/-- A freshly reset worker: ARRIVING at the entrance with no destination. -/
def w9 : Worker :=
  { id := "w9", name := "Wes", location := ⟨150, 300⟩,
    workerEventIds := [], assignedDeskId := none,
    occupiedDesk := ⟨none, none, none, none⟩,
    occupiedSpace := ⟨none, none, none, none⟩,
    mentalState := .HAPPY, physicalState := .ARRIVING,
    destinationLocation := none, nextEventTime := none,
    dialog := none, deskSearchAttempts := 0 }

/-- An office holding only the freshly reset worker `w9`. -/
def s9s : OfficeState :=
  { workers := [w9], desks := [], spaces := [], events := [],
    utilityItems := [], canvasWidth := 100, canvasHeight := 100,
    isManaged := false, currentTime := 0 }

/-- A wandering worker holding a dialog that expired long ago. -/
def w8 : Worker :=
  { id := "w8", name := "Wava", location := ⟨10, 10⟩,
    workerEventIds := [], assignedDeskId := none,
    occupiedDesk := ⟨none, none, none, none⟩,
    occupiedSpace := ⟨none, none, none, none⟩,
    mentalState := .HAPPY, physicalState := .WANDERING,
    destinationLocation := none, nextEventTime := none,
    dialog := some ⟨"hi", 5, 0⟩, deskSearchAttempts := 0 }

/-- An office at time 100 holding only `w8`. -/
def s8s : OfficeState :=
  { workers := [w8], desks := [], spaces := [], events := [],
    utilityItems := [], canvasWidth := 100, canvasHeight := 100,
    isManaged := false, currentTime := 100 }

/-- A shared space currently serving an event (OCCUPIED). -/
def sp1 : Space :=
  { id := "sp1", name := "Room A", x := 500, y := 80, width := 120,
    height := 120, state := .OCCUPIED, destinationX := some 560,
    destinationY := some 140 }

/-- A two-attendee event in `sp1` that has already ended at time 100. -/
def ev2 : WorkerEvent :=
  { id := "e1", title := "Meeting 1", timeFrame := ⟨0, 10⟩,
    attendeeIds := ["wa", "wb"], spaceId := "sp1" }

/-- Attendee A of `ev2`, attending in `sp1`. -/
def wa : Worker :=
  { id := "wa", name := "Ana", location := ⟨560, 140⟩,
    workerEventIds := ["e1"], assignedDeskId := none,
    occupiedDesk := ⟨none, none, none, none⟩,
    occupiedSpace := ⟨none, none, some "sp1", some 0⟩,
    mentalState := .HAPPY, physicalState := .ATTENDING_EVENT,
    destinationLocation := none, nextEventTime := none,
    dialog := none, deskSearchAttempts := 0 }

/-- Attendee B of `ev2`, still attending in `sp1`. -/
def wb : Worker :=
  { id := "wb", name := "Ben", location := ⟨560, 140⟩,
    workerEventIds := ["e1"], assignedDeskId := none,
    occupiedDesk := ⟨none, none, none, none⟩,
    occupiedSpace := ⟨none, none, some "sp1", some 0⟩,
    mentalState := .HAPPY, physicalState := .ATTENDING_EVENT,
    destinationLocation := none, nextEventTime := none,
    dialog := none, deskSearchAttempts := 0 }

/-- Office at time 100: `ev2` is over, both its attendees are still in
`sp1`. -/
def s2s : OfficeState :=
  { workers := [wa, wb], desks := [], spaces := [sp1], events := [ev2],
    utilityItems := [], canvasWidth := 900, canvasHeight := 700,
    isManaged := false, currentTime := 100 }

/-- First event of worker `wc`: already over at time 100. -/
def ev3a : WorkerEvent :=
  { id := "e1", title := "Meeting 1", timeFrame := ⟨0, 10⟩,
    attendeeIds := ["wc"], spaceId := "sp1" }

/-- Second event of worker `wc`: spans time 100. -/
def ev3b : WorkerEvent :=
  { id := "e2", title := "Meeting 2", timeFrame := ⟨50, 200⟩,
    attendeeIds := ["wc"], spaceId := "sp1" }

/-- A worker attending in `sp1` whose event list still has an event spanning
the current time. -/
def wc : Worker :=
  { id := "wc", name := "Cam", location := ⟨560, 140⟩,
    workerEventIds := ["e1", "e2"], assignedDeskId := none,
    occupiedDesk := ⟨none, none, none, none⟩,
    occupiedSpace := ⟨none, none, some "sp1", some 0⟩,
    mentalState := .HAPPY, physicalState := .ATTENDING_EVENT,
    destinationLocation := none, nextEventTime := none,
    dialog := none, deskSearchAttempts := 0 }

/-- Office at time 100 with `wc` attending: `e1` is over but `e2` spans the
current time. -/
def s3s : OfficeState :=
  { workers := [wc], desks := [], spaces := [sp1], events := [ev3a, ev3b],
    utilityItems := [], canvasWidth := 900, canvasHeight := 700,
    isManaged := false, currentTime := 100 }

/-- A two-attendee event in space `sp4`, ongoing at time 100. -/
def ev4 : WorkerEvent :=
  { id := "e4", title := "Meeting 4", timeFrame := ⟨0, 200⟩,
    attendeeIds := ["wa4", "wb4"], spaceId := "sp4" }

/-- The OCCUPIED space serving `ev4`. -/
def sp4 : Space :=
  { id := "sp4", name := "Room B", x := 500, y := 80, width := 120,
    height := 120, state := .OCCUPIED, destinationX := some 560,
    destinationY := some 140 }

/-- Attendee A of `ev4`, already attending in `sp4`. -/
def wa4 : Worker :=
  { id := "wa4", name := "Ada", location := ⟨560, 140⟩,
    workerEventIds := ["e4"], assignedDeskId := none,
    occupiedDesk := ⟨none, none, none, none⟩,
    occupiedSpace := ⟨none, none, some "sp4", some 50⟩,
    mentalState := .HAPPY, physicalState := .ATTENDING_EVENT,
    destinationLocation := none, nextEventTime := none,
    dialog := none, deskSearchAttempts := 0 }

/-- Attendee B of `ev4`, arriving at `sp4` while A attends. -/
def wb4 : Worker :=
  { id := "wb4", name := "Bea", location := ⟨560, 140⟩,
    workerEventIds := ["e4"], assignedDeskId := none,
    occupiedDesk := ⟨none, none, none, none⟩,
    occupiedSpace := ⟨none, none, none, none⟩,
    mentalState := .HAPPY, physicalState := .MOVING_TO_SPACE,
    destinationLocation := none, nextEventTime := some 0,
    dialog := none, deskSearchAttempts := 0 }

/-- Office at time 100 for the two-attendee join scenario. -/
def s4s : OfficeState :=
  { workers := [wa4, wb4], desks := [], spaces := [sp4], events := [ev4],
    utilityItems := [], canvasWidth := 900, canvasHeight := 700,
    isManaged := false, currentTime := 100 }

/-- A dialog that is either cleared or freshly stamped at the given time. -/
def FreshOrNone (ct : ℚ) (o : Option Dialog) : Prop :=
  o = none ∨ ∃ t : String, o = some ⟨t, 5000, ct⟩

/-- One worker-processing step touches only the worker with the given id
among the workers, preserves ids, and only ever overwrites dialogs with
fresh 5000 ms ones stamped at the current time. -/
def WStep (s s' : OfficeState) (wid : String) : Prop :=
  ∃ f : Worker → Worker,
    s'.workers = (updW s wid f).workers ∧
    (∀ w, (f w).id = w.id) ∧
    (∀ w, (f w).dialog = w.dialog ∨
      ∃ t : String, (f w).dialog = some ⟨t, 5000, s.currentTime⟩)

/-- The tick never changes the clock, the mode or the canvas. -/
def ScalarKeep (s s' : OfficeState) : Prop :=
  s'.currentTime = s.currentTime ∧ s'.isManaged = s.isManaged ∧
  s'.canvasWidth = s.canvasWidth ∧ s'.canvasHeight = s.canvasHeight

/-- Bundled worker-processing step: worker-only mutation plus scalar
preservation. -/
def PStep (s s' : OfficeState) (wid : String) : Prop :=
  WStep s s' wid ∧ ScalarKeep s s'


/-- A step that leaves the desk registry and every worker\x27s identity and
desk holding untouched. -/
def DFrame (s s2 : OfficeState) : Prop :=
  s2.desks = s.desks ∧
  s2.workers.map (fun w => (w.id, w.occupiedDesk.currentOccupiedDeskId)) =
    s.workers.map (fun w => (w.id, w.occupiedDesk.currentOccupiedDeskId))

/-- The oracle only advances as draws are consumed: the value and string
streams are fixed and the cursor never moves back. -/
def RandLe (r r2 : Rand) : Prop :=
  r2.val = r.val ∧ r2.str = r.str ∧ r.k ≤ r2.k

/-- A registry of ids drawn with `generateId pre`: distinct oracle indices
below the cursor, each id the prefix, a dash and the drawn string. -/
def IdsBelow (pre : String) (ids : List String) (r : Rand) : Prop :=
  ∃ ks : List ℕ, ks.Nodup ∧ (∀ j ∈ ks, j < r.k) ∧
    ids = ks.map (fun j => pre ++ "-" ++ r.str j)

/-- The creation-phase invariant behind `OwnInv`: worker ids drawn with the
worker prefix, desk ids duplicate-free, AVAILABLE desks unclaimed, and no
worker holding a desk yet. -/
def InitInv (s : OfficeState) (r : Rand) : Prop :=
  IdsBelow "worker" (s.workers.map (fun w => w.id)) r ∧
  (s.desks.map (fun d => d.id)).Nodup ∧
  AvailClean s ∧
  (∀ w ∈ s.workers, w.occupiedDesk.currentOccupiedDeskId = none)

/-- The states the manager API reaches: construction plus `initializeOffice`
under a collision-free id oracle, ticks, day resets, re-initialisation, and
the time/mode setters. -/
inductive Reachable : OfficeState → Prop where
  | init (cw ch : ℝ) (n : ℕ) (r : Rand) (hinj : InjStr r) :
      Reachable (initializeOffice (OfficeWorkerManager cw ch) n r).1
  | reinit (s : OfficeState) (n : ℕ) (r : Rand) (h : Reachable s)
      (hinj : InjStr r) : Reachable (initializeOffice s n r).1
  | tick (s : OfficeState) (r : Rand) (h : Reachable s) :
      Reachable (updateWorkers s r).1
  | reset (s : OfficeState) (r : Rand) (h : Reachable s) :
      Reachable (resetDay s r).1
  | setTime (s : OfficeState) (t : ℚ) (h : Reachable s) :
      Reachable (setCurrentTime s t)
  | setMode (s : OfficeState) (m : Bool) (h : Reachable s) :
      Reachable (setManagedMode s m)

/- # Theorems -/

theorem distTo_nonneg (w : Worker) (p : Point) : 0 ≤ distTo w p :=
  Real.sqrt_nonneg _

theorem distTo_le_zero (w : Worker) (p : Point) (h : distTo w p ≤ 0) :
    w.location = p := by
  unfold distTo at h
  have hx : 0 ≤ (p.x - w.location.x) * (p.x - w.location.x) :=
    mul_self_nonneg _
  have hy : 0 ≤ (p.y - w.location.y) * (p.y - w.location.y) :=
    mul_self_nonneg _
  have h0 : Real.sqrt ((p.x - w.location.x) * (p.x - w.location.x) +
      (p.y - w.location.y) * (p.y - w.location.y)) = 0 :=
    le_antisymm h (Real.sqrt_nonneg _)
  rw [Real.sqrt_eq_zero (by linarith)] at h0
  have hx0 : p.x - w.location.x = 0 := by
    rw [← mul_self_eq_zero]
    linarith [(mul_self_nonneg (p.y - w.location.y))]
  have hy0 : p.y - w.location.y = 0 := by
    rw [← mul_self_eq_zero]
    linarith
  ext <;> linarith

theorem moveWorker_noDest (w : Worker) (speed : ℝ)
    (h : w.destinationLocation = none) :
    moveWorkerTowardsDestination w speed = w := by
  unfold moveWorkerTowardsDestination
  rw [h]

theorem moveWorker_snap (w : Worker) (dest : Point) (speed : ℝ)
    (hdest : w.destinationLocation = some dest)
    (hlt : distTo w dest < speed) :
    moveWorkerTowardsDestination w speed =
      { w with location := ⟨dest.x, dest.y⟩, destinationLocation := none } := by
  have hconv : Real.sqrt ((dest.x - w.location.x) * (dest.x - w.location.x) +
      (dest.y - w.location.y) * (dest.y - w.location.y)) < speed := hlt
  unfold moveWorkerTowardsDestination
  rw [hdest]
  simp only
  rw [if_pos hconv]

theorem moveWorker_advance (w : Worker) (dest : Point) (speed : ℝ)
    (hdest : w.destinationLocation = some dest)
    (hge : speed ≤ distTo w dest) :
    moveWorkerTowardsDestination w speed =
      { w with location :=
        ⟨w.location.x + (dest.x - w.location.x) / distTo w dest * speed,
         w.location.y + (dest.y - w.location.y) / distTo w dest * speed⟩ } := by
  have hconv : ¬ (Real.sqrt ((dest.x - w.location.x) * (dest.x - w.location.x)
      + (dest.y - w.location.y) * (dest.y - w.location.y)) < speed) :=
    not_lt.mpr hge
  unfold moveWorkerTowardsDestination
  rw [hdest]
  simp only
  rw [if_neg hconv]
  rfl

theorem sqrt_advance_dist (dx dy speed : ℝ) (hsp : 0 < speed)
    (hge : speed ≤ Real.sqrt (dx * dx + dy * dy)) :
    Real.sqrt ((dx - dx / Real.sqrt (dx * dx + dy * dy) * speed) *
        (dx - dx / Real.sqrt (dx * dx + dy * dy) * speed) +
      (dy - dy / Real.sqrt (dx * dx + dy * dy) * speed) *
        (dy - dy / Real.sqrt (dx * dx + dy * dy) * speed)) =
      Real.sqrt (dx * dx + dy * dy) - speed := by
  set d := Real.sqrt (dx * dx + dy * dy) with hd_def
  have hd : 0 < d := lt_of_lt_of_le hsp hge
  have hD : 0 ≤ dx * dx + dy * dy :=
    add_nonneg (mul_self_nonneg dx) (mul_self_nonneg dy)
  have hsq : d * d = dx * dx + dy * dy := Real.mul_self_sqrt hD
  have key : (dx - dx / d * speed) * (dx - dx / d * speed) +
      (dy - dy / d * speed) * (dy - dy / d * speed) =
      ((d - speed) / d) ^ 2 * (dx * dx + dy * dy) := by
    field_simp
    ring
  rw [key, Real.sqrt_mul (sq_nonneg _), Real.sqrt_sq
    (div_nonneg (by linarith) hd.le), ← hd_def, div_mul_cancel₀ _ hd.ne']

theorem moveWorker_dist_dec (w : Worker) (dest : Point) (speed : ℝ)
    (hdest : w.destinationLocation = some dest) (hsp : 0 < speed)
    (hge : speed ≤ distTo w dest) :
    distTo (moveWorkerTowardsDestination w speed) dest =
      distTo w dest - speed := by
  rw [moveWorker_advance w dest speed hdest hge]
  unfold distTo at hge ⊢
  have harg : ∀ a b c : ℝ, a - (b + (a - b) / c * speed) =
      (a - b) - (a - b) / c * speed := by
    intro a b c
    ring
  simp only
  rw [harg, harg]
  exact sqrt_advance_dist _ _ speed hsp hge

theorem moveWorker_iterate_reach (speed : ℝ) (hsp : 0 < speed) :
    ∀ (k : ℕ) (w : Worker) (dest : Point),
      ((w.destinationLocation = some dest ∧ distTo w dest ≤ k * speed) ∨
        (w.location = dest ∧ (w.destinationLocation = none ∨
          w.destinationLocation = some dest))) →
      ((fun w2 => moveWorkerTowardsDestination w2 speed)^[k] w).location =
        dest := by
  intro k
  induction k with
  | zero =>
    intro w dest h
    simp only [Function.iterate_zero, id]
    rcases h with ⟨_, hle⟩ | ⟨hloc, _⟩
    · exact distTo_le_zero w dest (by simpa using hle)
    · exact hloc
  | succ k ih =>
    intro w dest h
    rw [Function.iterate_succ_apply]
    rcases h with ⟨hdest, hle⟩ | ⟨hloc, hd⟩
    · by_cases hlt : distTo w dest < speed
      · rw [moveWorker_snap w dest speed hdest hlt]
        exact ih _ dest (Or.inr ⟨rfl, Or.inl rfl⟩)
      · have hge := not_lt.mp hlt
        apply ih _ dest
        left
        constructor
        · rw [moveWorker_advance w dest speed hdest hge]
          exact hdest
        · rw [moveWorker_dist_dec w dest speed hdest hsp hge]
          push_cast at hle
          linarith
    · rcases hd with hnone | hsome
      · rw [moveWorker_noDest w speed hnone]
        exact ih _ dest (Or.inr ⟨hloc, Or.inl hnone⟩)
      · have hlt : distTo w dest < speed := by
          have : distTo w dest = 0 := by
            unfold distTo
            rw [hloc]
            simp [Real.sqrt_eq_zero']
          rw [this]
          exact hsp
        rw [moveWorker_snap w dest speed hsome hlt]
        exact ih _ dest (Or.inr ⟨rfl, Or.inl rfl⟩)

theorem find?_map_comm {α : Type} (g : α → α) (p : α → Bool) (l : List α)
    (h : ∀ a, p (g a) = p a) : (l.map g).find? p = (l.find? p).map g := by
  induction l with
  | nil => rfl
  | cons a t ih =>
    simp only [List.map_cons, List.find?_cons, h a]
    cases hpa : p a
    · exact ih
    · rfl

theorem updW_id_fix {f : Worker → Worker} (hf : ∀ w, (f w).id = w.id)
    (wid wid' : String) (w : Worker) :
    (((if w.id = wid then f w else w).id == wid') : Bool) =
      ((w.id == wid') : Bool) := by
  by_cases hcase : w.id = wid
  · rw [if_pos hcase, hf w]
  · rw [if_neg hcase]

theorem findW_updW (s : OfficeState) (wid wid' : String)
    (f : Worker → Worker) (hf : ∀ w, (f w).id = w.id) :
    findW (updW s wid f) wid' =
      (findW s wid').map (fun w => if w.id = wid then f w else w) := by
  unfold findW updW
  exact find?_map_comm _ _ _ (updW_id_fix hf wid wid')

theorem findW_mem_id (s : OfficeState) (wid : String) (w : Worker)
    (h : findW s wid = some w) : w.id = wid := by
  have := List.find?_some h
  simpa using this

theorem findW_updW_self (s : OfficeState) (wid : String)
    (f : Worker → Worker) (hf : ∀ w, (f w).id = w.id) :
    findW (updW s wid f) wid = (findW s wid).map f := by
  rw [findW_updW s wid wid f hf]
  cases h : findW s wid with
  | none => rfl
  | some w =>
    simp only [Option.map_some']
    rw [if_pos (findW_mem_id s wid w h)]

theorem findW_updW_ne (s : OfficeState) (wid wid' : String)
    (f : Worker → Worker) (hf : ∀ w, (f w).id = w.id) (hne : wid' ≠ wid) :
    findW (updW s wid f) wid' = findW s wid' := by
  rw [findW_updW s wid wid' f hf]
  cases h : findW s wid' with
  | none => rfl
  | some w =>
    simp only [Option.map_some']
    rw [if_neg]
    rw [findW_mem_id s wid' w h]
    exact hne

theorem updW_updW (s : OfficeState) (wid : String) (f g : Worker → Worker)
    (hf : ∀ w, (f w).id = w.id) :
    updW (updW s wid f) wid g = updW s wid (fun w => g (f w)) := by
  unfold updW
  simp only [List.map_map]
  congr 1
  apply List.map_congr_left
  intro w _
  by_cases hcase : w.id = wid
  · simp only [Function.comp_apply, if_pos hcase, if_pos (hf w ▸ hcase : (f w).id = wid)]
  · simp only [Function.comp_apply, if_neg hcase]

theorem updW_desks (s : OfficeState) (wid : String) (f : Worker → Worker) :
    (updW s wid f).desks = s.desks := rfl

theorem updW_spaces (s : OfficeState) (wid : String) (f : Worker → Worker) :
    (updW s wid f).spaces = s.spaces := rfl

theorem updW_events (s : OfficeState) (wid : String) (f : Worker → Worker) :
    (updW s wid f).events = s.events := rfl

theorem updW_currentTime (s : OfficeState) (wid : String)
    (f : Worker → Worker) : (updW s wid f).currentTime = s.currentTime := rfl

theorem updW_isManaged (s : OfficeState) (wid : String)
    (f : Worker → Worker) : (updW s wid f).isManaged = s.isManaged := rfl

theorem setWorkerDialog_shape (s : OfficeState) (wid : String)
    (key : DialogKey) (dur : ℚ) (r : Rand) :
    ∃ t : String, setWorkerDialog s wid key dur r =
      (updW s wid (fun w => { w with
        dialog := some ⟨t, dur, s.currentTime⟩ }), r.next.2) :=
  ⟨_, rfl⟩

theorem setRandomDestination_shape (s : OfficeState) (wid : String) (r : Rand)
    (w : Worker) (hw : findW s wid = some w) :
    ∃ (p : Point) (r' : Rand), setRandomDestination s wid r =
      (updW s wid (fun w2 => { w2 with destinationLocation := some p }), r') := by
  unfold setRandomDestination
  rw [hw]
  exact ⟨_, _, rfl⟩

theorem findW_wanderTail (X : OfficeState) (wid : String) (k : DialogKey)
    (r : Rand) (w' : Worker)
    (h : findW (setRandomDestination (setWorkerDialog X wid k 5000 r).1 wid
      (setWorkerDialog X wid k 5000 r).2).1 wid = some w') :
    ∃ (wx : Worker) (t : String) (p : Point), findW X wid = some wx ∧
      w' = { wx with
             dialog := some ⟨t, 5000, X.currentTime⟩,
             destinationLocation := some p } := by
  cases hX : findW X wid with
  | none =>
    unfold setWorkerDialog Rand.next at h
    simp only at h
    unfold setRandomDestination at h
    rw [findW_updW_self] at h <;> try (intro w2; exact rfl)
    rw [hX] at h
    simp only [Option.map_none'] at h
    rw [findW_updW_self] at h <;> try (intro w2; exact rfl)
    rw [hX] at h
    simp at h
  | some wx =>
    unfold setWorkerDialog Rand.next at h
    simp only [updW_currentTime] at h
    unfold setRandomDestination at h
    rw [findW_updW_self] at h <;> try (intro w2; exact rfl)
    rw [hX] at h
    simp only [Option.map_some'] at h
    rw [updW_updW] at h <;> try (intro w2; exact rfl)
    rw [findW_updW_self] at h <;> try (intro w2; exact rfl)
    rw [hX] at h
    simp only [Option.map_some', Option.some.injEq] at h
    exact ⟨wx, _, _, rfl, h.symm⟩

/-- C5: retry-cap mood postcondition.  After any call of `findDeskForWorker`
on an existing worker: a retry counter at or above 3 on return forces mood
FRUSTRATED (in particular not HAPPY) and state WANDERING, and a counter that
was incremented but is still below 3 forces mood CONFUSED. -/
theorem C5_retry_mood (s : OfficeState) (wid : String) (w w' : Worker)
    (r : Rand) (hw : findW s wid = some w)
    (hw' : findW (findDeskForWorker s wid r).1 wid = some w') :
    (3 ≤ w'.deskSearchAttempts →
      w'.mentalState = WorkerMentalState.FRUSTRATED ∧
      w'.mentalState ≠ WorkerMentalState.HAPPY ∧
      w'.physicalState = WorkerPhysicalState.WANDERING) ∧
    (w'.deskSearchAttempts = w.deskSearchAttempts + 1 →
      w'.deskSearchAttempts < 3 →
      w'.mentalState = WorkerMentalState.CONFUSED) := by
  unfold findDeskForWorker at hw'
  simp only [hw] at hw'
  split at hw'
  case _ hcap =>
    obtain ⟨wx, t, p, hx, hw'eq⟩ := findW_wanderTail _ _ _ _ _ hw'
    rw [findW_updW_self] at hx <;> try (intro w2; exact rfl)
    rw [hw] at hx
    simp only [Option.map_some', Option.some.injEq] at hx
    subst hx
    subst hw'eq
    refine ⟨fun _ => ⟨rfl, by simp, rfl⟩, fun hinc _ => ?_⟩
    simp at hinc
  case _ hcap =>
    split at hw'
    case _ hcand =>
      split at hw'
      case _ assignedDesk heq =>
        simp only at hw'
        rw [findW_updW_self] at hw' <;> try (intro w2; exact rfl)
        rw [hw] at hw'
        simp only [Option.map_some', Option.some.injEq] at hw'
        subst hw'
        exact ⟨fun hge => absurd hge (by simp), fun hinc => absurd hinc (by simp)⟩
      case _ heq =>
        simp only at hw'
        rw [findW_updW_self] at hw' <;> try (intro w2; exact rfl)
        rw [hw] at hw'
        simp only [Option.map_some', Option.some.injEq] at hw'
        subst hw'
        exact ⟨fun hge => absurd hge (by simp), fun hinc => absurd hinc (by simp)⟩
    case _ hcand =>
      split at hw'
      case _ hge3 =>
        obtain ⟨wx, t, p, hx, hw'eq⟩ := findW_wanderTail _ _ _ _ _ hw'
        rw [updW_updW] at hx <;> try (intro w2; exact rfl)
        rw [findW_updW_self] at hx <;> try (intro w2; exact rfl)
        rw [hw] at hx
        simp only [Option.map_some', Option.some.injEq] at hx
        subst hx
        subst hw'eq
        refine ⟨fun _ => ⟨rfl, by simp, rfl⟩, fun _ hlt => ?_⟩
        simp only at hlt
        omega
      case _ hge3 =>
        obtain ⟨wx, t, p, hx, hw'eq⟩ := findW_wanderTail _ _ _ _ _ hw'
        rw [updW_updW] at hx <;> try (intro w2; exact rfl)
        rw [findW_updW_self] at hx <;> try (intro w2; exact rfl)
        rw [hw] at hx
        simp only [Option.map_some', Option.some.injEq] at hx
        subst hx
        subst hw'eq
        refine ⟨fun hge => ?_, fun _ _ => rfl⟩
        simp only at hge
        omega

/-- Witness for C5: in the deskless office, the worker with counter 5 comes
out of `findDeskForWorker` FRUSTRATED and WANDERING. -/
theorem C5_retry_mood_witness :
    ∃ w' : Worker,
      findW (findDeskForWorker s5s "w5" rand0).1 "w5" = some w' ∧
      3 ≤ w'.deskSearchAttempts ∧
      w'.mentalState = WorkerMentalState.FRUSTRATED ∧
      w'.mentalState ≠ WorkerMentalState.HAPPY ∧
      w'.physicalState = WorkerPhysicalState.WANDERING := by
  have hw : findW s5s "w5" = some w5 := rfl
  have hw' : ∃ p : Point, findW (findDeskForWorker s5s "w5" rand0).1 "w5" =
      some { w5 with
             mentalState := WorkerMentalState.FRUSTRATED,
             physicalState := WorkerPhysicalState.WANDERING,
             dialog := some ⟨"I can\x27t find a desk anywhere!", 5000, 0⟩,
             destinationLocation := some p } := by
    exact ⟨_, by
      unfold findDeskForWorker
      simp only [hw]
      rw [if_pos (by decide : w5.deskSearchAttempts ≥ 3)]
      unfold setWorkerDialog Rand.next
      simp only
      unfold setRandomDestination
      rw [updW_updW] <;> try (intro w2; exact rfl)
      rw [findW_updW_self] <;> try (intro w2; exact rfl)
      rw [hw]
      simp only [Option.map_some']
      rw [updW_updW] <;> try (intro w2; exact rfl)
      rw [findW_updW_self] <;> try (intro w2; exact rfl)
      rw [hw]
      simp only [Option.map_some', updW_currentTime, Option.some.injEq]
      norm_num [rand0, s5s, DIALOG_PHRASES, List.getD]
      rfl⟩
  obtain ⟨p, hw'⟩ := hw'
  have hmain := C5_retry_mood s5s "w5" w5 _ rand0 hw hw'
  have hatt : 3 ≤ ({ w5 with
      mentalState := WorkerMentalState.FRUSTRATED,
      physicalState := WorkerPhysicalState.WANDERING,
      dialog := some ⟨"I can\x27t find a desk anywhere!", 5000, 0⟩,
      destinationLocation := some p } : Worker).deskSearchAttempts := by
    norm_num [w5]
  obtain ⟨h1, h2, h3⟩ := hmain.1 hatt
  exact ⟨_, hw', hatt, h1, h2, h3⟩

/-- Counterexample for C6: in managed mode with the vacant assigned desk
among the candidates but the retry counter already at 3, `findDeskForWorker`
does not select the assigned desk — the worker ends up WANDERING with its
counter still at 3 and no desk destination. -/
theorem C6_managed_pref_counterexample :
    s6s.isManaged = true ∧
    w6.assignedDeskId = some d6.id ∧
    d6.state = DeskState.AVAILABLE ∧ d6 ∈ s6s.desks ∧
    Option.map Worker.physicalState
      (findW (findDeskForWorker s6s "w6" rand0).1 "w6") =
      some WorkerPhysicalState.WANDERING ∧
    Option.map Worker.physicalState
      (findW (findDeskForWorker s6s "w6" rand0).1 "w6") ≠
      some WorkerPhysicalState.MOVING_TO_DESK ∧
    Option.map Worker.deskSearchAttempts
      (findW (findDeskForWorker s6s "w6" rand0).1 "w6") = some 3 := by
  have hw : findW s6s "w6" = some w6 := rfl
  have hw' : ∃ p : Point, findW (findDeskForWorker s6s "w6" rand0).1 "w6" =
      some { w6 with
             mentalState := WorkerMentalState.FRUSTRATED,
             physicalState := WorkerPhysicalState.WANDERING,
             dialog := some ⟨"I can\x27t find a desk anywhere!", 5000, 0⟩,
             destinationLocation := some p } := by
    exact ⟨_, by
      unfold findDeskForWorker
      simp only [hw]
      rw [if_pos (by decide : w6.deskSearchAttempts ≥ 3)]
      unfold setWorkerDialog Rand.next
      simp only
      unfold setRandomDestination
      rw [updW_updW] <;> try (intro w2; exact rfl)
      rw [findW_updW_self] <;> try (intro w2; exact rfl)
      rw [hw]
      simp only [Option.map_some']
      rw [updW_updW] <;> try (intro w2; exact rfl)
      rw [findW_updW_self] <;> try (intro w2; exact rfl)
      rw [hw]
      simp only [Option.map_some', updW_currentTime, Option.some.injEq]
      norm_num [rand0, s6s, DIALOG_PHRASES, List.getD]
      rfl⟩
  obtain ⟨p, hw'⟩ := hw'
  rw [hw']
  refine ⟨rfl, rfl, rfl, by simp [s6s], rfl, by simp, rfl⟩

/-- C6 (amended): whenever `findDeskForWorker` runs in managed mode for a
worker whose retry counter is below 3 and whose assigned desk is among the
candidate desks, it deterministically selects the assigned desk: destination
set to that desk's destination point, state MOVING_TO_DESK, counter reset to
0, and no random draw consumed. -/
theorem C6_managed_pref_amended (s : OfficeState) (wid : String) (w : Worker)
    (assignedDesk : Desk) (r : Rand) (hw : findW s wid = some w)
    (hcap : w.deskSearchAttempts < 3) (hmg : s.isManaged = true)
    (htr : strTruthy w.assignedDeskId = true)
    (hfind : (s.desks.filter (fun d =>
        d.state == DeskState.AVAILABLE ||
        (d.state == DeskState.ASSIGNED &&
          occupiedByIs d.occupiedBy w.id))).find? (fun d =>
            w.assignedDeskId == some d.id) = some assignedDesk) :
    findDeskForWorker s wid r =
      (updW s wid (fun w2 => { w2 with
        destinationLocation :=
          some ⟨assignedDesk.destinationX, assignedDesk.destinationY⟩,
        physicalState := WorkerPhysicalState.MOVING_TO_DESK,
        deskSearchAttempts := 0 }), r) := by
  have hlen : 0 < (s.desks.filter (fun d =>
      d.state == DeskState.AVAILABLE ||
      (d.state == DeskState.ASSIGNED &&
        occupiedByIs d.occupiedBy w.id))).length := by
    have hmem := List.mem_of_find?_eq_some hfind
    exact List.length_pos.mpr (List.ne_nil_of_mem hmem)
  unfold findDeskForWorker
  simp only [hw]
  rw [if_neg (by omega : ¬ w.deskSearchAttempts ≥ 3)]
  rw [if_pos hlen]
  rw [if_pos (by rw [hmg, htr]; rfl : (s.isManaged && strTruthy w.assignedDeskId) = true)]
  rw [hfind]

/-- Witness for the amended C6: the managed office `s6ok`, whose single
worker has counter 0 and assigned desk `d6` vacant, deterministically routes
the worker to `d6`. -/
theorem C6_managed_pref_amended_witness :
    findDeskForWorker s6ok "w6" rand0 =
      (updW s6ok "w6" (fun w2 => { w2 with
        destinationLocation := some ⟨d6.destinationX, d6.destinationY⟩,
        physicalState := WorkerPhysicalState.MOVING_TO_DESK,
        deskSearchAttempts := 0 }), rand0) :=
  C6_managed_pref_amended s6ok "w6" w6b d6 rand0 rfl (by decide) rfl rfl rfl

theorem map_ifid_fusion (wid : String) (f1 f2 : Worker → Worker)
    (hf1 : ∀ w, (f1 w).id = w.id) (l : List Worker) :
    (l.map (fun w => if w.id = wid then f1 w else w)).map
      (fun w => if w.id = wid then f2 w else w) =
    l.map (fun w => if w.id = wid then f2 (f1 w) else w) := by
  rw [List.map_map]
  apply List.map_congr_left
  intro w _
  by_cases hcase : w.id = wid
  · simp only [Function.comp_apply, if_pos hcase,
      if_pos (hf1 w ▸ hcase : (f1 w).id = wid)]
  · simp only [Function.comp_apply, if_neg hcase]

theorem ScalarKeep_refl (s : OfficeState) : ScalarKeep s s :=
  ⟨rfl, rfl, rfl, rfl⟩

theorem ScalarKeep_trans {s1 s2 s3 : OfficeState} (h1 : ScalarKeep s1 s2)
    (h2 : ScalarKeep s2 s3) : ScalarKeep s1 s3 := by
  obtain ⟨a1, b1, c1, d1⟩ := h1
  obtain ⟨a2, b2, c2, d2⟩ := h2
  exact ⟨a2.trans a1, b2.trans b1, c2.trans c1, d2.trans d1⟩

theorem WStep_refl (s : OfficeState) (wid : String) : WStep s s wid := by
  refine ⟨fun w => w, ?_, fun w => rfl, fun w => Or.inl rfl⟩
  unfold updW
  simp

theorem WStep_ofUpd (s : OfficeState) (wid : String) (f : Worker → Worker)
    (hid : ∀ w, (f w).id = w.id)
    (hdlg : ∀ w, (f w).dialog = w.dialog ∨
      ∃ t : String, (f w).dialog = some ⟨t, 5000, s.currentTime⟩) :
    WStep s (updW s wid f) wid :=
  ⟨f, rfl, hid, hdlg⟩

theorem WStep_workersEq {s s' : OfficeState} {wid : String}
    (h : s'.workers = s.workers) : WStep s s' wid := by
  refine ⟨fun w => w, ?_, fun w => rfl, fun w => Or.inl rfl⟩
  unfold updW
  simpa using h

theorem WStep_trans {s1 s2 s3 : OfficeState} {wid : String}
    (h1 : WStep s1 s2 wid) (h2 : WStep s2 s3 wid)
    (hct : s2.currentTime = s1.currentTime) : WStep s1 s3 wid := by
  obtain ⟨f1, hw1, hid1, hd1⟩ := h1
  obtain ⟨f2, hw2, hid2, hd2⟩ := h2
  refine ⟨fun w => f2 (f1 w), ?_, fun w => (hid2 (f1 w)).trans (hid1 w),
    fun w => ?_⟩
  · unfold updW at hw1 hw2 ⊢
    simp only at hw1 hw2 ⊢
    rw [hw2, hw1, map_ifid_fusion wid f1 f2 hid1]
  · rcases hd2 (f1 w) with h | ⟨t, ht⟩
    · rcases hd1 w with h' | ⟨t, ht⟩
      · exact Or.inl (h.trans h')
      · exact Or.inr ⟨t, h.trans ht⟩
    · exact Or.inr ⟨t, by rw [ht, hct]⟩

theorem WStep.findW_other {s s' : OfficeState} {wid : String}
    (h : WStep s s' wid) (wid' : String) (hne : wid' ≠ wid) :
    findW s' wid' = findW s wid' := by
  obtain ⟨f, hw, hid, -⟩ := h
  have : findW s' wid' = findW (updW s wid f) wid' := by
    unfold findW
    rw [hw]
  rw [this, findW_updW_ne s wid wid' f hid hne]

/-- Via a step, the processed worker evolves by `f`. -/
theorem WStep.findW_self {s s' : OfficeState} {wid : String}
    (h : WStep s s' wid) (w : Worker) (hw : findW s wid = some w) :
    ∃ w' : Worker, findW s' wid = some w' ∧
      (w'.dialog = w.dialog ∨
        ∃ t : String, w'.dialog = some ⟨t, 5000, s.currentTime⟩) := by
  obtain ⟨f, hws, hid, hd⟩ := h
  have : findW s' wid = findW (updW s wid f) wid := by
    unfold findW
    rw [hws]
  rw [this, findW_updW_self s wid f hid, hw]
  exact ⟨f w, rfl, hd w⟩

theorem ScalarKeep.ct {s s' : OfficeState} (h : ScalarKeep s s') :
    s'.currentTime = s.currentTime := h.1

theorem ScalarKeep_ofUpd (s : OfficeState) (wid : String)
    (f : Worker → Worker) : ScalarKeep s (updW s wid f) :=
  ⟨rfl, rfl, rfl, rfl⟩

theorem PStep_refl (s : OfficeState) (wid : String) : PStep s s wid :=
  ⟨WStep_refl s wid, ScalarKeep_refl s⟩

theorem PStep_trans {s1 s2 s3 : OfficeState} {wid : String}
    (h1 : PStep s1 s2 wid) (h2 : PStep s2 s3 wid) : PStep s1 s3 wid :=
  ⟨WStep_trans h1.1 h2.1 h1.2.ct, ScalarKeep_trans h1.2 h2.2⟩

theorem PStep_ofUpd (s : OfficeState) (wid : String) (f : Worker → Worker)
    (hid : ∀ w, (f w).id = w.id)
    (hdlg : ∀ w, (f w).dialog = w.dialog ∨
      ∃ t : String, (f w).dialog = some ⟨t, 5000, s.currentTime⟩) :
    PStep s (updW s wid f) wid :=
  ⟨WStep_ofUpd s wid f hid hdlg, ScalarKeep_ofUpd s wid f⟩

theorem setWorkerDialog_wstep (s : OfficeState) (wid : String)
    (key : DialogKey) (r : Rand) :
    WStep s (setWorkerDialog s wid key 5000 r).1 wid ∧
    ScalarKeep s (setWorkerDialog s wid key 5000 r).1 := by
  unfold setWorkerDialog Rand.next
  simp only
  exact ⟨WStep_ofUpd _ _ _ (fun w => rfl) (fun w => Or.inr ⟨_, rfl⟩),
    ⟨rfl, rfl, rfl, rfl⟩⟩

theorem setRandomDestination_wstep (s : OfficeState) (wid : String)
    (r : Rand) :
    WStep s (setRandomDestination s wid r).1 wid ∧
    ScalarKeep s (setRandomDestination s wid r).1 := by
  unfold setRandomDestination
  cases hw : findW s wid with
  | none =>
    simp only [hw]
    exact ⟨WStep_refl _ _, ScalarKeep_refl _⟩
  | some w =>
    simp only [hw]
    exact ⟨WStep_ofUpd _ _ _ (fun w2 => rfl) (fun w2 => Or.inl rfl),
      ⟨rfl, rfl, rfl, rfl⟩⟩

theorem updSp_wstep (s : OfficeState) (wid sid : String)
    (g : Space → Space) :
    WStep s (updSp s sid g) wid ∧ ScalarKeep s (updSp s sid g) :=
  ⟨WStep_workersEq rfl, ⟨rfl, rfl, rfl, rfl⟩⟩

theorem updEv_wstep (s : OfficeState) (wid eid : String)
    (g : WorkerEvent → WorkerEvent) :
    WStep s (updEv s eid g) wid ∧ ScalarKeep s (updEv s eid g) :=
  ⟨WStep_workersEq rfl, ⟨rfl, rfl, rfl, rfl⟩⟩

theorem updD_wstep (s : OfficeState) (wid did : String) (g : Desk → Desk) :
    WStep s (updD s did g) wid ∧ ScalarKeep s (updD s did g) :=
  ⟨WStep_workersEq rfl, ⟨rfl, rfl, rfl, rfl⟩⟩

theorem findDeskForWorker_wstep (s : OfficeState) (wid : String) (r : Rand) :
    WStep s (findDeskForWorker s wid r).1 wid ∧
    ScalarKeep s (findDeskForWorker s wid r).1 := by
  unfold findDeskForWorker
  cases hw : findW s wid with
  | none =>
    simp only [hw]
    exact ⟨WStep_refl _ _, ScalarKeep_refl _⟩
  | some w =>
    simp only [hw]
    split
    · constructor
      · refine WStep_trans ?_ (setRandomDestination_wstep _ _ _).1 ?_
        · refine WStep_trans ?_ (setWorkerDialog_wstep _ _ _ _).1 ?_
          · exact WStep_ofUpd _ _ _ (fun w2 => rfl) (fun w2 => Or.inl rfl)
          · exact rfl
        · exact (setWorkerDialog_wstep _ _ _ _).2.ct
      · refine ScalarKeep_trans ?_ (setRandomDestination_wstep _ _ _).2
        exact ScalarKeep_trans (ScalarKeep_refl _) (setWorkerDialog_wstep _ _ _ _).2
    · split
      · split
        · exact ⟨WStep_ofUpd _ _ _ (fun w2 => rfl) (fun w2 => Or.inl rfl),
            ⟨rfl, rfl, rfl, rfl⟩⟩
        · exact ⟨WStep_ofUpd _ _ _ (fun w2 => rfl) (fun w2 => Or.inl rfl),
            ⟨rfl, rfl, rfl, rfl⟩⟩
      · split
        · constructor
          · refine WStep_trans ?_ (setRandomDestination_wstep _ _ _).1 ?_
            · refine WStep_trans ?_ (setWorkerDialog_wstep _ _ _ _).1 ?_
              · refine WStep_trans ?_ (WStep_ofUpd _ _ _ ?_ ?_) ?_
                · exact WStep_ofUpd _ _ _ (fun w2 => rfl) (fun w2 => Or.inl rfl)
                · exact fun w2 => rfl
                · exact fun w2 => Or.inl rfl
                · exact rfl
              · exact rfl
            · exact (setWorkerDialog_wstep _ _ _ _).2.ct
          · refine ScalarKeep_trans ?_ (setRandomDestination_wstep _ _ _).2
            exact ScalarKeep_trans (ScalarKeep_refl _)
              (setWorkerDialog_wstep _ _ _ _).2
        · constructor
          · refine WStep_trans ?_ (setRandomDestination_wstep _ _ _).1 ?_
            · refine WStep_trans ?_ (setWorkerDialog_wstep _ _ _ _).1 ?_
              · refine WStep_trans ?_ (WStep_ofUpd _ _ _ ?_ ?_) ?_
                · exact WStep_ofUpd _ _ _ (fun w2 => rfl) (fun w2 => Or.inl rfl)
                · exact fun w2 => rfl
                · exact fun w2 => Or.inl rfl
                · exact rfl
              · exact rfl
            · exact (setWorkerDialog_wstep _ _ _ _).2.ct
          · refine ScalarKeep_trans ?_ (setRandomDestination_wstep _ _ _).2
            exact ScalarKeep_trans (ScalarKeep_refl _)
              (setWorkerDialog_wstep _ _ _ _).2

theorem moveWorker_id (w : Worker) (sp : ℝ) :
    (moveWorkerTowardsDestination w sp).id = w.id := by
  unfold moveWorkerTowardsDestination
  split
  · rfl
  · dsimp only
    split <;> rfl

theorem moveWorker_dialog (w : Worker) (sp : ℝ) :
    (moveWorkerTowardsDestination w sp).dialog = w.dialog := by
  unfold moveWorkerTowardsDestination
  split
  · rfl
  · dsimp only
    split <;> rfl

theorem moveWorker_curr (w : Worker) (sp : ℝ) :
    (moveWorkerTowardsDestination w sp).occupiedDesk = w.occupiedDesk := by
  unfold moveWorkerTowardsDestination
  split
  · rfl
  · dsimp only
    split <;> rfl

theorem findSpaceForWorkerEvent_wstep (s : OfficeState) (wid : String)
    (event : WorkerEvent) (r : Rand) :
    WStep s (findSpaceForWorkerEvent s wid event r).1 wid ∧
    ScalarKeep s (findSpaceForWorkerEvent s wid event r).1 := by
  unfold findSpaceForWorkerEvent
  cases hw : findW s wid with
  | none =>
    simp only [hw]
    exact ⟨WStep_refl _ _, ScalarKeep_refl _⟩
  | some w =>
    simp only [hw]
    split
    · exact ⟨WStep_ofUpd _ _ _ (fun w2 => rfl) (fun w2 => Or.inl rfl),
        ⟨rfl, rfl, rfl, rfl⟩⟩
    · split
      · split
        · exact ⟨WStep_ofUpd _ _ _ (fun w2 => rfl) (fun w2 => Or.inl rfl),
            ⟨rfl, rfl, rfl, rfl⟩⟩
        · exact ⟨WStep_ofUpd _ _ _ (fun w2 => rfl) (fun w2 => Or.inl rfl),
            ⟨rfl, rfl, rfl, rfl⟩⟩
      · split
        · split
          · split
            · constructor
              · refine WStep_trans ?_ (WStep_ofUpd _ _ _ ?_ ?_) ?_
                · exact WStep_ofUpd _ _ _ (fun w2 => rfl) (fun w2 => Or.inl rfl)
                · exact fun w2 => rfl
                · exact fun w2 => Or.inl rfl
                · exact rfl
              · exact ⟨rfl, rfl, rfl, rfl⟩
            · constructor
              · refine WStep_trans ?_ (findDeskForWorker_wstep _ _ _).1 rfl
                exact WStep_ofUpd _ _ _ (fun w2 => rfl) (fun w2 => Or.inl rfl)
              · refine ScalarKeep_trans ?_ (findDeskForWorker_wstep _ _ _).2
                exact ⟨rfl, rfl, rfl, rfl⟩
          · constructor
            · refine WStep_trans ?_ (findDeskForWorker_wstep _ _ _).1 rfl
              exact WStep_ofUpd _ _ _ (fun w2 => rfl) (fun w2 => Or.inl rfl)
            · refine ScalarKeep_trans ?_ (findDeskForWorker_wstep _ _ _).2
              exact ⟨rfl, rfl, rfl, rfl⟩
        · constructor
          · refine WStep_trans ?_ (findDeskForWorker_wstep _ _ _).1 rfl
            exact WStep_ofUpd _ _ _ (fun w2 => rfl) (fun w2 => Or.inl rfl)
          · refine ScalarKeep_trans ?_ (findDeskForWorker_wstep _ _ _).2
            exact ⟨rfl, rfl, rfl, rfl⟩

theorem handleDeskArrival_wstep (s : OfficeState) (wid : String) (r : Rand) :
    WStep s (handleDeskArrival s wid r).1 wid ∧
    ScalarKeep s (handleDeskArrival s wid r).1 := by
  unfold handleDeskArrival
  cases hw : findW s wid with
  | none =>
    simp only [hw]
    exact ⟨WStep_refl _ _, ScalarKeep_refl _⟩
  | some w =>
    simp only [hw]
    split
    · constructor
      · refine WStep_trans ?_ (setRandomDestination_wstep _ _ _).1 rfl
        exact WStep_ofUpd _ _ _ (fun w2 => rfl) (fun w2 => Or.inl rfl)
      · refine ScalarKeep_trans ?_ (setRandomDestination_wstep _ _ _).2
        exact ⟨rfl, rfl, rfl, rfl⟩
    · split
      · constructor
        · refine WStep_trans ?_ (WStep_ofUpd _ _ _ ?_ ?_) ?_
          · refine WStep_trans ?_ (setWorkerDialog_wstep _ _ _ _).1 ?_
            · refine WStep_trans ?_ (WStep_ofUpd _ _ _ ?_ ?_) ?_
              · exact (updD_wstep _ _ _ _).1
              · exact fun w2 => rfl
              · exact fun w2 => Or.inl rfl
              · exact rfl
            · exact rfl
          · exact fun w2 => rfl
          · exact fun w2 => Or.inl rfl
          · exact (setWorkerDialog_wstep _ _ _ _).2.ct
        · refine ScalarKeep_trans ?_ (ScalarKeep_ofUpd _ _ _)
          refine ScalarKeep_trans ?_ (setWorkerDialog_wstep _ _ _ _).2
          exact ⟨rfl, rfl, rfl, rfl⟩
      · constructor
        · refine WStep_trans ?_ (findDeskForWorker_wstep _ _ _).1 ?_
          · refine WStep_trans ?_ (setWorkerDialog_wstep _ _ _ _).1 ?_
            · exact WStep_ofUpd _ _ _ (fun w2 => rfl) (fun w2 => Or.inl rfl)
            · exact rfl
          · exact (setWorkerDialog_wstep _ _ _ _).2.ct
        · refine ScalarKeep_trans ?_ (findDeskForWorker_wstep _ _ _).2
          refine ScalarKeep_trans ?_ (setWorkerDialog_wstep _ _ _ _).2
          exact ⟨rfl, rfl, rfl, rfl⟩

theorem handleSpaceArrival_wstep (s : OfficeState) (wid : String)
    (r : Rand) :
    WStep s (handleSpaceArrival s wid r).1 wid ∧
    ScalarKeep s (handleSpaceArrival s wid r).1 := by
  show PStep s (handleSpaceArrival s wid r).1 wid
  unfold handleSpaceArrival
  cases hw : findW s wid with
  | none =>
    simp only [hw]
    exact PStep_refl _ _
  | some w =>
    simp only [hw]
    repeat' split
    all_goals repeat
      first
      | exact fun w2 => rfl
      | exact fun w2 => Or.inl rfl
      | exact PStep_refl _ _
      | exact PStep_ofUpd _ _ _ (fun w2 => rfl) (fun w2 => Or.inl rfl)
      | refine PStep_trans ?_ (setWorkerDialog_wstep _ _ _ _)
      | refine PStep_trans ?_ (setRandomDestination_wstep _ _ _)
      | refine PStep_trans ?_ (findDeskForWorker_wstep _ _ _)
      | refine PStep_trans ?_ (findSpaceForWorkerEvent_wstep _ _ _ _)
      | refine PStep_trans ?_ (updSp_wstep _ _ _ _)
      | refine PStep_trans ?_ (updEv_wstep _ _ _ _)
      | refine PStep_trans ?_ (updD_wstep _ _ _ _)
      | refine PStep_trans ?_ (PStep_ofUpd _ _ _ ?_ ?_)

theorem attendingEventBranch_wstep (s : OfficeState) (wid : String) (r : Rand) :
    WStep s (attendingEventBranch s wid r).1 wid ∧ ScalarKeep s (attendingEventBranch s wid r).1 := by
  show PStep s (attendingEventBranch s wid r).1 wid
  unfold attendingEventBranch
  cases hw : findW s wid with
  | none =>
    simp only [hw]
    exact PStep_refl _ _
  | some w =>
    simp only [hw]
    repeat' split
    all_goals repeat
      first
      | exact fun w2 => rfl
      | exact fun w2 => Or.inl rfl
      | exact PStep_refl _ _
      | exact PStep_ofUpd _ _ _ (fun w2 => rfl) (fun w2 => Or.inl rfl)
      | refine PStep_trans ?_ (setWorkerDialog_wstep _ _ _ _)
      | refine PStep_trans ?_ (setRandomDestination_wstep _ _ _)
      | refine PStep_trans ?_ (findDeskForWorker_wstep _ _ _)
      | refine PStep_trans ?_ (findSpaceForWorkerEvent_wstep _ _ _ _)
      | refine PStep_trans ?_ (updSp_wstep _ _ _ _)
      | refine PStep_trans ?_ (updEv_wstep _ _ _ _)
      | refine PStep_trans ?_ (updD_wstep _ _ _ _)
      | refine PStep_trans ?_ (PStep_ofUpd _ _ _ ?_ ?_)

theorem upcomingEventCheck_wstep (s : OfficeState) (wid : String) (r : Rand) :
    WStep s (upcomingEventCheck s wid r).1 wid ∧ ScalarKeep s (upcomingEventCheck s wid r).1 := by
  show PStep s (upcomingEventCheck s wid r).1 wid
  unfold upcomingEventCheck
  cases hw : findW s wid with
  | none =>
    simp only [hw]
    exact PStep_refl _ _
  | some w =>
    simp only [hw]
    repeat' split
    all_goals repeat
      first
      | exact fun w2 => rfl
      | exact fun w2 => Or.inl rfl
      | exact PStep_refl _ _
      | exact PStep_ofUpd _ _ _ (fun w2 => rfl) (fun w2 => Or.inl rfl)
      | refine PStep_trans ?_ (setWorkerDialog_wstep _ _ _ _)
      | refine PStep_trans ?_ (setRandomDestination_wstep _ _ _)
      | refine PStep_trans ?_ (findDeskForWorker_wstep _ _ _)
      | refine PStep_trans ?_ (findSpaceForWorkerEvent_wstep _ _ _ _)
      | refine PStep_trans ?_ (updSp_wstep _ _ _ _)
      | refine PStep_trans ?_ (updEv_wstep _ _ _ _)
      | refine PStep_trans ?_ (updD_wstep _ _ _ _)
      | refine PStep_trans ?_ (PStep_ofUpd _ _ _ ?_ ?_)

theorem wanderingMoodSub_wstep (s : OfficeState) (wid : String) (r : Rand) :
    WStep s (wanderingMoodSub s wid r).1 wid ∧ ScalarKeep s (wanderingMoodSub s wid r).1 := by
  show PStep s (wanderingMoodSub s wid r).1 wid
  unfold wanderingMoodSub
  cases hw : findW s wid with
  | none =>
    simp only [hw]
    exact PStep_refl _ _
  | some w =>
    simp only [hw]
    repeat' split
    all_goals repeat
      first
      | exact fun w2 => rfl
      | exact fun w2 => Or.inl rfl
      | exact PStep_refl _ _
      | exact PStep_ofUpd _ _ _ (fun w2 => rfl) (fun w2 => Or.inl rfl)
      | refine PStep_trans ?_ (setWorkerDialog_wstep _ _ _ _)
      | refine PStep_trans ?_ (setRandomDestination_wstep _ _ _)
      | refine PStep_trans ?_ (findDeskForWorker_wstep _ _ _)
      | refine PStep_trans ?_ (findSpaceForWorkerEvent_wstep _ _ _ _)
      | refine PStep_trans ?_ (updSp_wstep _ _ _ _)
      | refine PStep_trans ?_ (updEv_wstep _ _ _ _)
      | refine PStep_trans ?_ (updD_wstep _ _ _ _)
      | refine PStep_trans ?_ (PStep_ofUpd _ _ _ ?_ ?_)

theorem wanderingRandomDialog_wstep (s : OfficeState) (wid : String) (r : Rand) :
    WStep s (wanderingRandomDialog s wid r).1 wid ∧ ScalarKeep s (wanderingRandomDialog s wid r).1 := by
  show PStep s (wanderingRandomDialog s wid r).1 wid
  unfold wanderingRandomDialog
  cases hw : findW s wid with
  | none =>
    simp only [hw]
    exact PStep_refl _ _
  | some w =>
    simp only [hw]
    repeat' split
    all_goals repeat
      first
      | exact fun w2 => rfl
      | exact fun w2 => Or.inl rfl
      | exact PStep_refl _ _
      | exact PStep_ofUpd _ _ _ (fun w2 => rfl) (fun w2 => Or.inl rfl)
      | refine PStep_trans ?_ (setWorkerDialog_wstep _ _ _ _)
      | refine PStep_trans ?_ (setRandomDestination_wstep _ _ _)
      | refine PStep_trans ?_ (findDeskForWorker_wstep _ _ _)
      | refine PStep_trans ?_ (findSpaceForWorkerEvent_wstep _ _ _ _)
      | refine PStep_trans ?_ (updSp_wstep _ _ _ _)
      | refine PStep_trans ?_ (updEv_wstep _ _ _ _)
      | refine PStep_trans ?_ (updD_wstep _ _ _ _)
      | refine PStep_trans ?_ (PStep_ofUpd _ _ _ ?_ ?_)

theorem wanderingCheck_wstep (s : OfficeState) (wid : String) (r : Rand) :
    WStep s (wanderingCheck s wid r).1 wid ∧ ScalarKeep s (wanderingCheck s wid r).1 := by
  show PStep s (wanderingCheck s wid r).1 wid
  unfold wanderingCheck
  cases hw : findW s wid with
  | none =>
    simp only [hw]
    exact PStep_refl _ _
  | some w =>
    simp only [hw]
    repeat' split
    all_goals repeat
      first
      | exact fun w2 => rfl
      | exact fun w2 => Or.inl rfl
      | exact PStep_refl _ _
      | exact PStep_ofUpd _ _ _ (fun w2 => rfl) (fun w2 => Or.inl rfl)
      | refine PStep_trans ?_ (setWorkerDialog_wstep _ _ _ _)
      | refine PStep_trans ?_ (setRandomDestination_wstep _ _ _)
      | refine PStep_trans ?_ (findDeskForWorker_wstep _ _ _)
      | refine PStep_trans ?_ (findSpaceForWorkerEvent_wstep _ _ _ _)
      | refine PStep_trans ?_ (updSp_wstep _ _ _ _)
      | refine PStep_trans ?_ (updEv_wstep _ _ _ _)
      | refine PStep_trans ?_ (updD_wstep _ _ _ _)
      | refine PStep_trans ?_ (PStep_ofUpd _ _ _ ?_ ?_)
      | refine PStep_trans ?_ (wanderingRandomDialog_wstep _ _ _)
      | exact PStep_trans (PStep_refl _ _) (wanderingMoodSub_wstep _ _ _)

theorem workingDialogCheck_wstep (s : OfficeState) (wid : String) (r : Rand) :
    WStep s (workingDialogCheck s wid r).1 wid ∧ ScalarKeep s (workingDialogCheck s wid r).1 := by
  show PStep s (workingDialogCheck s wid r).1 wid
  unfold workingDialogCheck
  cases hw : findW s wid with
  | none =>
    simp only [hw]
    exact PStep_refl _ _
  | some w =>
    simp only [hw]
    repeat' split
    all_goals repeat
      first
      | exact fun w2 => rfl
      | exact fun w2 => Or.inl rfl
      | exact PStep_refl _ _
      | exact PStep_ofUpd _ _ _ (fun w2 => rfl) (fun w2 => Or.inl rfl)
      | refine PStep_trans ?_ (setWorkerDialog_wstep _ _ _ _)
      | refine PStep_trans ?_ (setRandomDestination_wstep _ _ _)
      | refine PStep_trans ?_ (findDeskForWorker_wstep _ _ _)
      | refine PStep_trans ?_ (findSpaceForWorkerEvent_wstep _ _ _ _)
      | refine PStep_trans ?_ (updSp_wstep _ _ _ _)
      | refine PStep_trans ?_ (updEv_wstep _ _ _ _)
      | refine PStep_trans ?_ (updD_wstep _ _ _ _)
      | refine PStep_trans ?_ (PStep_ofUpd _ _ _ ?_ ?_)

theorem updateWorkerState_wstep (s : OfficeState) (wid : String) (r : Rand) :
    WStep s (updateWorkerState s wid r).1 wid ∧ ScalarKeep s (updateWorkerState s wid r).1 := by
  show PStep s (updateWorkerState s wid r).1 wid
  unfold updateWorkerState
  cases hw : findW s wid with
  | none =>
    simp only [hw]
    exact PStep_refl _ _
  | some w =>
    simp only [hw]
    repeat' split
    all_goals repeat
      first
      | exact fun w2 => rfl
      | exact fun w2 => Or.inl rfl
      | exact PStep_refl _ _
      | exact PStep_ofUpd _ _ _ (fun w2 => rfl) (fun w2 => Or.inl rfl)
      | refine PStep_trans ?_ (setWorkerDialog_wstep _ _ _ _)
      | refine PStep_trans ?_ (setRandomDestination_wstep _ _ _)
      | refine PStep_trans ?_ (findDeskForWorker_wstep _ _ _)
      | refine PStep_trans ?_ (findSpaceForWorkerEvent_wstep _ _ _ _)
      | refine PStep_trans ?_ (updSp_wstep _ _ _ _)
      | refine PStep_trans ?_ (updEv_wstep _ _ _ _)
      | refine PStep_trans ?_ (updD_wstep _ _ _ _)
      | refine PStep_trans ?_ (PStep_ofUpd _ _ _ ?_ ?_)
      | refine PStep_trans ?_ (workingDialogCheck_wstep _ _ _)
      | refine PStep_trans ?_ (wanderingCheck_wstep _ _ _)
      | exact PStep_trans (PStep_refl _ _) (upcomingEventCheck_wstep _ _ _)
      | exact PStep_trans (PStep_refl _ _) (attendingEventBranch_wstep _ _ _)

theorem handleWorkerArrival_wstep (s : OfficeState) (wid : String) (r : Rand) :
    WStep s (handleWorkerArrival s wid r).1 wid ∧ ScalarKeep s (handleWorkerArrival s wid r).1 := by
  show PStep s (handleWorkerArrival s wid r).1 wid
  unfold handleWorkerArrival
  cases hw : findW s wid with
  | none =>
    simp only [hw]
    exact PStep_refl _ _
  | some w =>
    simp only [hw]
    repeat' split
    all_goals repeat
      first
      | exact fun w2 => rfl
      | exact fun w2 => Or.inl rfl
      | exact PStep_refl _ _
      | exact PStep_ofUpd _ _ _ (fun w2 => rfl) (fun w2 => Or.inl rfl)
      | refine PStep_trans ?_ (setWorkerDialog_wstep _ _ _ _)
      | refine PStep_trans ?_ (setRandomDestination_wstep _ _ _)
      | refine PStep_trans ?_ (findDeskForWorker_wstep _ _ _)
      | refine PStep_trans ?_ (findSpaceForWorkerEvent_wstep _ _ _ _)
      | refine PStep_trans ?_ (updSp_wstep _ _ _ _)
      | refine PStep_trans ?_ (updEv_wstep _ _ _ _)
      | refine PStep_trans ?_ (updD_wstep _ _ _ _)
      | refine PStep_trans ?_ (PStep_ofUpd _ _ _ ?_ ?_)
      | exact PStep_trans (PStep_refl _ _) (handleDeskArrival_wstep _ _ _)
      | exact PStep_trans (PStep_refl _ _) (handleSpaceArrival_wstep _ _ _)
      | exact PStep_trans (PStep_refl _ _) (findDeskForWorker_wstep _ _ _)

/-- C10: movement progress and arrival.  With a destination set and a
positive speed, one call of `moveWorkerTowardsDestination` either snaps onto
the destination and clears it (when the Euclidean distance is below the
speed), or advances exactly `speed` units along the straight line, decreasing
the remaining distance by exactly `speed`; consequently the destination is
reached after at most `⌈distance / speed⌉` calls. -/
theorem C10_movement_progress (w : Worker) (dest : Point) (speed : ℝ)
    (hdest : w.destinationLocation = some dest) (hsp : 0 < speed) :
    (distTo w dest < speed →
      (moveWorkerTowardsDestination w speed).location = dest ∧
      (moveWorkerTowardsDestination w speed).destinationLocation = none) ∧
    (speed ≤ distTo w dest →
      (moveWorkerTowardsDestination w speed).location =
        ⟨w.location.x + (dest.x - w.location.x) / distTo w dest * speed,
         w.location.y + (dest.y - w.location.y) / distTo w dest * speed⟩ ∧
      (moveWorkerTowardsDestination w speed).destinationLocation =
        some dest ∧
      distTo (moveWorkerTowardsDestination w speed) dest =
        distTo w dest - speed) ∧
    ((fun w2 => moveWorkerTowardsDestination w2 speed)^[
        ⌈distTo w dest / speed⌉₊] w).location = dest := by
  refine ⟨fun hlt => ?_, fun hge => ?_, ?_⟩
  · rw [moveWorker_snap w dest speed hdest hlt]
    exact ⟨rfl, rfl⟩
  · rw [moveWorker_dist_dec w dest speed hdest hsp hge,
      moveWorker_advance w dest speed hdest hge]
    exact ⟨rfl, hdest, rfl⟩
  · apply moveWorker_iterate_reach speed hsp
    left
    refine ⟨hdest, ?_⟩
    have h1 : distTo w dest / speed ≤ (⌈distTo w dest / speed⌉₊ : ℝ) :=
      Nat.le_ceil _
    have h2 := mul_le_mul_of_nonneg_right h1 hsp.le
    rwa [div_mul_cancel₀ _ hsp.ne'] at h2

/-- Witness for C10 at a concrete worker: location `(0,0)`, destination
`(3,4)` (distance 5), speed 2. -/
theorem C10_movement_progress_witness :
    mover0.destinationLocation = some ⟨3, 4⟩ ∧ (0 : ℝ) < 2 ∧
    ((fun w2 => moveWorkerTowardsDestination w2 2)^[
        ⌈distTo mover0 ⟨3, 4⟩ / 2⌉₊] mover0).location = ⟨3, 4⟩ :=
  ⟨rfl, by norm_num,
    (C10_movement_progress mover0 ⟨3, 4⟩ 2 rfl (by norm_num)).2.2⟩


theorem updEv_workers (s : OfficeState) (eid : String)
    (g : WorkerEvent → WorkerEvent) : (updEv s eid g).workers = s.workers :=
  rfl

theorem updateWorkerState_arriving (s : OfficeState) (wid : String) (r : Rand)
    (w : Worker) (hw : findW s wid = some w)
    (hp : w.physicalState = WorkerPhysicalState.ARRIVING) :
    updateWorkerState s wid r = (s, r) := by
  unfold updateWorkerState
  simp only [hw]
  have hcond : w.physicalState ≠ WorkerPhysicalState.WORKING ∧
      w.physicalState ≠ WorkerPhysicalState.WANDERING ∧
      w.physicalState ≠ WorkerPhysicalState.ATTENDING_EVENT := by
    rw [hp]
    exact ⟨by decide, by decide, by decide⟩
  rw [if_pos hcond]

theorem updateWorkerDialog_fields (s : OfficeState) (wid : String)
    (w : Worker) (hw : findW s wid = some w) :
    ∃ w2 : Worker, findW (updateWorkerDialog s wid) wid = some w2 ∧
      w2.physicalState = w.physicalState ∧ w2.location = w.location ∧
      w2.destinationLocation = w.destinationLocation := by
  unfold updateWorkerDialog
  simp only [hw]
  cases hdl : w.dialog with
  | none => exact ⟨w, hw, rfl, rfl, rfl⟩
  | some dl =>
    simp only
    split
    · rw [findW_updW_self]
      · rw [hw]
        exact ⟨_, rfl, rfl, rfl, rfl⟩
      · intro w2
        rfl
    · exact ⟨w, hw, rfl, rfl, rfl⟩

theorem updateWorkerDialog_findW_other (s : OfficeState) (wid wid' : String)
    (hne : wid' ≠ wid) :
    findW (updateWorkerDialog s wid) wid' = findW s wid' := by
  unfold updateWorkerDialog
  cases hw : findW s wid with
  | none => simp only [hw]
  | some w =>
    simp only [hw]
    cases hdl : w.dialog with
    | none => simp only [hdl]
    | some dl =>
      simp only [hdl]
      split
      · rw [findW_updW_ne]
        · intro w2
          rfl
        · exact hne
      · rfl

theorem processWorker_arriving (s : OfficeState) (wid : String) (r : Rand)
    (w : Worker) (hw : findW s wid = some w)
    (hp : w.physicalState = WorkerPhysicalState.ARRIVING)
    (hd : w.destinationLocation = none) :
    processWorker s wid r = (updateWorkerDialog s wid, r) := by
  unfold processWorker
  rw [updateWorkerState_arriving s wid r w hw hp]
  simp only [hw, hd, Option.isSome_none, Bool.false_eq_true, if_false]

theorem processWorker_findW_other (s : OfficeState) (wid : String) (r : Rand)
    (wid' : String) (hne : wid' ≠ wid) :
    findW (processWorker s wid r).1 wid' = findW s wid' := by
  have hus : findW (updateWorkerState s wid r).1 wid' = findW s wid' :=
    WStep.findW_other (updateWorkerState_wstep s wid r).1 wid' hne
  unfold processWorker
  rw [updateWorkerDialog_findW_other _ wid wid' hne]
  cases hB : findW (updateWorkerState s wid r).1 wid with
  | none =>
    simp only [hB]
    exact hus
  | some w1 =>
    simp only [hB]
    cases hsome : w1.destinationLocation.isSome with
    | false =>
      simp only [hsome, Bool.false_eq_true, if_false]
      exact hus
    | true =>
      simp only [hsome, if_true]
      have hmv : findW (updW (updateWorkerState s wid r).1 wid
          (fun w2 => moveWorkerTowardsDestination w2 2)) wid' =
          findW s wid' := by
        rw [findW_updW_ne _ wid wid' _ (fun w2 => moveWorker_id w2 2) hne]
        exact hus
      cases hC : findW (updW (updateWorkerState s wid r).1 wid
          (fun w2 => moveWorkerTowardsDestination w2 2)) wid with
      | none =>
        simp only [hC]
        exact hmv
      | some w2 =>
        simp only [hC]
        cases hnone : w2.destinationLocation.isNone with
        | false =>
          simp only [hnone, Bool.false_eq_true, if_false]
          exact hmv
        | true =>
          simp only [hnone, if_true]
          exact (WStep.findW_other
            (handleWorkerArrival_wstep _ wid _).1 wid' hne).trans hmv

theorem processWorker_keeps_arriving (s : OfficeState) (wid2 : String)
    (r : Rand) (wid : String) (w : Worker)
    (hw : findW s wid = some w)
    (hp : w.physicalState = WorkerPhysicalState.ARRIVING)
    (hd : w.destinationLocation = none) :
    ∃ w2 : Worker, findW (processWorker s wid2 r).1 wid = some w2 ∧
      w2.physicalState = WorkerPhysicalState.ARRIVING ∧
      w2.location = w.location ∧ w2.destinationLocation = none := by
  by_cases hcase : wid = wid2
  · subst hcase
    rw [processWorker_arriving s wid r w hw hp hd]
    obtain ⟨w2, hfw, h1, h2, h3⟩ := updateWorkerDialog_fields s wid w hw
    exact ⟨w2, hfw, by rw [h1, hp], h2, by rw [h3, hd]⟩
  · rw [processWorker_findW_other s wid2 r wid hcase]
    exact ⟨w, hw, hp, rfl, hd⟩

theorem foldl_keeps_arriving (ids : List String) (s : OfficeState) (r : Rand)
    (wid : String) (w : Worker) (hw : findW s wid = some w)
    (hp : w.physicalState = WorkerPhysicalState.ARRIVING)
    (hd : w.destinationLocation = none) :
    ∃ w2 : Worker,
      findW (ids.foldl (fun (p : OfficeState × Rand) wid2 =>
        processWorker p.1 wid2 p.2) (s, r)).1 wid = some w2 ∧
      w2.physicalState = WorkerPhysicalState.ARRIVING ∧
      w2.location = w.location ∧ w2.destinationLocation = none := by
  induction ids generalizing s r w with
  | nil => exact ⟨w, hw, hp, rfl, hd⟩
  | cons wid2 rest ih =>
    simp only [List.foldl_cons]
    obtain ⟨w1, hw1, hp1, hl1, hd1⟩ :=
      processWorker_keeps_arriving s wid2 r wid w hw hp hd
    obtain ⟨w2, hw2, hp2, hl2, hd2⟩ := ih (processWorker s wid2 r).1
      (processWorker s wid2 r).2 w1 hw1 hp1 hd1
    exact ⟨w2, hw2, hp2, hl2.trans hl1, hd2⟩

theorem assignEventsGo_workers (wid : String) (n : ℕ) (s : OfficeState)
    (acc : List String) (r : Rand) :
    (assignEventsGo wid n s acc r).1.workers = s.workers := by
  induction n generalizing s acc r with
  | zero => rfl
  | succ n ih =>
    simp only [assignEventsGo]
    rw [ih]
    rfl

theorem assignEventsToWorker_mem (s : OfficeState) (wid : String) (r : Rand)
    (w2 : Worker) (hw2 : w2 ∈ (assignEventsToWorker s wid r).1.workers) :
    ∃ w ∈ s.workers, w2.id = w.id ∧
      w2.physicalState = w.physicalState ∧
      w2.location = w.location ∧
      w2.destinationLocation = w.destinationLocation ∧
      w2.dialog = w.dialog ∧
      w2.occupiedDesk = w.occupiedDesk ∧
      w2.occupiedSpace = w.occupiedSpace ∧
      w2.mentalState = w.mentalState ∧
      w2.assignedDeskId = w.assignedDeskId := by
  unfold assignEventsToWorker at hw2
  split at hw2
  · exact ⟨w2, hw2, rfl, rfl, rfl, rfl, rfl, rfl, rfl, rfl, rfl⟩
  · dsimp only at hw2
    split at hw2
    · simp only [updW] at hw2
      rw [map_ifid_fusion] at hw2
      · rw [assignEventsGo_workers] at hw2
        rw [List.mem_map] at hw2
        obtain ⟨w0, hw0, rfl⟩ := hw2
        by_cases hcase : w0.id = wid
        · rw [if_pos hcase]
          exact ⟨w0, hw0, rfl, rfl, rfl, rfl, rfl, rfl, rfl, rfl, rfl⟩
        · rw [if_neg hcase]
          exact ⟨w0, hw0, rfl, rfl, rfl, rfl, rfl, rfl, rfl, rfl, rfl⟩
      · intro w
        rfl
    · simp only [updW] at hw2
      rw [assignEventsGo_workers, List.mem_map] at hw2
      obtain ⟨w0, hw0, rfl⟩ := hw2
      by_cases hcase : w0.id = wid
      · rw [if_pos hcase]
        exact ⟨w0, hw0, rfl, rfl, rfl, rfl, rfl, rfl, rfl, rfl, rfl⟩
      · rw [if_neg hcase]
        exact ⟨w0, hw0, rfl, rfl, rfl, rfl, rfl, rfl, rfl, rfl, rfl⟩

theorem resetWorkersGo_post (ids : List String) (s : OfficeState) (r : Rand)
    (hinv : ∀ w ∈ s.workers,
      (w.physicalState = WorkerPhysicalState.ARRIVING ∧
       w.destinationLocation = none) ∨ w.id ∈ ids) :
    ∀ w ∈ (resetWorkersGo ids s r).1.workers,
      w.physicalState = WorkerPhysicalState.ARRIVING ∧
      w.destinationLocation = none := by
  induction ids generalizing s r with
  | nil =>
    intro w hw
    rcases hinv w hw with h | h
    · exact h
    · cases h
  | cons wid rest ih =>
    simp only [resetWorkersGo]
    apply ih
    intro w3 hw3
    simp only [updW, List.mem_map] at hw3
    obtain ⟨w2, hw2, rfl⟩ := hw3
    obtain ⟨w1, hw1, hid, hps, hloc, hdest, hdlg, hod, hos, hms, hadi⟩ :=
      assignEventsToWorker_mem _ wid r w2 hw2
    simp only [updW, List.mem_map] at hw1
    obtain ⟨w0, hw0, rfl⟩ := hw1
    by_cases hcase : w0.id = wid
    · left
      simp only [if_pos hcase] at hps hdest
      by_cases h2 : w2.id = wid
      · rw [if_pos h2]
        exact ⟨hps, hdest⟩
      · rw [if_neg h2]
        exact ⟨hps, hdest⟩
    · simp only [if_neg hcase] at hps hdest hid
      rcases hinv w0 hw0 with h | h
      · left
        by_cases h2 : w2.id = wid
        · rw [if_pos h2]
          exact ⟨hps.trans h.1, hdest.trans h.2⟩
        · rw [if_neg h2]
          exact ⟨hps.trans h.1, hdest.trans h.2⟩
      · right
        have hmem : w0.id ∈ rest := by
          rcases List.mem_cons.mp h with h2 | h2
          · exact absurd h2 hcase
          · exact h2
        by_cases h2 : w2.id = wid
        · exact absurd (hid.symm.trans h2) hcase
        · rw [if_neg h2]
          rw [hid]
          exact hmem

theorem resetDay_workers_arriving (s : OfficeState) (r : Rand) :
    ∀ w ∈ (resetDay s r).1.workers,
      w.physicalState = WorkerPhysicalState.ARRIVING ∧
      w.destinationLocation = none := by
  unfold resetDay
  dsimp only
  apply resetWorkersGo_post
  intro w hw
  right
  exact List.mem_map_of_mem _ hw

/-- C9: post-reset ARRIVING stasis.  `resetDay` leaves every worker ARRIVING
with no destination, and a worker in that state (ARRIVING, destination
absent) is left by any subsequent `updateWorkers` tick with the same
physical state and location and still no destination: `updateWorkerState`
returns early for ARRIVING workers and the movement branch requires a
destination, so no transition out of ARRIVING occurs. -/
theorem C9_arriving_stasis (s : OfficeState) (r : Rand) :
    (∀ w ∈ (resetDay s r).1.workers,
      w.physicalState = WorkerPhysicalState.ARRIVING ∧
      w.destinationLocation = none) ∧
    (∀ (wid : String) (w : Worker), findW s wid = some w →
      w.physicalState = WorkerPhysicalState.ARRIVING →
      w.destinationLocation = none →
      ∃ w2 : Worker, findW (updateWorkers s r).1 wid = some w2 ∧
        w2.physicalState = WorkerPhysicalState.ARRIVING ∧
        w2.location = w.location ∧ w2.destinationLocation = none) := by
  constructor
  · exact resetDay_workers_arriving s r
  · intro wid w hw hp hd
    unfold updateWorkers
    exact foldl_keeps_arriving _ s r wid w hw hp hd

/-- Witness for C9 at the concrete office `s9s`: across one tick its single
ARRIVING worker `w9` stays ARRIVING, in place and destination-free. -/
theorem C9_arriving_stasis_witness :
    ∃ w2 : Worker, findW (updateWorkers s9s rand0).1 "w9" = some w2 ∧
      w2.physicalState = WorkerPhysicalState.ARRIVING ∧
      w2.location = w9.location ∧ w2.destinationLocation = none :=
  (C9_arriving_stasis s9s rand0).2 "w9" w9 rfl rfl rfl

theorem updateWorkerDialog_scalar (s : OfficeState) (wid : String) :
    ScalarKeep s (updateWorkerDialog s wid) := by
  unfold updateWorkerDialog
  cases hw : findW s wid with
  | none =>
    simp only [hw]
    exact ScalarKeep_refl s
  | some w =>
    simp only [hw]
    cases hdl : w.dialog with
    | none =>
      simp only [hdl]
      exact ScalarKeep_refl s
    | some dl =>
      simp only [hdl]
      split
      · exact ScalarKeep_ofUpd s wid _
      · exact ScalarKeep_refl s

theorem updateWorkerDialog_spec (s : OfficeState) (wid : String) (w : Worker)
    (hw : findW s wid = some w) :
    ∃ w2 : Worker, findW (updateWorkerDialog s wid) wid = some w2 ∧
      ((w2.dialog = w.dialog ∧ ∀ dl : Dialog, w.dialog = some dl →
          s.currentTime - dl.startTime ≤ dl.duration) ∨
        (w2.dialog = none ∧ ∃ dl : Dialog, w.dialog = some dl ∧
          s.currentTime - dl.startTime > dl.duration)) := by
  unfold updateWorkerDialog
  simp only [hw]
  cases hdl : w.dialog with
  | none =>
    refine ⟨w, hw, Or.inl ⟨hdl, fun dl h => ?_⟩⟩
    exact Option.noConfusion h
  | some dl =>
    simp only [hdl]
    by_cases hcond : s.currentTime - dl.startTime > dl.duration
    · rw [if_pos hcond]
      rw [findW_updW_self]
      · rw [hw]
        exact ⟨_, rfl, Or.inr ⟨rfl, dl, rfl, hcond⟩⟩
      · intro w2
        rfl
    · rw [if_neg hcond]
      refine ⟨w, hw, Or.inl ⟨hdl, fun dl2 h2 => ?_⟩⟩
      injection h2 with h3
      subst h3
      exact not_lt.mp hcond

theorem processWorker_mid (s : OfficeState) (wid : String) (r : Rand) :
    ∃ s2 : OfficeState, (processWorker s wid r).1 = updateWorkerDialog s2 wid ∧
      PStep s s2 wid := by
  unfold processWorker
  cases hB : findW (updateWorkerState s wid r).1 wid with
  | none =>
    simp only [hB]
    exact ⟨_, rfl, updateWorkerState_wstep s wid r⟩
  | some w1 =>
    simp only [hB]
    cases hsome : w1.destinationLocation.isSome with
    | false =>
      simp only [hsome, Bool.false_eq_true, if_false]
      exact ⟨_, rfl, updateWorkerState_wstep s wid r⟩
    | true =>
      simp only [hsome, if_true]
      have hmv : PStep s (updW (updateWorkerState s wid r).1 wid
          (fun w2 => moveWorkerTowardsDestination w2 2)) wid :=
        PStep_trans (updateWorkerState_wstep s wid r)
          (PStep_ofUpd _ _ _ (fun w2 => moveWorker_id w2 2)
            (fun w2 => Or.inl (moveWorker_dialog w2 2)))
      cases hC : findW (updW (updateWorkerState s wid r).1 wid
          (fun w2 => moveWorkerTowardsDestination w2 2)) wid with
      | none =>
        simp only [hC]
        exact ⟨_, rfl, hmv⟩
      | some w2 =>
        simp only [hC]
        cases hnone : w2.destinationLocation.isNone with
        | false =>
          simp only [hnone, Bool.false_eq_true, if_false]
          exact ⟨_, rfl, hmv⟩
        | true =>
          simp only [hnone, if_true]
          exact ⟨_, rfl, PStep_trans hmv (handleWorkerArrival_wstep _ wid _)⟩

theorem processWorker_scalar (s : OfficeState) (wid : String) (r : Rand) :
    ScalarKeep s (processWorker s wid r).1 := by
  obtain ⟨s2, heq, hps⟩ := processWorker_mid s wid r
  rw [heq]
  exact ScalarKeep_trans hps.2 (updateWorkerDialog_scalar s2 wid)

theorem processWorker_dialog_self (s : OfficeState) (wid : String) (r : Rand)
    (w : Worker) (hw : findW s wid = some w) :
    ∃ w2 : Worker, findW (processWorker s wid r).1 wid = some w2 ∧
      ∃ held : Option Dialog,
        (held = w.dialog ∨ ∃ t : String, held = some ⟨t, 5000, s.currentTime⟩) ∧
        ((w2.dialog = held ∧ ∀ dl : Dialog, held = some dl →
            s.currentTime - dl.startTime ≤ dl.duration) ∨
          (w2.dialog = none ∧ ∃ dl : Dialog, held = some dl ∧
            s.currentTime - dl.startTime > dl.duration)) := by
  obtain ⟨s2, heq, hps⟩ := processWorker_mid s wid r
  obtain ⟨wA, hwA, hdlgA⟩ := WStep.findW_self hps.1 w hw
  obtain ⟨w2, hw2, hres⟩ := updateWorkerDialog_spec s2 wid wA hwA
  rw [heq]
  refine ⟨w2, hw2, wA.dialog, hdlgA, ?_⟩
  rw [hps.2.ct] at hres
  exact hres

theorem foldl_dialog_expired (ids : List String) (s : OfficeState) (r : Rand)
    (wid : String) (ct : ℚ) (d0 : Option Dialog)
    (hct : s.currentTime = ct)
    (hexp : ∀ dl : Dialog, d0 = some dl → ct - dl.startTime > dl.duration)
    (hw : ∃ w1 : Worker, findW s wid = some w1 ∧
      (w1.dialog = d0 ∨ FreshOrNone ct w1.dialog)) :
    (ids.foldl (fun (p : OfficeState × Rand) wid2 =>
        processWorker p.1 wid2 p.2) (s, r)).1.currentTime = ct ∧
    ∃ w1 : Worker,
      findW (ids.foldl (fun (p : OfficeState × Rand) wid2 =>
        processWorker p.1 wid2 p.2) (s, r)).1 wid = some w1 ∧
      (w1.dialog = d0 ∨ FreshOrNone ct w1.dialog) := by
  induction ids generalizing s r with
  | nil => exact ⟨hct, hw⟩
  | cons wid2 rest ih =>
    simp only [List.foldl_cons]
    obtain ⟨w1, hw1, hcase1⟩ := hw
    have hctN : (processWorker s wid2 r).1.currentTime = ct :=
      ((processWorker_scalar s wid2 r).ct).trans hct
    by_cases hsame : wid = wid2
    · subst hsame
      obtain ⟨w2, hw2, held, hheld, hres⟩ :=
        processWorker_dialog_self s wid r w1 hw1
      refine ih (processWorker s wid r).1 (processWorker s wid r).2 hctN
        ⟨w2, hw2, ?_⟩
      rcases hres with ⟨hkeep, hne⟩ | ⟨hclear, dl, hdl, hgt⟩
      · rcases hheld with hh | ⟨t, ht⟩
        · rcases hcase1 with hc | hc
          · rcases hd0 : d0 with _ | dl0
            · exact Or.inl (by rw [hkeep, hh, hc, hd0])
            · exfalso
              have := hne dl0 (by rw [hh, hc, hd0])
              rw [hct] at this
              exact absurd (hexp dl0 hd0) (not_lt.mpr this)
          · rcases hc with hnone | ⟨t2, ht2⟩
            · exact Or.inr (Or.inl (by rw [hkeep, hh, hnone]))
            · exact Or.inr (Or.inr ⟨t2, by rw [hkeep, hh, ht2]⟩)
        · exact Or.inr (Or.inr ⟨t, by rw [hkeep, ht, hct]⟩)
      · exact Or.inr (Or.inl hclear)
    · refine ih (processWorker s wid2 r).1 (processWorker s wid2 r).2 hctN
        ⟨w1, ?_, hcase1⟩
      rw [processWorker_findW_other s wid2 r wid hsame]
      exact hw1

theorem foldl_dialog_kept (ids : List String) (s : OfficeState) (r : Rand)
    (wid : String) (ct : ℚ) (dl0 : Dialog)
    (hct : s.currentTime = ct)
    (hkept : ct - dl0.startTime ≤ dl0.duration)
    (hw : ∃ w1 : Worker, findW s wid = some w1 ∧
      (w1.dialog = some dl0 ∨ ∃ t : String, w1.dialog = some ⟨t, 5000, ct⟩)) :
    (ids.foldl (fun (p : OfficeState × Rand) wid2 =>
        processWorker p.1 wid2 p.2) (s, r)).1.currentTime = ct ∧
    ∃ w1 : Worker,
      findW (ids.foldl (fun (p : OfficeState × Rand) wid2 =>
        processWorker p.1 wid2 p.2) (s, r)).1 wid = some w1 ∧
      (w1.dialog = some dl0 ∨ ∃ t : String, w1.dialog = some ⟨t, 5000, ct⟩) := by
  induction ids generalizing s r with
  | nil => exact ⟨hct, hw⟩
  | cons wid2 rest ih =>
    simp only [List.foldl_cons]
    obtain ⟨w1, hw1, hcase1⟩ := hw
    have hctN : (processWorker s wid2 r).1.currentTime = ct :=
      ((processWorker_scalar s wid2 r).ct).trans hct
    by_cases hsame : wid = wid2
    · subst hsame
      obtain ⟨w2, hw2, held, hheld, hres⟩ :=
        processWorker_dialog_self s wid r w1 hw1
      refine ih (processWorker s wid r).1 (processWorker s wid r).2 hctN
        ⟨w2, hw2, ?_⟩
      have hheldVal : held = some dl0 ∨ ∃ t : String, held = some ⟨t, 5000, ct⟩ := by
        rcases hheld with hh | ⟨t, ht⟩
        · rw [hh]
          exact hcase1
        · exact Or.inr ⟨t, by rw [ht, hct]⟩
      rcases hres with ⟨hkeep, -⟩ | ⟨-, dl, hdl, hgt⟩
      · rcases hheldVal with hh | ⟨t, ht⟩
        · exact Or.inl (by rw [hkeep, hh])
        · exact Or.inr ⟨t, by rw [hkeep, ht]⟩
      · exfalso
        rw [hct] at hgt
        rcases hheldVal with hh | ⟨t, ht⟩
        · rw [hh] at hdl
          injection hdl with h3
          subst h3
          exact absurd hgt (not_lt.mpr hkept)
        · rw [ht] at hdl
          injection hdl with h3
          subst h3
          norm_num at hgt
    · refine ih (processWorker s wid2 r).1 (processWorker s wid2 r).2 hctN
        ⟨w1, ?_, hcase1⟩
      rw [processWorker_findW_other s wid2 r wid hsame]
      exact hw1

/-- Counterexample for C8: worker `w8` holds a dialog stamped at time 0 with
duration 5 while the clock reads 100 — long expired — yet the tick of
`updateWorkers` does not leave the dialog cleared: the WANDERING random-mood
check overwrites it with a fresh dialog during the very same tick, so a
render after the tick still shows a dialog. -/
theorem C8_dialog_expiry_counterexample :
    ∃ dl : Dialog, w8.dialog = some dl ∧
      s8s.currentTime - dl.startTime > dl.duration ∧
      Option.map Worker.dialog (findW (updateWorkers s8s rand0).1 "w8") ≠
        some none := by
  refine ⟨⟨"hi", 5, 0⟩, rfl, by norm_num [s8s], ?_⟩
  have hf0 : findW s8s "w8" = some w8 := rfl
  have e1 : rand0.next.1 = 0 := rfl
  have e2 : rand0.next.2.next.1 = 0 := rfl
  have hwms : ∃ t : String, wanderingMoodSub s8s "w8" rand0 =
      (updW (updW s8s "w8" (fun w2 => { w2 with
          mentalState := WorkerMentalState.FRUSTRATED })) "w8"
        (fun w => { w with dialog := some ⟨t, 5000, 100⟩ }),
       { rand0 with k := 3 }) := by
    unfold wanderingMoodSub
    simp only [hf0]
    rw [if_neg (by decide : ¬ w8.mentalState = WorkerMentalState.FRUSTRATED)]
    rw [if_pos (show rand0.next.1 < 2/100 by rw [e1]; norm_num)]
    rw [if_pos (show rand0.next.2.next.1 < 6/10 by rw [e2]; norm_num)]
    obtain ⟨t0, hts⟩ := setWorkerDialog_shape (updW s8s "w8" (fun w2 => { w2 with
      mentalState := WorkerMentalState.FRUSTRATED })) "w8"
      DialogKey.FRUSTRATED 5000 rand0.next.2.next.2
    refine ⟨t0, ?_⟩
    rw [hts]
    rfl
  obtain ⟨t, hwms⟩ := hwms
  have hfS1 : findW (updW (updW s8s "w8" (fun w2 => { w2 with
      mentalState := WorkerMentalState.FRUSTRATED })) "w8"
      (fun w => { w with dialog := some ⟨t, 5000, 100⟩ })) "w8" =
      some { w8 with
             mentalState := WorkerMentalState.FRUSTRATED,
             dialog := some ⟨t, 5000, 100⟩ } := by
    rw [updW_updW]
    · rw [findW_updW_self]
      · rw [hf0]
        rfl
      · intro w2
        rfl
    · intro w2
      rfl
  generalize hS1def : updW (updW s8s "w8" (fun w2 => { w2 with
      mentalState := WorkerMentalState.FRUSTRATED })) "w8"
      (fun w => { w with dialog := some ⟨t, 5000, 100⟩ }) = S1 at hwms hfS1
  have hS1ct : S1.currentTime = 100 := by
    rw [← hS1def]
    rfl
  have hupc : upcomingEventCheck s8s "w8" rand0 = (s8s, rand0) := by
    unfold upcomingEventCheck
    simp only [hf0]
    norm_num [w8]
  have hwrd : wanderingRandomDialog S1 "w8" { rand0 with k := 3 } =
      (S1, { rand0 with k := 3 }) := by
    unfold wanderingRandomDialog
    simp only [hfS1]
    split
    · next hcon => exact absurd hcon (fun hcon2 => Option.noConfusion hcon2)
    · rfl
  have hwc : wanderingCheck s8s "w8" rand0 = (S1, { rand0 with k := 3 }) := by
    unfold wanderingCheck
    simp only [hf0]
    rw [if_pos (by decide : w8.physicalState = WorkerPhysicalState.WANDERING)]
    rw [hwms]
    exact hwrd
  have hwdc : workingDialogCheck S1 "w8" { rand0 with k := 3 } =
      (S1, { rand0 with k := 3 }) := by
    unfold workingDialogCheck
    simp only [hfS1]
    split
    · next hcon => exact absurd hcon.1 (by decide)
    · rfl
  have hus : updateWorkerState s8s "w8" rand0 = (S1, { rand0 with k := 3 }) := by
    unfold updateWorkerState
    simp only [hf0]
    rw [if_neg (by decide
      : ¬(w8.physicalState ≠ WorkerPhysicalState.WORKING ∧
          w8.physicalState ≠ WorkerPhysicalState.WANDERING ∧
          w8.physicalState ≠ WorkerPhysicalState.ATTENDING_EVENT))]
    rw [if_neg (by decide
      : ¬ w8.physicalState = WorkerPhysicalState.ATTENDING_EVENT)]
    rw [hupc]
    dsimp only
    rw [hwc]
    dsimp only
    exact hwdc
  have hudlg : updateWorkerDialog S1 "w8" = S1 := by
    unfold updateWorkerDialog
    simp only [hfS1]
    simp only [hS1ct]
    norm_num
  have hproc : processWorker s8s "w8" rand0 = (S1, { rand0 with k := 3 }) := by
    unfold processWorker
    rw [hus]
    dsimp only
    rw [hfS1]
    dsimp only
    split
    · next hcon => exact absurd hcon (by simp [w8])
    · dsimp only
      rw [hudlg]
  have hids : s8s.workers.map (fun w2 => w2.id) = ["w8"] := rfl
  have hupd : (updateWorkers s8s rand0).1 = S1 := by
    unfold updateWorkers
    rw [hids]
    simp only [List.foldl_cons, List.foldl_nil]
    rw [show processWorker (s8s, rand0).1 "w8" (s8s, rand0).2 =
      (S1, { rand0 with k := 3 }) from hproc]
  rw [hupd, hfS1]
  simp only [Option.map_some']
  intro hcon
  injection hcon with h2
  exact Option.noConfusion h2

/-- C8 (amended): after a tick of `updateWorkers`, a worker whose dialog was
expired (currentTime − startTime > duration) holds either no dialog or a
fresh one stamped at the current time — the expired dialog itself never
survives, but it may be replaced rather than cleared; a dialog that is still
within its duration is never cleared to null (it survives or is overwritten
by a fresh dialog), and any overwrite replaces the old dialog outright. -/
theorem C8_dialog_expiry_amended (s : OfficeState) (r : Rand) (wid : String)
    (w : Worker) (dl : Dialog) (hw : findW s wid = some w)
    (hdl : w.dialog = some dl) :
    (s.currentTime - dl.startTime > dl.duration →
      ∃ w2 : Worker, findW (updateWorkers s r).1 wid = some w2 ∧
        FreshOrNone s.currentTime w2.dialog) ∧
    (s.currentTime - dl.startTime ≤ dl.duration →
      ∃ w2 : Worker, findW (updateWorkers s r).1 wid = some w2 ∧
        (w2.dialog = some dl ∨
          ∃ t : String, w2.dialog = some ⟨t, 5000, s.currentTime⟩) ∧
        w2.dialog ≠ none) := by
  constructor
  · intro hexp
    have hmem : wid ∈ s.workers.map (fun w2 => w2.id) := by
      have h1 := List.mem_of_find?_eq_some hw
      have h2 := findW_mem_id s wid w hw
      rw [← h2]
      exact List.mem_map_of_mem _ h1
    obtain ⟨l1, l2, hsplit⟩ := List.append_of_mem hmem
    unfold updateWorkers
    rw [hsplit, List.foldl_append, List.foldl_cons]
    obtain ⟨hctA, wA, hwA, hcaseA⟩ := foldl_dialog_expired l1 s r wid
      s.currentTime (some dl) rfl
      (fun dl2 h2 => by injection h2 with h3; subst h3; exact hexp)
      ⟨w, hw, Or.inl hdl⟩
    obtain ⟨w2, hw2, held, hheld, hres⟩ := processWorker_dialog_self
      (l1.foldl (fun (p : OfficeState × Rand) wid2 =>
        processWorker p.1 wid2 p.2) (s, r)).1 wid
      (l1.foldl (fun (p : OfficeState × Rand) wid2 =>
        processWorker p.1 wid2 p.2) (s, r)).2 wA hwA
    rw [hctA] at hheld hres
    have hFN : FreshOrNone s.currentTime w2.dialog := by
      rcases hres with ⟨hkeep, hne⟩ | ⟨hclear, -⟩
      · rcases hheld with hh | ⟨t, ht⟩
        · rcases hcaseA with hcA | hcA
          · exact absurd (hne dl (hh.trans hcA)) (not_le.mpr hexp)
          · rcases hcA with hnone | ⟨t2, ht2⟩
            · exact Or.inl (hkeep.trans (hh.trans hnone))
            · exact Or.inr ⟨t2, hkeep.trans (hh.trans ht2)⟩
        · exact Or.inr ⟨t, hkeep.trans ht⟩
      · exact Or.inl hclear
    have hct2 : (processWorker
        (l1.foldl (fun (p : OfficeState × Rand) wid2 =>
          processWorker p.1 wid2 p.2) (s, r)).1 wid
        (l1.foldl (fun (p : OfficeState × Rand) wid2 =>
          processWorker p.1 wid2 p.2) (s, r)).2).1.currentTime =
        s.currentTime :=
      ((processWorker_scalar _ wid _).ct).trans hctA
    obtain ⟨hctF, wF, hwF, hcaseF⟩ := foldl_dialog_expired l2 _ _ wid
      s.currentTime none hct2 (fun dl2 h2 => Option.noConfusion h2)
      ⟨w2, hw2, Or.inr hFN⟩
    refine ⟨wF, hwF, ?_⟩
    rcases hcaseF with hc | hc
    · exact Or.inl hc
    · exact hc
  · intro hle
    unfold updateWorkers
    obtain ⟨hctF, wF, hwF, hcaseF⟩ := foldl_dialog_kept
      (s.workers.map (fun w2 => w2.id)) s r wid s.currentTime dl rfl hle
      ⟨w, hw, Or.inl hdl⟩
    refine ⟨wF, hwF, hcaseF, ?_⟩
    rcases hcaseF with hc | ⟨t, hc⟩
    · rw [hc]
      exact Option.some_ne_none dl
    · rw [hc]
      exact Option.some_ne_none _

/-- Witness for the amended C8: the expired dialog of `w8` does not survive
the tick as-is — afterwards the worker either shows nothing or a dialog
freshly stamped at time 100. -/
theorem C8_dialog_expiry_amended_witness :
    ∃ w2 : Worker, findW (updateWorkers s8s rand0).1 "w8" = some w2 ∧
      FreshOrNone s8s.currentTime w2.dialog :=
  (C8_dialog_expiry_amended s8s rand0 "w8" w8 ⟨"hi", 5, 0⟩ rfl rfl).1
    (by norm_num [s8s])

/-- C2 (bug evidence): in `s2s` the two-attendee event `ev2` has ended;
attendee `wb` is still ATTENDING_EVENT with `currentOccupiedSpaceId = sp1`
even after A\x27s tick, yet A\x27s departure flips `sp1` to AVAILABLE — the
crowd check filters workers on `workerEventIds.includes(spaceId)`, which
compares a space id against event ids and so never finds the remaining
attendee. -/
theorem C2_space_release_bug :
    s2s.currentTime > ev2.timeFrame.endTime ∧
    ev2.attendeeIds = ["wa", "wb"] ∧
    (Option.map (fun w2 => (w2.occupiedSpace.currentOccupiedSpaceId,
          w2.physicalState))
        (findW (updateWorkerState s2s "wa" rand0).1 "wb") =
      some (some "sp1", WorkerPhysicalState.ATTENDING_EVENT)) ∧
    Option.map Space.state
        (getSpaceById (updateWorkerState s2s "wa" rand0).1 "sp1") =
      some SpaceState.AVAILABLE := by
  refine ⟨by norm_num [s2s, ev2], rfl, rfl, rfl⟩

/-- C3 (bug evidence): worker `wc` has events `e1` (over) and `e2` (spanning
time 100); the spec-side completion test — no event in the list spans the
current time — is false, yet the tick treats the event as finished because
the code only dereferences `events[workerEventIds[0]]`: `wc` leaves
ATTENDING_EVENT and ends up WANDERING. -/
theorem C3_event_completion_bug :
    ("e2" ∈ wc.workerEventIds ∧ findEvent s3s "e2" = some ev3b ∧
      ev3b.timeFrame.startTime ≤ s3s.currentTime ∧
      s3s.currentTime ≤ ev3b.timeFrame.endTime) ∧
    Option.map Worker.physicalState
        (findW (updateWorkerState s3s "wc" rand0).1 "wc") =
      some WorkerPhysicalState.WANDERING ∧
    Option.map Worker.physicalState
        (findW (updateWorkerState s3s "wc" rand0).1 "wc") ≠
      some WorkerPhysicalState.ATTENDING_EVENT := by
  refine ⟨⟨by simp [wc], rfl, by norm_num [ev3b, s3s],
    by norm_num [ev3b, s3s]⟩, rfl, ?_⟩
  intro hcon
  have h0 : Option.map Worker.physicalState
      (findW (updateWorkerState s3s "wc" rand0).1 "wc") =
      some WorkerPhysicalState.WANDERING := rfl
  rw [h0] at hcon
  injection hcon with h2
  exact WorkerPhysicalState.noConfusion h2

/-- C4: shared-event join on space arrival.  When a worker arrives at an
OCCUPIED space whose bound event (via `findEventBySpace`) is the very event
the worker is heading to, `handleSpaceArrival` makes the worker
ATTENDING_EVENT and records the space as its `currentOccupiedSpaceId`
(stamped with the current time) — it is never rejected as an occupied-space
collision. -/
theorem C4_shared_event_join (s : OfficeState) (wid : String) (r : Rand)
    (w : Worker) (curEv : WorkerEvent) (space : Space) (se : WorkerEvent)
    (hw : findW s wid = some w)
    (hce : (getNextEventStartingSoon s w r).1 = some curEv)
    (hsp : findSpaceAtLocation s w.location.x w.location.y = some space)
    (hocc : space.state = SpaceState.OCCUPIED)
    (hse : findEventBySpace s space.id = some se)
    (hid : se.id = curEv.id) :
    ∃ w2 : Worker, findW (handleSpaceArrival s wid r).1 wid = some w2 ∧
      w2.physicalState = WorkerPhysicalState.ATTENDING_EVENT ∧
      w2.occupiedSpace.currentOccupiedSpaceId = some space.id ∧
      w2.occupiedSpace.currentOccupiedTime = some s.currentTime := by
  unfold handleSpaceArrival
  simp only [hw]
  simp only [hce]
  simp only [hsp]
  rw [if_pos hocc]
  simp only [hse]
  rw [if_pos (show (se.id == curEv.id) = true by
    rw [hid]; exact beq_self_eq_true _)]
  unfold setWorkerDialog
  dsimp only
  rw [updW_updW] <;> try (intro w2; exact rfl)
  rw [findW_updW_self] <;> try (intro w2; exact rfl)
  rw [hw]
  exact ⟨_, rfl, rfl, rfl, rfl⟩

/-- Witness for C4: the two-attendee scenario.  `wa4` is attending `ev4` in
the OCCUPIED space `sp4`; `wb4`, also invited to `ev4`, arrives at `sp4` and
joins it (ATTENDING_EVENT, bound to `sp4`), not rejected as occupied. -/
theorem C4_shared_event_join_witness :
    ∃ w2 : Worker, findW (handleSpaceArrival s4s "wb4" rand0).1 "wb4" =
        some w2 ∧
      w2.physicalState = WorkerPhysicalState.ATTENDING_EVENT ∧
      w2.occupiedSpace.currentOccupiedSpaceId = some sp4.id ∧
      w2.occupiedSpace.currentOccupiedTime = some s4s.currentTime := by
  have hce : (getNextEventStartingSoon s4s wb4 rand0).1 = some ev4 := by
    unfold getNextEventStartingSoon getRandomPreEventTime
    dsimp only
    have hl : wb4.workerEventIds = ["e4"] := rfl
    rw [hl]
    rw [List.find?_cons_of_pos]
    · rfl
    · have hfe : findEvent s4s "e4" = some ev4 := rfl
      simp only [hfe]
      rw [decide_eq_true_eq]
      constructor
      · norm_num [ev4, s4s, rand0, Rand.next]
      · norm_num [ev4, s4s]
  have hsp : findSpaceAtLocation s4s wb4.location.x wb4.location.y =
      some sp4 := by
    unfold findSpaceAtLocation
    have hl : s4s.spaces = [sp4] := rfl
    rw [hl]
    rw [List.find?_cons_of_pos]
    refine decide_eq_true ?_
    have hx : orElseNum sp4.destinationX sp4.x = 560 := by
      unfold orElseNum
      norm_num [sp4]
    have hy : orElseNum sp4.destinationY sp4.y = 140 := by
      unfold orElseNum
      norm_num [sp4]
    have hwx : wb4.location.x = 560 := rfl
    have hwy : wb4.location.y = 140 := rfl
    rw [hx, hy, hwx, hwy]
    norm_num [Real.sqrt_zero]
  exact C4_shared_event_join s4s "wb4" rand0 wb4 ev4 sp4 ev4 rfl hce hsp
    rfl rfl rfl

theorem createEvents_workers (s : OfficeState) (t : ℚ) (r : Rand) :
    (createEvents s t r).1.workers = s.workers := rfl

theorem createEvents_desks (s : OfficeState) (t : ℚ) (r : Rand) :
    (createEvents s t r).1.desks = s.desks := rfl

theorem createEvents_spaces (s : OfficeState) (t : ℚ) (r : Rand) :
    (createEvents s t r).1.spaces = s.spaces := rfl

theorem updW_workers_map_pair (s : OfficeState) (wid : String)
    (f : Worker → Worker)
    (hf : ∀ w, (f w).id = w.id ∧ (f w).assignedDeskId = w.assignedDeskId) :
    (updW s wid f).workers.map (fun w => (w.id, w.assignedDeskId)) =
      s.workers.map (fun w => (w.id, w.assignedDeskId)) := by
  unfold updW
  simp only
  rw [List.map_map]
  apply List.map_congr_left
  intro w _
  by_cases hc : w.id = wid
  · simp only [Function.comp_apply, if_pos hc, (hf w).1, (hf w).2]
  · simp only [Function.comp_apply, if_neg hc]

theorem updEv_events_strip (s : OfficeState) (eid : String)
    (g : WorkerEvent → WorkerEvent)
    (hg : ∀ e, (g e).id = e.id ∧ (g e).timeFrame = e.timeFrame ∧
      (g e).spaceId = e.spaceId) :
    (updEv s eid g).events.map (fun e => (e.id, e.timeFrame, e.spaceId)) =
      s.events.map (fun e => (e.id, e.timeFrame, e.spaceId)) := by
  unfold updEv
  simp only
  rw [List.map_map]
  apply List.map_congr_left
  intro e _
  by_cases hc : e.id = eid
  · simp only [Function.comp_apply, if_pos hc, (hg e).1, (hg e).2.1, (hg e).2.2]
  · simp only [Function.comp_apply, if_neg hc]

theorem assignEventsGo_strip (wid : String) (n : ℕ) (s : OfficeState)
    (acc : List String) (r : Rand) :
    (assignEventsGo wid n s acc r).1.events.map
        (fun e => (e.id, e.timeFrame, e.spaceId)) =
      s.events.map (fun e => (e.id, e.timeFrame, e.spaceId)) := by
  induction n generalizing s acc r with
  | zero => rfl
  | succ n ih =>
    simp only [assignEventsGo]
    rw [ih]
    exact updEv_events_strip _ _ _ (fun e => ⟨rfl, rfl, rfl⟩)

theorem assignEventsGo_desks (wid : String) (n : ℕ) (s : OfficeState)
    (acc : List String) (r : Rand) :
    (assignEventsGo wid n s acc r).1.desks = s.desks := by
  induction n generalizing s acc r with
  | zero => rfl
  | succ n ih =>
    simp only [assignEventsGo]
    rw [ih]
    rfl

theorem assignEventsGo_spaces (wid : String) (n : ℕ) (s : OfficeState)
    (acc : List String) (r : Rand) :
    (assignEventsGo wid n s acc r).1.spaces = s.spaces := by
  induction n generalizing s acc r with
  | zero => rfl
  | succ n ih =>
    simp only [assignEventsGo]
    rw [ih]
    rfl

theorem assignEventsToWorker_strip (s : OfficeState) (wid : String)
    (r : Rand) :
    (assignEventsToWorker s wid r).1.events.map
        (fun e => (e.id, e.timeFrame, e.spaceId)) =
      s.events.map (fun e => (e.id, e.timeFrame, e.spaceId)) := by
  unfold assignEventsToWorker
  split
  · rfl
  · dsimp only
    split
    · simp only [updW_events]
      exact assignEventsGo_strip _ _ _ _ _
    · simp only [updW_events]
      exact assignEventsGo_strip _ _ _ _ _

theorem assignEventsToWorker_desks (s : OfficeState) (wid : String)
    (r : Rand) : (assignEventsToWorker s wid r).1.desks = s.desks := by
  unfold assignEventsToWorker
  split
  · rfl
  · dsimp only
    split
    · simp only [updW_desks]
      exact assignEventsGo_desks _ _ _ _ _
    · simp only [updW_desks]
      exact assignEventsGo_desks _ _ _ _ _

theorem assignEventsToWorker_spaces (s : OfficeState) (wid : String)
    (r : Rand) : (assignEventsToWorker s wid r).1.spaces = s.spaces := by
  unfold assignEventsToWorker
  split
  · rfl
  · dsimp only
    split
    · simp only [updW_spaces]
      exact assignEventsGo_spaces _ _ _ _ _
    · simp only [updW_spaces]
      exact assignEventsGo_spaces _ _ _ _ _

theorem assignEventsToWorker_wmap (s : OfficeState) (wid : String)
    (r : Rand) :
    (assignEventsToWorker s wid r).1.workers.map
        (fun w => (w.id, w.assignedDeskId)) =
      s.workers.map (fun w => (w.id, w.assignedDeskId)) := by
  unfold assignEventsToWorker
  split
  · rfl
  · dsimp only
    split
    · rw [updW_workers_map_pair] <;> try (intro w; exact ⟨rfl, rfl⟩)
      rw [updW_workers_map_pair] <;> try (intro w; exact ⟨rfl, rfl⟩)
      rw [assignEventsGo_workers]
    · rw [updW_workers_map_pair] <;> try (intro w; exact ⟨rfl, rfl⟩)
      rw [assignEventsGo_workers]

theorem resetWorkersGo_wmap (ids : List String) (s : OfficeState) (r : Rand) :
    (resetWorkersGo ids s r).1.workers.map
        (fun w => (w.id, w.assignedDeskId)) =
      s.workers.map (fun w => (w.id, w.assignedDeskId)) := by
  induction ids generalizing s r with
  | nil => rfl
  | cons wid rest ih =>
    simp only [resetWorkersGo]
    rw [ih]
    rw [updW_workers_map_pair] <;> try (intro w; exact ⟨rfl, rfl⟩)
    rw [assignEventsToWorker_wmap]
    rw [updW_workers_map_pair] <;> try (intro w; exact ⟨rfl, rfl⟩)

theorem resetWorkersGo_strip (ids : List String) (s : OfficeState) (r : Rand) :
    (resetWorkersGo ids s r).1.events.map
        (fun e => (e.id, e.timeFrame, e.spaceId)) =
      s.events.map (fun e => (e.id, e.timeFrame, e.spaceId)) := by
  induction ids generalizing s r with
  | nil => rfl
  | cons wid rest ih =>
    simp only [resetWorkersGo]
    rw [ih]
    simp only [updW_events]
    rw [assignEventsToWorker_strip]
    simp only [updW_events]

theorem resetWorkersGo_desks (ids : List String) (s : OfficeState) (r : Rand) :
    (resetWorkersGo ids s r).1.desks = s.desks := by
  induction ids generalizing s r with
  | nil => rfl
  | cons wid rest ih =>
    simp only [resetWorkersGo]
    rw [ih]
    simp only [updW_desks]
    rw [assignEventsToWorker_desks]
    simp only [updW_desks]

theorem resetWorkersGo_spaces (ids : List String) (s : OfficeState)
    (r : Rand) : (resetWorkersGo ids s r).1.spaces = s.spaces := by
  induction ids generalizing s r with
  | nil => rfl
  | cons wid rest ih =>
    simp only [resetWorkersGo]
    rw [ih]
    simp only [updW_spaces]
    rw [assignEventsToWorker_spaces]
    simp only [updW_spaces]

theorem resetWorkersGo_post7 (ids : List String) (s : OfficeState) (r : Rand)
    (hinv : ∀ w ∈ s.workers,
      (w.occupiedDesk = ⟨none, none, none, none⟩ ∧
       w.occupiedSpace = ⟨none, none, none, none⟩ ∧
       w.physicalState = WorkerPhysicalState.ARRIVING ∧
       w.mentalState = WorkerMentalState.HAPPY) ∨ w.id ∈ ids) :
    ∀ w ∈ (resetWorkersGo ids s r).1.workers,
      w.occupiedDesk = ⟨none, none, none, none⟩ ∧
      w.occupiedSpace = ⟨none, none, none, none⟩ ∧
      w.physicalState = WorkerPhysicalState.ARRIVING ∧
      w.mentalState = WorkerMentalState.HAPPY := by
  induction ids generalizing s r with
  | nil =>
    intro w hw
    rcases hinv w hw with h | h
    · exact h
    · cases h
  | cons wid rest ih =>
    simp only [resetWorkersGo]
    apply ih
    intro w3 hw3
    simp only [updW, List.mem_map] at hw3
    obtain ⟨w2, hw2, rfl⟩ := hw3
    obtain ⟨w1, hw1, hid, hps, hloc, hdest, hdlg, hod, hos, hms, hadi⟩ :=
      assignEventsToWorker_mem _ wid r w2 hw2
    simp only [updW, List.mem_map] at hw1
    obtain ⟨w0, hw0, rfl⟩ := hw1
    by_cases hcase : w0.id = wid
    · left
      simp only [if_pos hcase] at hps hod hos hms
      by_cases h2 : w2.id = wid
      · rw [if_pos h2]
        exact ⟨hod, hos, hps, hms⟩
      · rw [if_neg h2]
        exact ⟨hod, hos, hps, hms⟩
    · simp only [if_neg hcase] at hps hod hos hms hid
      rcases hinv w0 hw0 with h | h
      · left
        by_cases h2 : w2.id = wid
        · rw [if_pos h2]
          exact ⟨hod.trans h.1, hos.trans h.2.1, hps.trans h.2.2.1,
            hms.trans h.2.2.2⟩
        · rw [if_neg h2]
          exact ⟨hod.trans h.1, hos.trans h.2.1, hps.trans h.2.2.1,
            hms.trans h.2.2.2⟩
      · right
        have hmem : w0.id ∈ rest := by
          rcases List.mem_cons.mp h with h2 | h2
          · exact absurd h2 hcase
          · exact h2
        by_cases h2 : w2.id = wid
        · exact absurd (hid.symm.trans h2) hcase
        · rw [if_neg h2]
          rw [hid]
          exact hmem

/-- C7: `resetDay` round trip.  Every worker keeps its identity and its
`assignedDeskId`; desk/space occupancy histories are cleared and every
worker is reset to ARRIVING/HAPPY; desk and space registries keep their ids
(and hence their count); the event registry is replaced by the freshly
generated day of events (the only later change being attendee
registration). -/
theorem C7_resetDay_roundtrip (s : OfficeState) (r : Rand)
    (hm : s.isManaged = true) :
    (resetDay s r).1.workers.map (fun w => (w.id, w.assignedDeskId)) =
      s.workers.map (fun w => (w.id, w.assignedDeskId)) ∧
    (∀ w ∈ (resetDay s r).1.workers,
      w.occupiedDesk = ⟨none, none, none, none⟩ ∧
      w.occupiedSpace = ⟨none, none, none, none⟩ ∧
      w.physicalState = WorkerPhysicalState.ARRIVING ∧
      w.mentalState = WorkerMentalState.HAPPY) ∧
    (resetDay s r).1.desks.map (fun d => d.id) =
      s.desks.map (fun d => d.id) ∧
    (resetDay s r).1.spaces.map (fun sp => sp.id) =
      s.spaces.map (fun sp => sp.id) ∧
    (resetDay s r).1.events.map (fun e => (e.id, e.timeFrame, e.spaceId)) =
      (createEvents
        { s with
          desks := s.desks.map (fun d =>
            { d with
              state := if s.isManaged && d.occupiedBy.isSome then
                DeskState.ASSIGNED else DeskState.AVAILABLE,
              occupiedBy := if s.isManaged then d.occupiedBy else none }),
          spaces := s.spaces.map (fun sp =>
            { sp with state := SpaceState.AVAILABLE }) }
        (60 * 1000) r).1.events.map
        (fun e => (e.id, e.timeFrame, e.spaceId)) := by
  unfold resetDay
  dsimp only
  refine ⟨?_, ?_, ?_, ?_, ?_⟩
  · rw [resetWorkersGo_wmap]
    rfl
  · apply resetWorkersGo_post7
    intro w hw
    right
    exact List.mem_map_of_mem _ hw
  · rw [resetWorkersGo_desks, createEvents_desks]
    rw [List.map_map]
    apply List.map_congr_left
    intro d _
    rfl
  · rw [resetWorkersGo_spaces, createEvents_spaces]
    rw [List.map_map]
    apply List.map_congr_left
    intro sp _
    rfl
  · rw [resetWorkersGo_strip]

/-- Witness for C7 at the concrete managed office `s6s`. -/
theorem C7_resetDay_roundtrip_witness :
    (resetDay s6s rand0).1.workers.map (fun w => (w.id, w.assignedDeskId)) =
      s6s.workers.map (fun w => (w.id, w.assignedDeskId)) ∧
    (∀ w ∈ (resetDay s6s rand0).1.workers,
      w.occupiedDesk = ⟨none, none, none, none⟩ ∧
      w.occupiedSpace = ⟨none, none, none, none⟩ ∧
      w.physicalState = WorkerPhysicalState.ARRIVING ∧
      w.mentalState = WorkerMentalState.HAPPY) ∧
    (resetDay s6s rand0).1.desks.map (fun d => d.id) =
      s6s.desks.map (fun d => d.id) ∧
    (resetDay s6s rand0).1.spaces.map (fun sp => sp.id) =
      s6s.spaces.map (fun sp => sp.id) ∧
    (resetDay s6s rand0).1.events.map (fun e => (e.id, e.timeFrame, e.spaceId)) =
      (createEvents
        { s6s with
          desks := s6s.desks.map (fun d =>
            { d with
              state := if s6s.isManaged && d.occupiedBy.isSome then
                DeskState.ASSIGNED else DeskState.AVAILABLE,
              occupiedBy := if s6s.isManaged then d.occupiedBy else none }),
          spaces := s6s.spaces.map (fun sp =>
            { sp with state := SpaceState.AVAILABLE }) }
        (60 * 1000) rand0).1.events.map
        (fun e => (e.id, e.timeFrame, e.spaceId)) :=
  C7_resetDay_roundtrip s6s rand0 rfl


theorem updW_map_keep {γ : Type} (g : Worker → γ) (s : OfficeState)
    (wid : String) (f : Worker → Worker) (hf : ∀ w, g (f w) = g w) :
    (updW s wid f).workers.map g = s.workers.map g := by
  unfold updW
  simp only
  rw [List.map_map]
  apply List.map_congr_left
  intro w _
  by_cases hc : w.id = wid
  · simp only [Function.comp_apply, if_pos hc, hf w]
  · simp only [Function.comp_apply, if_neg hc]

theorem DFrame_refl (s : OfficeState) : DFrame s s := ⟨rfl, rfl⟩

theorem DFrame_trans {s1 s2 s3 : OfficeState} (h1 : DFrame s1 s2)
    (h2 : DFrame s2 s3) : DFrame s1 s3 :=
  ⟨h2.1.trans h1.1, h2.2.trans h1.2⟩

theorem DFrame_ofUpd (s : OfficeState) (wid : String) (f : Worker → Worker)
    (hf : ∀ w, (f w).id = w.id ∧
      (f w).occupiedDesk.currentOccupiedDeskId =
        w.occupiedDesk.currentOccupiedDeskId) :
    DFrame s (updW s wid f) := by
  refine ⟨rfl, ?_⟩
  exact updW_map_keep _ s wid f (fun w => by
    rw [Prod.mk.injEq]
    exact ⟨(hf w).1, (hf w).2⟩)

theorem DFrame_workersEq {s s2 : OfficeState} (hd : s2.desks = s.desks)
    (hw : s2.workers = s.workers) : DFrame s s2 := ⟨hd, by rw [hw]⟩

theorem moveWorker_occd (w : Worker) (sp : ℝ) :
    (moveWorkerTowardsDestination w sp).occupiedDesk = w.occupiedDesk := by
  unfold moveWorkerTowardsDestination
  dsimp only
  split
  · rfl
  · split
    · rfl
    · rfl

theorem setWorkerDialog_dframe (s : OfficeState) (wid : String)
    (k : DialogKey) (d : ℚ) (r : Rand) :
    DFrame s (setWorkerDialog s wid k d r).1 :=
  DFrame_ofUpd _ _ _ (fun w => ⟨rfl, rfl⟩)

theorem setRandomDestination_dframe (s : OfficeState) (wid : String)
    (r : Rand) : DFrame s (setRandomDestination s wid r).1 := by
  unfold setRandomDestination
  cases hw : findW s wid with
  | none =>
    simp only [hw]
    exact DFrame_refl s
  | some w =>
    simp only [hw]
    exact DFrame_ofUpd _ _ _ (fun w2 => ⟨rfl, rfl⟩)

theorem updSp_dframe (s : OfficeState) (sid : String) (g : Space → Space) :
    DFrame s (updSp s sid g) := DFrame_workersEq rfl rfl

theorem updEv_dframe (s : OfficeState) (eid : String)
    (g : WorkerEvent → WorkerEvent) : DFrame s (updEv s eid g) :=
  DFrame_workersEq rfl rfl

theorem updateWorkerDialog_dframe (s : OfficeState) (wid : String) :
    DFrame s (updateWorkerDialog s wid) := by
  unfold updateWorkerDialog
  cases hw : findW s wid with
  | none =>
    simp only [hw]
    exact DFrame_refl s
  | some w =>
    simp only [hw]
    cases hdl : w.dialog with
    | none =>
      simp only [hdl]
      exact DFrame_refl s
    | some dl =>
      simp only [hdl]
      split
      · exact DFrame_ofUpd _ _ _ (fun w2 => ⟨rfl, rfl⟩)
      · exact DFrame_refl s

theorem findDeskForWorker_dframe (s : OfficeState) (wid : String) (r : Rand) :
    DFrame s (findDeskForWorker s wid r).1 := by
  unfold findDeskForWorker
  cases hw : findW s wid with
  | none =>
    simp only [hw]
    exact DFrame_refl s
  | some w =>
    simp only [hw]
    repeat' split
    all_goals repeat
      first
      | exact fun w2 => ⟨rfl, rfl⟩
      | exact DFrame_refl _
      | exact DFrame_ofUpd _ _ _ (fun w2 => ⟨rfl, rfl⟩)
      | refine DFrame_trans ?_ (setWorkerDialog_dframe _ _ _ _ _)
      | refine DFrame_trans ?_ (setRandomDestination_dframe _ _ _)
      | refine DFrame_trans ?_ (DFrame_ofUpd _ _ _ ?_)

theorem findSpaceForWorkerEvent_dframe (s : OfficeState) (wid : String)
    (ev : WorkerEvent) (r : Rand) :
    DFrame s (findSpaceForWorkerEvent s wid ev r).1 := by
  unfold findSpaceForWorkerEvent
  cases hw : findW s wid with
  | none =>
    simp only [hw]
    exact DFrame_refl s
  | some w =>
    simp only [hw]
    repeat' split
    all_goals repeat
      first
      | exact fun w2 => ⟨rfl, rfl⟩
      | exact DFrame_refl _
      | exact DFrame_ofUpd _ _ _ (fun w2 => ⟨rfl, rfl⟩)
      | refine DFrame_trans ?_ (setWorkerDialog_dframe _ _ _ _ _)
      | refine DFrame_trans ?_ (setRandomDestination_dframe _ _ _)
      | refine DFrame_trans ?_ (findDeskForWorker_dframe _ _ _)
      | refine DFrame_trans ?_ (DFrame_ofUpd _ _ _ ?_)

theorem handleSpaceArrival_dframe (s : OfficeState) (wid : String)
    (r : Rand) : DFrame s (handleSpaceArrival s wid r).1 := by
  unfold handleSpaceArrival
  cases hw : findW s wid with
  | none =>
    simp only [hw]
    exact DFrame_refl s
  | some w =>
    simp only [hw]
    repeat' split
    all_goals repeat
      first
      | exact fun w2 => ⟨rfl, rfl⟩
      | exact DFrame_refl _
      | exact DFrame_ofUpd _ _ _ (fun w2 => ⟨rfl, rfl⟩)
      | refine DFrame_trans ?_ (setWorkerDialog_dframe _ _ _ _ _)
      | refine DFrame_trans ?_ (setRandomDestination_dframe _ _ _)
      | refine DFrame_trans ?_ (findDeskForWorker_dframe _ _ _)
      | refine DFrame_trans ?_ (findSpaceForWorkerEvent_dframe _ _ _ _)
      | refine DFrame_trans ?_ (updSp_dframe _ _ _)
      | refine DFrame_trans ?_ (updEv_dframe _ _ _)
      | refine DFrame_trans ?_ (DFrame_ofUpd _ _ _ ?_)

set_option maxHeartbeats 1000000 in
theorem attendingEventBranch_dframe (s : OfficeState) (wid : String)
    (r : Rand) : DFrame s (attendingEventBranch s wid r).1 := by
  unfold attendingEventBranch
  cases hw : findW s wid with
  | none =>
    simp only [hw]
    exact DFrame_refl s
  | some w =>
    simp only [hw]
    repeat' split
    all_goals repeat
      first
      | exact fun w2 => ⟨rfl, rfl⟩
      | exact DFrame_refl _
      | exact DFrame_ofUpd _ _ _ (fun w2 => ⟨rfl, rfl⟩)
      | refine DFrame_trans ?_ (setWorkerDialog_dframe _ _ _ _ _)
      | refine DFrame_trans ?_ (setRandomDestination_dframe _ _ _)
      | refine DFrame_trans ?_ (findDeskForWorker_dframe _ _ _)
      | refine DFrame_trans ?_ (updSp_dframe _ _ _)
      | refine DFrame_trans ?_ (DFrame_ofUpd _ _ _ ?_)

theorem wanderingMoodSub_dframe (s : OfficeState) (wid : String) (r : Rand) :
    DFrame s (wanderingMoodSub s wid r).1 := by
  unfold wanderingMoodSub
  cases hw : findW s wid with
  | none =>
    simp only [hw]
    exact DFrame_refl s
  | some w =>
    simp only [hw]
    repeat' split
    all_goals repeat
      first
      | exact fun w2 => ⟨rfl, rfl⟩
      | exact DFrame_refl _
      | exact DFrame_ofUpd _ _ _ (fun w2 => ⟨rfl, rfl⟩)
      | refine DFrame_trans ?_ (setWorkerDialog_dframe _ _ _ _ _)
      | refine DFrame_trans ?_ (findDeskForWorker_dframe _ _ _)
      | refine DFrame_trans ?_ (DFrame_ofUpd _ _ _ ?_)

theorem wanderingRandomDialog_dframe (s : OfficeState) (wid : String)
    (r : Rand) : DFrame s (wanderingRandomDialog s wid r).1 := by
  unfold wanderingRandomDialog
  cases hw : findW s wid with
  | none =>
    simp only [hw]
    exact DFrame_refl s
  | some w =>
    simp only [hw]
    repeat' split
    all_goals repeat
      first
      | exact DFrame_refl _
      | refine DFrame_trans ?_ (setWorkerDialog_dframe _ _ _ _ _)

theorem wanderingCheck_dframe (s : OfficeState) (wid : String) (r : Rand) :
    DFrame s (wanderingCheck s wid r).1 := by
  unfold wanderingCheck
  cases hw : findW s wid with
  | none =>
    simp only [hw]
    exact DFrame_refl s
  | some w =>
    simp only [hw]
    repeat' split
    all_goals repeat
      first
      | exact DFrame_refl _
      | refine DFrame_trans ?_ (wanderingRandomDialog_dframe _ _ _)
      | exact DFrame_trans (DFrame_refl _) (wanderingMoodSub_dframe _ _ _)

theorem workingDialogCheck_dframe (s : OfficeState) (wid : String)
    (r : Rand) : DFrame s (workingDialogCheck s wid r).1 := by
  unfold workingDialogCheck
  cases hw : findW s wid with
  | none =>
    simp only [hw]
    exact DFrame_refl s
  | some w =>
    simp only [hw]
    repeat' split
    all_goals repeat
      first
      | exact DFrame_refl _
      | refine DFrame_trans ?_ (setWorkerDialog_dframe _ _ _ _ _)

theorem updD_workers (s : OfficeState) (did : String) (f : Desk → Desk) :
    (updD s did f).workers = s.workers := rfl

theorem updD_map_keep {γ : Type} (g : Desk → γ) (s : OfficeState)
    (did : String) (f : Desk → Desk) (hf : ∀ d, g (f d) = g d) :
    (updD s did f).desks.map g = s.desks.map g := by
  unfold updD
  simp only
  rw [List.map_map]
  apply List.map_congr_left
  intro d _
  by_cases hc : d.id = did
  · simp only [Function.comp_apply, if_pos hc, hf d]
  · simp only [Function.comp_apply, if_neg hc]

theorem mem_eq_of_nodup_ids {α : Type} (f : α → String) {l : List α}
    (hn : (l.map f).Nodup) {a b : α} (ha : a ∈ l) (hb : b ∈ l)
    (hf : f a = f b) : a = b :=
  List.inj_on_of_nodup_map hn ha hb hf

theorem OwnInv.of_dframe {s s2 : OfficeState} (hf : DFrame s s2)
    (h : OwnInv s) : OwnInv s2 := by
  obtain ⟨⟨hwids, hdids⟩, hav, hown⟩ := h
  obtain ⟨hdesks, hmap⟩ := hf
  have hids : s2.workers.map (fun w => w.id) =
      s.workers.map (fun w => w.id) := by
    have := congrArg (fun l => l.map Prod.fst) hmap
    simpa [List.map_map, Function.comp] using this
  refine ⟨⟨by rw [hids]; exact hwids, by rw [hdesks]; exact hdids⟩,
    ?_, ?_⟩
  · intro d hd hst
    rw [hdesks] at hd
    exact hav d hd hst
  · intro w2 hw2 did hdid
    have hpair : (w2.id, w2.occupiedDesk.currentOccupiedDeskId) ∈
        s.workers.map (fun w =>
          (w.id, w.occupiedDesk.currentOccupiedDeskId)) := by
      rw [← hmap]
      exact List.mem_map_of_mem _ hw2
    rw [List.mem_map] at hpair
    obtain ⟨w, hw, hgw⟩ := hpair
    rw [Prod.mk.injEq] at hgw
    obtain ⟨hid, hhold⟩ := hgw
    obtain ⟨d, hd, hdid2, ob, hob, hobw⟩ := hown w hw did
      (by rw [hhold]; exact hdid)
    refine ⟨d, by rw [hdesks]; exact hd, hdid2, ob, hob, ?_⟩
    rw [hobw, hid]

theorem OwnInv.deskExclusive {s : OfficeState} (h : OwnInv s) :
    DeskExclusive s := by
  obtain ⟨⟨hwids, hdids⟩, hav, hown⟩ := h
  have hP : s.workers.Pairwise (fun a b => a.id ≠ b.id) :=
    (List.pairwise_map).mp hwids
  unfold DeskExclusive
  refine List.Pairwise.imp_of_mem ?_ hP
  intro a b ha hb hne d hda hdb
  obtain ⟨da, hdamem, hdaid, oba, hoba, hobaw⟩ := hown a ha d hda
  obtain ⟨db, hdbmem, hdbid, obb, hobb, hobbw⟩ := hown b hb d hdb
  have hdd : da = db :=
    mem_eq_of_nodup_ids (fun d2 => d2.id) hdids hdamem hdbmem
      (hdaid.trans hdbid.symm)
  rw [hdd, hobb] at hoba
  injection hoba with hoba2
  rw [hoba2] at hobbw
  exact hne (hobaw.symm.trans hobbw)

theorem strTruthy_some {o : Option String} (x : String) (ho : o = some x) :
    o = some (o.getD "") := by
  rw [ho]
  rfl


theorem release_own (s : OfficeState) (wid deskId : String) (w : Worker)
    (hw : findW s wid = some w)
    (hold : w.occupiedDesk.currentOccupiedDeskId = some deskId)
    (h : OwnInv s) :
    OwnInv (updW (updD s deskId (fun d =>
      { d with
        state := if d.state = DeskState.OCCUPIED then DeskState.AVAILABLE
          else d.state,
        occupiedBy := none })) wid (fun w2 =>
      { w2 with occupiedDesk := { w2.occupiedDesk with
          lastOccupiedDeskId := some deskId,
          currentOccupiedDeskId := none } })) := by
  obtain ⟨⟨hwids, hdids⟩, hav, hown⟩ := h
  have hwmem : w ∈ s.workers := List.mem_of_find?_eq_some hw
  have hwid : w.id = wid := findW_mem_id s wid w hw
  refine ⟨⟨?_, ?_⟩, ?_, ?_⟩
  · rw [updW_map_keep] <;> try (intro w2; exact rfl)
    exact hwids
  · show ((updD s deskId _).desks.map (fun d => d.id)).Nodup
    rw [updD_map_keep] <;> try (intro d; exact rfl)
    exact hdids
  · intro d2 hd2 hst
    simp only [updW_desks, updD, List.mem_map] at hd2
    obtain ⟨d0, hd0, rfl⟩ := hd2
    by_cases hc : d0.id = deskId
    · rw [if_pos hc]
    · rw [if_neg hc] at hst ⊢
      exact hav d0 hd0 hst
  · intro w2 hw2 did hdid
    simp only [updW, updD_workers, List.mem_map] at hw2
    obtain ⟨w0, hw0, rfl⟩ := hw2
    by_cases hc : w0.id = wid
    · rw [if_pos hc] at hdid
      exact absurd hdid (by simp)
    · rw [if_neg hc] at hdid ⊢
      obtain ⟨d0, hd0, hd0id, ob0, hob0, hob0w⟩ := hown w0 hw0 did hdid
      have hne : did ≠ deskId := by
        intro heq
        obtain ⟨dr, hdr, hdrid, obr, hobr, hobrw⟩ := hown w hwmem deskId hold
        have hde : d0 = dr := mem_eq_of_nodup_ids (fun d => d.id) hdids hd0 hdr
          (by show d0.id = dr.id; rw [hd0id, hdrid, heq])
        rw [hde, hobr] at hob0
        injection hob0 with hob02
        rw [← hob02] at hob0w
        exact hc (hob0w.symm.trans (hobrw.trans hwid))
      refine ⟨d0, ?_, hd0id, ob0, hob0, hob0w⟩
      show d0 ∈ (updD s deskId _).desks
      unfold updD
      simp only [List.mem_map]
      refine ⟨d0, hd0, ?_⟩
      rw [if_neg (by rw [hd0id]; exact hne)]


theorem claim_step1_own (s : OfficeState) (w : Worker) (desk : Desk)
    (hdesk : desk ∈ s.desks)
    (hcond : desk.state = DeskState.AVAILABLE ∨
      (desk.state = DeskState.ASSIGNED ∧
        occupiedByIs desk.occupiedBy w.id = true))
    (h : OwnInv s) :
    OwnInv (updD s desk.id (fun d =>
      { d with
        state := if d.state = DeskState.ASSIGNED then DeskState.ASSIGNED
          else DeskState.OCCUPIED,
        occupiedBy := some ⟨w.id, w.name⟩ })) := by
  obtain ⟨⟨hwids, hdids⟩, hav, hown⟩ := h
  refine ⟨⟨hwids, ?_⟩, ?_, ?_⟩
  · show ((updD s desk.id _).desks.map (fun d => d.id)).Nodup
    rw [updD_map_keep] <;> try (intro d; exact rfl)
    exact hdids
  · intro d2 hd2 hst
    simp only [updD, List.mem_map] at hd2
    obtain ⟨d0, hd0, rfl⟩ := hd2
    by_cases hc : d0.id = desk.id
    · rw [if_pos hc] at hst ⊢
      exfalso
      revert hst
      dsimp only
      split
      · intro hst
        exact DeskState.noConfusion hst
      · intro hst
        exact DeskState.noConfusion hst
    · rw [if_neg hc] at hst ⊢
      exact hav d0 hd0 hst
  · intro w2 hw2 did hdid
    have hw2m : w2 ∈ s.workers := hw2
    obtain ⟨d0, hd0, hd0id, ob0, hob0, hob0w⟩ := hown w2 hw2m did hdid
    by_cases hc : did = desk.id
    · have hd0eq : d0 = desk := mem_eq_of_nodup_ids (fun d => d.id) hdids
        hd0 hdesk (by show d0.id = desk.id; rw [hd0id, hc])
      have hw2id : w2.id = w.id := by
        rcases hcond with hA | ⟨hS, hOb⟩
        · exfalso
          rw [hd0eq, hav desk hdesk hA] at hob0
          exact Option.noConfusion hob0
        · rw [hd0eq] at hob0
          unfold occupiedByIs at hOb
          rw [hob0] at hOb
          simp only [beq_iff_eq] at hOb
          rw [← hob0w, hOb]
      refine ⟨_, (by
        simp only [updD, List.mem_map]
        exact ⟨desk, hdesk, by rw [if_pos rfl]⟩), ?_, ⟨w.id, w.name⟩,
        rfl, ?_⟩
      · show desk.id = did
        exact hc.symm
      · show w.id = w2.id
        exact hw2id.symm
    · refine ⟨d0, ?_, hd0id, ob0, hob0, hob0w⟩
      simp only [updD, List.mem_map]
      refine ⟨d0, hd0, ?_⟩
      rw [if_neg (by rw [hd0id]; exact hc)]


theorem claim_step4_own (Y : OfficeState) (wid : String) (desk : Desk)
    (t : ℚ) (hY : OwnInv Y)
    (hback : ∃ dd ∈ Y.desks, dd.id = desk.id ∧
      ∃ ob : OccupiedBy, dd.occupiedBy = some ob ∧ ob.workerId = wid) :
    OwnInv (updW Y wid (fun w2 =>
      { w2 with
          occupiedDesk :=
            { w2.occupiedDesk with
                currentOccupiedDeskId := some desk.id,
                currentOccupiedTime := some t } })) := by
  obtain ⟨⟨hwids, hdids⟩, hav, hown⟩ := hY
  refine ⟨⟨?_, hdids⟩, hav, ?_⟩
  · rw [updW_map_keep] <;> try (intro w2; exact rfl)
    exact hwids
  · intro w2 hw2 did hdid
    simp only [updW, List.mem_map] at hw2
    obtain ⟨w0, hw0, rfl⟩ := hw2
    by_cases hc : w0.id = wid
    · rw [if_pos hc] at hdid ⊢
      simp only [Option.some.injEq] at hdid
      obtain ⟨dd, hdd, hddid, ob, hob, hobw⟩ := hback
      refine ⟨dd, hdd, by rw [hddid, hdid], ob, hob, ?_⟩
      rw [hobw, hc]
    · rw [if_neg hc] at hdid ⊢
      exact hown w0 hw0 did hdid

theorem claim_own (s : OfficeState) (wid : String) (r : Rand) (w : Worker)
    (desk : Desk) (hw : findW s wid = some w) (hdesk : desk ∈ s.desks)
    (hcond : desk.state = DeskState.AVAILABLE ∨
      (desk.state = DeskState.ASSIGNED ∧
        occupiedByIs desk.occupiedBy w.id = true))
    (h : OwnInv s) :
    OwnInv (updW (setWorkerDialog (updW (updD s desk.id (fun d =>
        { d with
          state := if d.state = DeskState.ASSIGNED then DeskState.ASSIGNED
            else DeskState.OCCUPIED,
          occupiedBy := some ⟨w.id, w.name⟩ })) wid (fun w2 =>
        { w2 with
            physicalState := WorkerPhysicalState.WORKING,
            mentalState := WorkerMentalState.HAPPY }))
      wid DialogKey.HAPPY 5000 r).1 wid (fun w2 =>
      { w2 with
          occupiedDesk :=
            { w2.occupiedDesk with
                currentOccupiedDeskId := some desk.id,
                currentOccupiedTime := some s.currentTime } })) := by
  have h1 : OwnInv (updD s desk.id (fun d =>
      { d with
        state := if d.state = DeskState.ASSIGNED then DeskState.ASSIGNED
          else DeskState.OCCUPIED,
        occupiedBy := some ⟨w.id, w.name⟩ })) :=
    claim_step1_own s w desk hdesk hcond h
  have hDF : DFrame (updD s desk.id (fun d =>
      { d with
        state := if d.state = DeskState.ASSIGNED then DeskState.ASSIGNED
          else DeskState.OCCUPIED,
        occupiedBy := some ⟨w.id, w.name⟩ }))
      (setWorkerDialog (updW (updD s desk.id (fun d =>
        { d with
          state := if d.state = DeskState.ASSIGNED then DeskState.ASSIGNED
            else DeskState.OCCUPIED,
          occupiedBy := some ⟨w.id, w.name⟩ })) wid (fun w2 =>
        { w2 with
            physicalState := WorkerPhysicalState.WORKING,
            mentalState := WorkerMentalState.HAPPY }))
      wid DialogKey.HAPPY 5000 r).1 := by
    refine DFrame_trans (DFrame_ofUpd _ _ _ ?_)
      (setWorkerDialog_dframe _ _ _ _ _)
    intro w2
    exact ⟨rfl, rfl⟩
  have h2 := OwnInv.of_dframe hDF h1
  refine claim_step4_own _ wid desk s.currentTime h2 ?_
  rw [hDF.1]
  refine ⟨{ desk with
      state := if desk.state = DeskState.ASSIGNED then DeskState.ASSIGNED
        else DeskState.OCCUPIED,
      occupiedBy := some ⟨w.id, w.name⟩ }, ?_, rfl, ⟨w.id, w.name⟩,
    rfl, ?_⟩
  · simp only [updD, List.mem_map]
    exact ⟨desk, hdesk, by rw [if_pos rfl]⟩
  · exact findW_mem_id s wid w hw

theorem handleDeskArrival_own (s : OfficeState) (wid : String) (r : Rand)
    (h : OwnInv s) : OwnInv (handleDeskArrival s wid r).1 := by
  unfold handleDeskArrival
  cases hw : findW s wid with
  | none =>
    simp only [hw]
    exact h
  | some w =>
    simp only [hw]
    cases hfd : findDeskAtLocation s w.location.x w.location.y with
    | none =>
      simp only [hfd]
      refine OwnInv.of_dframe
        (DFrame_trans (DFrame_ofUpd _ _ _ ?_)
          (setRandomDestination_dframe _ _ _)) h
      intro w2
      exact ⟨rfl, rfl⟩
    | some desk =>
      simp only [hfd]
      have hdeskmem : desk ∈ s.desks := List.mem_of_find?_eq_some hfd
      split
      · next hcond =>
        simp only [Bool.or_eq_true, Bool.and_eq_true, beq_iff_eq] at hcond
        exact claim_own s wid r w desk hw hdeskmem hcond h
      · next hcond =>
        refine OwnInv.of_dframe
          (DFrame_trans
            (DFrame_trans (DFrame_ofUpd _ _ _ ?_)
              (setWorkerDialog_dframe _ _ _ _ _))
            (findDeskForWorker_dframe _ _ _)) h
        intro w2
        exact ⟨rfl, rfl⟩


theorem upcomingEventCheck_own (s : OfficeState) (wid : String) (r : Rand)
    (h : OwnInv s) : OwnInv (upcomingEventCheck s wid r).1 := by
  unfold upcomingEventCheck
  cases hw : findW s wid with
  | none =>
    simp only [hw]
    exact h
  | some w =>
    simp only [hw]
    split
    · split
      · split
        · split
          · split
            · next hgd =>
              split
              · next d2 heq =>
                refine OwnInv.of_dframe
                  (findSpaceForWorkerEvent_dframe _ _ _ _) ?_
                obtain ⟨t0, hts⟩ := setWorkerDialog_shape s wid
                  DialogKey.EVENT_STARTING 5000 (getRandomPreEventTime r).2
                rw [hts]
                have hw1 : findW (updW s wid (fun w2 =>
                    { w2 with dialog := some ⟨t0, 5000, s.currentTime⟩ }))
                    wid = some { w with
                      dialog := some ⟨t0, 5000, s.currentTime⟩ } := by
                  rw [findW_updW_self]
                  · rw [hw]
                    rfl
                  · intro w2
                    rfl
                have hold1 : ({ w with
                    dialog := some ⟨t0, 5000, s.currentTime⟩ } :
                      Worker).occupiedDesk.currentOccupiedDeskId =
                    some (w.occupiedDesk.currentOccupiedDeskId.getD "") := by
                  show w.occupiedDesk.currentOccupiedDeskId =
                    some (w.occupiedDesk.currentOccupiedDeskId.getD "")
                  cases hcur : w.occupiedDesk.currentOccupiedDeskId with
                  | none =>
                    exfalso
                    have hst := hgd.2
                    rw [hcur] at hst
                    exact Bool.noConfusion hst
                  | some x => rfl
                have h1 : OwnInv (updW s wid (fun w2 =>
                    { w2 with dialog := some ⟨t0, 5000, s.currentTime⟩ })) := by
                  refine OwnInv.of_dframe (DFrame_ofUpd _ _ _ ?_) h
                  intro w2
                  exact ⟨rfl, rfl⟩
                exact release_own _ wid _ _ hw1 hold1 h1
              · next heq =>
                exact OwnInv.of_dframe
                  (DFrame_trans (setWorkerDialog_dframe _ _ _ _ _)
                    (findSpaceForWorkerEvent_dframe _ _ _ _)) h
            · next hgd =>
              exact OwnInv.of_dframe
                (DFrame_trans (setWorkerDialog_dframe _ _ _ _ _)
                  (findSpaceForWorkerEvent_dframe _ _ _ _)) h
          · exact h
        · exact h
      · exact h
    · exact h


theorem updateWorkerState_own (s : OfficeState) (wid : String) (r : Rand)
    (h : OwnInv s) : OwnInv (updateWorkerState s wid r).1 := by
  unfold updateWorkerState
  cases hw : findW s wid with
  | none =>
    simp only [hw]
    exact h
  | some w =>
    simp only [hw]
    split
    · exact h
    · split
      · exact OwnInv.of_dframe (attendingEventBranch_dframe _ _ _) h
      · refine OwnInv.of_dframe (workingDialogCheck_dframe _ _ _) ?_
        refine OwnInv.of_dframe (wanderingCheck_dframe _ _ _) ?_
        exact upcomingEventCheck_own _ _ _ h

theorem handleWorkerArrival_own (s : OfficeState) (wid : String) (r : Rand)
    (h : OwnInv s) : OwnInv (handleWorkerArrival s wid r).1 := by
  unfold handleWorkerArrival
  cases hw : findW s wid with
  | none =>
    simp only [hw]
    exact h
  | some w =>
    simp only [hw]
    split
    · exact handleDeskArrival_own _ _ _ h
    · exact OwnInv.of_dframe (handleSpaceArrival_dframe _ _ _) h
    · exact OwnInv.of_dframe (findDeskForWorker_dframe _ _ _) h
    · split
      · refine OwnInv.of_dframe (setWorkerDialog_dframe _ _ _ _ _) ?_
        exact OwnInv.of_dframe (setRandomDestination_dframe _ _ _) h
      · exact OwnInv.of_dframe (setRandomDestination_dframe _ _ _) h
    · exact h

theorem processWorker_own (s : OfficeState) (wid : String) (r : Rand)
    (h : OwnInv s) : OwnInv (processWorker s wid r).1 := by
  unfold processWorker
  refine OwnInv.of_dframe (updateWorkerDialog_dframe _ _) ?_
  cases hB : findW (updateWorkerState s wid r).1 wid with
  | none =>
    simp only [hB]
    exact updateWorkerState_own s wid r h
  | some w1 =>
    simp only [hB]
    cases hsome : w1.destinationLocation.isSome with
    | false =>
      simp only [hsome, Bool.false_eq_true, if_false]
      exact updateWorkerState_own s wid r h
    | true =>
      simp only [hsome, if_true]
      have hmv : OwnInv (updW (updateWorkerState s wid r).1 wid
          (fun w2 => moveWorkerTowardsDestination w2 2)) := by
        refine OwnInv.of_dframe (DFrame_ofUpd _ _ _ ?_)
          (updateWorkerState_own s wid r h)
        intro w2
        exact ⟨moveWorker_id w2 2, by rw [moveWorker_occd]⟩
      cases hC : findW (updW (updateWorkerState s wid r).1 wid
          (fun w2 => moveWorkerTowardsDestination w2 2)) wid with
      | none =>
        simp only [hC]
        exact hmv
      | some w2 =>
        simp only [hC]
        cases hnone : w2.destinationLocation.isNone with
        | false =>
          simp only [hnone, Bool.false_eq_true, if_false]
          exact hmv
        | true =>
          simp only [hnone, if_true]
          exact handleWorkerArrival_own _ _ _ hmv

theorem foldl_own (ids : List String) (s : OfficeState) (r : Rand)
    (h : OwnInv s) :
    OwnInv ((ids.foldl (fun (p : OfficeState × Rand) wid2 =>
      processWorker p.1 wid2 p.2) (s, r)).1) := by
  induction ids generalizing s r with
  | nil => exact h
  | cons wid rest ih =>
    simp only [List.foldl_cons]
    exact ih (processWorker s wid r).1 (processWorker s wid r).2
      (processWorker_own s wid r h)

theorem updateWorkers_own (s : OfficeState) (r : Rand) (h : OwnInv s) :
    OwnInv (updateWorkers s r).1 := by
  unfold updateWorkers
  exact foldl_own _ s r h

theorem resetDay_own (s : OfficeState) (r : Rand) (h : OwnInv s) :
    OwnInv (resetDay s r).1 := by
  obtain ⟨⟨hwids, hdids⟩, hav, hown⟩ := h
  have hdx : (resetDay s r).1.desks = s.desks.map (fun d =>
      { d with
        state := if s.isManaged && d.occupiedBy.isSome then
          DeskState.ASSIGNED else DeskState.AVAILABLE,
        occupiedBy := if s.isManaged then d.occupiedBy else none }) := by
    unfold resetDay
    dsimp only
    rw [resetWorkersGo_desks, createEvents_desks]
  have hwx : (resetDay s r).1.workers.map (fun w => w.id) =
      s.workers.map (fun w => w.id) := by
    have hp : (resetDay s r).1.workers.map
        (fun w => (w.id, w.assignedDeskId)) =
        s.workers.map (fun w => (w.id, w.assignedDeskId)) := by
      unfold resetDay
      dsimp only
      rw [resetWorkersGo_wmap]
      rfl
    have := congrArg (fun l => l.map Prod.fst) hp
    simpa [List.map_map, Function.comp] using this
  refine ⟨⟨?_, ?_⟩, ?_, ?_⟩
  · rw [hwx]
    exact hwids
  · rw [hdx, List.map_map]
    exact hdids
  · intro d2 hd2 hst
    rw [hdx] at hd2
    rw [List.mem_map] at hd2
    obtain ⟨d0, hd0, rfl⟩ := hd2
    cases hm : s.isManaged with
    | false => simp [hm]
    | true =>
      cases hobv : d0.occupiedBy with
      | none => simp [hm, hobv]
      | some v =>
        exfalso
        rw [hm, hobv] at hst
        simp at hst
  · intro w2 hw2 did hdid
    have hclean : ∀ w3 ∈ (resetDay s r).1.workers,
        w3.occupiedDesk = ⟨none, none, none, none⟩ ∧
        w3.occupiedSpace = ⟨none, none, none, none⟩ ∧
        w3.physicalState = WorkerPhysicalState.ARRIVING ∧
        w3.mentalState = WorkerMentalState.HAPPY := by
      unfold resetDay
      dsimp only
      apply resetWorkersGo_post7
      intro w3 hw3
      right
      exact List.mem_map_of_mem _ hw3
    have := (hclean w2 hw2).1
    rw [this] at hdid
    exact Option.noConfusion hdid


theorem RandLe_refl (r : Rand) : RandLe r r := ⟨rfl, rfl, Nat.le_refl _⟩

theorem RandLe_trans {r1 r2 r3 : Rand} (h1 : RandLe r1 r2)
    (h2 : RandLe r2 r3) : RandLe r1 r3 :=
  ⟨h2.1.trans h1.1, h2.2.1.trans h1.2.1, h1.2.2.trans h2.2.2⟩

theorem RandLe_bump (r : Rand) (m : ℕ) : RandLe r ⟨r.val, r.str, r.k + m⟩ :=
  ⟨rfl, rfl, Nat.le_add_right _ _⟩

theorem generateId_snd (pre : String) (r : Rand) :
    (generateId pre r).2 = ⟨r.val, r.str, r.k + 1⟩ := rfl

theorem generateId_fst (pre : String) (r : Rand) :
    (generateId pre r).1 = pre ++ "-" ++ r.str r.k := rfl

theorem getRandomNumber_snd {K : Type} [LinearOrderedField K] [FloorRing K]
    (mn mx : K) (r : Rand) :
    (getRandomNumber mn mx r).2 = ⟨r.val, r.str, r.k + 1⟩ := rfl

theorem getUniqueName_snd (r : Rand) :
    (getUniqueName r).2 = ⟨r.val, r.str, r.k + 1⟩ := rfl

theorem getRandomDestinationGo_rand (cx cy cw ch minD : ℝ) (fuel : ℕ)
    (r : Rand) :
    RandLe r (getRandomDestinationGo cx cy cw ch minD fuel r).2 := by
  induction fuel generalizing r with
  | zero => exact RandLe_bump r 2
  | succ fuel ih =>
    rw [getRandomDestinationGo]
    dsimp only
    split
    · exact RandLe_bump r 2
    · split
      · exact RandLe_trans (RandLe_bump r 2) (ih _)
      · exact RandLe_bump r 2

theorem setRandomDestination_rand (s : OfficeState) (wid : String)
    (r : Rand) : RandLe r (setRandomDestination s wid r).2 := by
  unfold setRandomDestination
  cases hw : findW s wid with
  | none => exact RandLe_refl r
  | some w =>
    exact getRandomDestinationGo_rand _ _ _ _ _ _ _

theorem assignEventsGo_rand (wid : String) (n : ℕ) (s : OfficeState)
    (acc : List String) (r : Rand) :
    RandLe r (assignEventsGo wid n s acc r).2.2 := by
  induction n generalizing s acc r with
  | zero => exact RandLe_refl r
  | succ n ih =>
    simp only [assignEventsGo]
    exact RandLe_trans (RandLe_bump r 1) (ih _ _ _)

theorem assignEventsToWorker_rand (s : OfficeState) (wid : String)
    (r : Rand) : RandLe r (assignEventsToWorker s wid r).2 := by
  unfold assignEventsToWorker
  split
  · exact RandLe_refl r
  · dsimp only
    exact RandLe_trans (RandLe_bump r 1) (assignEventsGo_rand _ _ _ _ _)

theorem string_append_left_cancel {p a b : String} (h : p ++ a = p ++ b) :
    a = b := by
  have hd : p.data ++ a.data = p.data ++ b.data := congrArg String.data h
  have hab : a.data = b.data := List.append_cancel_left hd
  cases a
  cases b
  exact congrArg String.mk hab

theorem IdsBelow_nil (pre : String) (r : Rand) : IdsBelow pre [] r :=
  ⟨[], List.nodup_nil, fun j hj => absurd hj (List.not_mem_nil j), rfl⟩

theorem IdsBelow_mono {pre : String} {ids : List String} {r r2 : Rand}
    (h : IdsBelow pre ids r) (hr : RandLe r r2) : IdsBelow pre ids r2 := by
  obtain ⟨ks, hnd, hlt, hmap⟩ := h
  exact ⟨ks, hnd, fun j hj => Nat.lt_of_lt_of_le (hlt j hj) hr.2.2,
    by rw [hr.2.1]; exact hmap⟩

theorem IdsBelow_push {pre : String} {ids : List String} {r r2 : Rand}
    (h : IdsBelow pre ids r) (hstr : r2.str = r.str) (hk : r.k < r2.k) :
    IdsBelow pre (ids ++ [pre ++ "-" ++ r.str r.k]) r2 := by
  obtain ⟨ks, hnd, hlt, hmap⟩ := h
  refine ⟨ks ++ [r.k], ?_, ?_, ?_⟩
  · rw [List.nodup_append]
    refine ⟨hnd, List.nodup_singleton _, ?_⟩
    intro a ha hb
    rw [List.mem_singleton] at hb
    subst hb
    exact absurd (hlt _ ha) (Nat.lt_irrefl _)
  · intro j hj
    rw [List.mem_append, List.mem_singleton] at hj
    rcases hj with hj | hj
    · exact Nat.lt_of_lt_of_le (hlt j hj) (Nat.le_of_lt hk)
    · subst hj
      exact hk
  · rw [List.map_append, hmap, hstr]
    rfl

theorem IdsBelow_nodup {pre : String} {ids : List String} {r : Rand}
    (hinj : InjStr r) (h : IdsBelow pre ids r) : ids.Nodup := by
  obtain ⟨ks, hnd, hlt, hmap⟩ := h
  rw [hmap]
  refine List.Nodup.map ?_ hnd
  intro a b hab
  exact hinj (string_append_left_cancel hab)

theorem InitInv_of_dframe {s s2 : OfficeState} {r : Rand} (hf : DFrame s s2)
    (h : InitInv s r) : InitInv s2 r := by
  obtain ⟨h1, h2, h3, h4⟩ := h
  obtain ⟨hdesks, hmap⟩ := hf
  have hids : s2.workers.map (fun w => w.id) =
      s.workers.map (fun w => w.id) := by
    have := congrArg (fun l => l.map Prod.fst) hmap
    simpa [List.map_map, Function.comp] using this
  refine ⟨by rw [hids]; exact h1, by rw [hdesks]; exact h2, ?_, ?_⟩
  · intro d hd hst
    rw [hdesks] at hd
    exact h3 d hd hst
  · intro w2 hw2
    have hpair : (w2.id, w2.occupiedDesk.currentOccupiedDeskId) ∈
        s.workers.map (fun w =>
          (w.id, w.occupiedDesk.currentOccupiedDeskId)) := by
      rw [← hmap]
      exact List.mem_map_of_mem _ hw2
    rw [List.mem_map] at hpair
    obtain ⟨w1, hw1, hgw⟩ := hpair
    rw [Prod.mk.injEq] at hgw
    rw [← hgw.2]
    exact h4 w1 hw1

theorem InitInv_mono {s : OfficeState} {r r2 : Rand} (h : InitInv s r)
    (hr : RandLe r r2) : InitInv s r2 :=
  ⟨IdsBelow_mono h.1 hr, h.2.1, h.2.2.1, h.2.2.2⟩

theorem InitInv_updD {s : OfficeState} {r : Rand} (did : String)
    (f : Desk → Desk)
    (hf : ∀ d, (f d).id = d.id ∧
      ((f d).state = DeskState.AVAILABLE → (f d).occupiedBy = none))
    (h : InitInv s r) : InitInv (updD s did f) r := by
  obtain ⟨h1, h2, h3, h4⟩ := h
  refine ⟨h1, ?_, ?_, h4⟩
  · rw [updD_map_keep (fun d => d.id) s did f (fun d => (hf d).1)]
    exact h2
  · intro d2 hd2 hst
    unfold updD at hd2
    simp only [List.mem_map] at hd2
    obtain ⟨d0, hd0, hite⟩ := hd2
    by_cases hc : d0.id = did
    · rw [if_pos hc] at hite
      subst hite
      exact (hf d0).2 hst
    · rw [if_neg hc] at hite
      subst hite
      exact h3 d0 hd0 hst


theorem InitInv_pushWorker {s : OfficeState} {r : Rand} {w : Worker}
    {r2 : Rand} (h : InitInv s r)
    (hid : w.id = "worker" ++ "-" ++ r.str r.k)
    (hocc : w.occupiedDesk.currentOccupiedDeskId = none)
    (hstr : r2.str = r.str) (hk : r.k < r2.k) :
    InitInv { s with workers := s.workers ++ [w] } r2 := by
  obtain ⟨h1, h2, h3, h4⟩ := h
  refine ⟨?_, h2, h3, ?_⟩
  · have hmap : ({ s with workers := s.workers ++ [w] } :
        OfficeState).workers.map (fun w3 => w3.id) =
        s.workers.map (fun w3 => w3.id) ++
          ["worker" ++ "-" ++ r.str r.k] := by
      simp only [List.map_append, List.map_cons, List.map_nil, hid]
    rw [hmap]
    exact IdsBelow_push h1 hstr hk
  · intro w2 hw2
    simp only [List.mem_append, List.mem_singleton] at hw2
    rcases hw2 with hw2 | hw2
    · exact h4 w2 hw2
    · subst hw2
      exact hocc

theorem assignEventsToWorker_dframe (s : OfficeState) (wid : String)
    (r : Rand) : DFrame s (assignEventsToWorker s wid r).1 := by
  unfold assignEventsToWorker
  split
  · exact DFrame_refl s
  · dsimp only
    have hgo : DFrame s (assignEventsGo wid (1 + (⌊r.next.1 * 3⌋).toNat)
        s [] r.next.2).1 :=
      DFrame_workersEq (assignEventsGo_desks _ _ _ _ _)
        (assignEventsGo_workers _ _ _ _ _)
    split
    · refine DFrame_trans (DFrame_trans hgo (DFrame_ofUpd _ _ _ ?_))
        (DFrame_ofUpd _ _ _ ?_)
      · intro w2
        exact ⟨rfl, rfl⟩
      · intro w2
        exact ⟨rfl, rfl⟩
    · refine DFrame_trans hgo (DFrame_ofUpd _ _ _ ?_)
      intro w2
      exact ⟨rfl, rfl⟩

theorem createWorkersGo_inv (names : List String) (numWorkers : ℕ) (n : ℕ)
    (s : OfficeState) (r : Rand) (h : InitInv s r) :
    InitInv (createWorkersGo names numWorkers n s r).1
        (createWorkersGo names numWorkers n s r).2 ∧
    RandLe r (createWorkersGo names numWorkers n s r).2 := by
  induction n generalizing s r with
  | zero => exact ⟨h, RandLe_refl r⟩
  | succ n ih =>
    simp only [createWorkersGo]
    refine (fun hS3 hle =>
      ⟨(ih _ _ hS3).1, RandLe_trans hle (ih _ _ hS3).2⟩ :
        InitInv _ _ → RandLe r _ → _) ?_ ?_
    · refine InitInv_mono (InitInv_of_dframe
        (assignEventsToWorker_dframe _ _ _) ?_)
        (assignEventsToWorker_rand _ _ _)
      split
      · split
        · split
          · refine InitInv_of_dframe (DFrame_ofUpd _ _ _ ?_)
              (InitInv_updD _ _ ?_ ?_)
            · intro w2
              exact ⟨rfl, rfl⟩
            · intro d
              exact ⟨rfl, fun hst => DeskState.noConfusion hst⟩
            · exact InitInv_pushWorker h rfl rfl rfl
                (Nat.lt_succ_of_lt (Nat.lt_succ_self r.k))
          · exact InitInv_pushWorker h rfl rfl rfl
              (Nat.lt_succ_of_lt (Nat.lt_succ_self r.k))
        · refine InitInv_mono (InitInv_of_dframe
            (setRandomDestination_dframe _ _ _) ?_)
            (setRandomDestination_rand _ _ _)
          exact InitInv_pushWorker h rfl rfl rfl
            (Nat.lt_succ_of_lt (Nat.lt_succ_self r.k))
      · split
        · split
          · refine InitInv_of_dframe (DFrame_ofUpd _ _ _ ?_)
              (InitInv_updD _ _ ?_ ?_)
            · intro w2
              exact ⟨rfl, rfl⟩
            · intro d
              exact ⟨rfl, fun hst => DeskState.noConfusion hst⟩
            · exact InitInv_pushWorker h rfl rfl rfl
                (Nat.lt_succ_of_lt (Nat.lt_succ_self r.k))
          · exact InitInv_pushWorker h rfl rfl rfl
              (Nat.lt_succ_of_lt (Nat.lt_succ_self r.k))
        · refine InitInv_mono (InitInv_of_dframe
            (setRandomDestination_dframe _ _ _) ?_)
            (setRandomDestination_rand _ _ _)
          exact InitInv_pushWorker h rfl rfl rfl
            (Nat.lt_succ_of_lt (Nat.lt_succ_self r.k))
    · refine RandLe_trans (RandLe_bump r 2)
        (RandLe_trans ?_ (assignEventsToWorker_rand _ _ _))
      split
      · split
        · split
          · exact RandLe_refl _
          · exact RandLe_refl _
        · exact setRandomDestination_rand _ _ _
      · split
        · split
          · exact RandLe_refl _
          · exact RandLe_refl _
        · exact setRandomDestination_rand _ _ _


theorem createDeskGroup_inv (sx sy : ℝ) (cols rows : ℕ) (spx spy dw dh : ℝ)
    (s : OfficeState) (r : Rand)
    (h1 : IdsBelow "desk" (s.desks.map (fun d => d.id)) r)
    (h2 : ∀ d ∈ s.desks, d.occupiedBy = none) :
    (IdsBelow "desk"
        ((createDeskGroup s sx sy cols rows spx spy dw dh r).1.desks.map
          (fun d => d.id))
        (createDeskGroup s sx sy cols rows spx spy dw dh r).2 ∧
      ∀ d ∈ (createDeskGroup s sx sy cols rows spx spy dw dh r).1.desks,
        d.occupiedBy = none) ∧
    RandLe r (createDeskGroup s sx sy cols rows spx spy dw dh r).2 := by
  unfold createDeskGroup
  generalize ((List.range rows).flatMap (fun row =>
    (List.range cols).map (fun col => (row, col)))) = l
  induction l generalizing s r h1 h2 with
  | nil => exact ⟨⟨h1, h2⟩, RandLe_refl r⟩
  | cons rc l ih =>
    simp only [List.foldl_cons]
    refine (fun hh1 hh2 =>
      ⟨(ih _ _ hh1 hh2).1,
       RandLe_trans (RandLe_bump r 2) (ih _ _ hh1 hh2).2⟩ :
        IdsBelow "desk" _ _ → _ → _) ?_ ?_
    · rw [List.map_append]
      exact IdsBelow_push h1 rfl (Nat.lt_succ_of_lt (Nat.lt_succ_self r.k))
    · intro d hd
      simp only [List.mem_append, List.mem_singleton] at hd
      rcases hd with hd | hd
      · exact h2 d hd
      · subst hd
        rfl

theorem createDesks_inv (s : OfficeState) (r : Rand) :
    (IdsBelow "desk" ((createDesks s r).1.desks.map (fun d => d.id))
        (createDesks s r).2 ∧
      ∀ d ∈ (createDesks s r).1.desks, d.occupiedBy = none) ∧
    RandLe r (createDesks s r).2 := by
  unfold createDesks
  have t1 := createDeskGroup_inv 500 220 2 4 30 50 20 40
    { s with desks := [] } r (IdsBelow_nil _ _) (by intro d hd; cases hd)
  have t2 := createDeskGroup_inv 650 220 2 4 30 50 20 40 _ _ t1.1.1 t1.1.2
  have t3 := createDeskGroup_inv 800 270 2 3 30 50 20 40 _ _ t2.1.1 t2.1.2
  have t4 := createDeskGroup_inv 950 270 2 3 30 50 20 40 _ _ t3.1.1 t3.1.2
  have t5 := createDeskGroup_inv 500 470 3 2 50 30 40 20 _ _ t4.1.1 t4.1.2
  exact ⟨t5.1, RandLe_trans (RandLe_trans (RandLe_trans
    (RandLe_trans t1.2 t2.2) t3.2) t4.2) t5.2⟩

theorem renameSpaces_desks_rand (s : OfficeState) (r : Rand) :
    (renameSpaces s r).1.desks = s.desks ∧
    RandLe r (renameSpaces s r).2 := by
  unfold renameSpaces
  generalize (s.spaces.map (fun sp => sp.id)) = l
  induction l generalizing s r with
  | nil => exact ⟨rfl, RandLe_refl r⟩
  | cons sid rest ih =>
    simp only [List.foldl_cons]
    exact ⟨(ih _ _).1, RandLe_trans (RandLe_bump r 1) (ih _ _).2⟩

theorem createSpaces_inv (s : OfficeState) (r : Rand) :
    (createSpaces s r).1.desks = s.desks ∧
    RandLe r (createSpaces s r).2 := by
  unfold createSpaces
  have hr := renameSpaces_desks_rand
    (createSpace (createSpace (createSpace (createSpace (createSpace (createSpace (createSpace { s with spaces := [] } 300 300 100 200 r).1 300 450 100 60 (createSpace { s with spaces := [] } 300 300 100 200 r).2).1 300 525 100 60 (createSpace (createSpace { s with spaces := [] } 300 300 100 200 r).1 300 450 100 60 (createSpace { s with spaces := [] } 300 300 100 200 r).2).2).1 325 620 150 100 (createSpace (createSpace (createSpace { s with spaces := [] } 300 300 100 200 r).1 300 450 100 60 (createSpace { s with spaces := [] } 300 300 100 200 r).2).1 300 525 100 60 (createSpace (createSpace { s with spaces := [] } 300 300 100 200 r).1 300 450 100 60 (createSpace { s with spaces := [] } 300 300 100 200 r).2).2).2).1 450 640 60 60 (createSpace (createSpace (createSpace (createSpace { s with spaces := [] } 300 300 100 200 r).1 300 450 100 60 (createSpace { s with spaces := [] } 300 300 100 200 r).2).1 300 525 100 60 (createSpace (createSpace { s with spaces := [] } 300 300 100 200 r).1 300 450 100 60 (createSpace { s with spaces := [] } 300 300 100 200 r).2).2).1 325 620 150 100 (createSpace (createSpace (createSpace { s with spaces := [] } 300 300 100 200 r).1 300 450 100 60 (createSpace { s with spaces := [] } 300 300 100 200 r).2).1 300 525 100 60 (createSpace (createSpace { s with spaces := [] } 300 300 100 200 r).1 300 450 100 60 (createSpace { s with spaces := [] } 300 300 100 200 r).2).2).2).2).1 530 640 60 60 (createSpace (createSpace (createSpace (createSpace (createSpace { s with spaces := [] } 300 300 100 200 r).1 300 450 100 60 (createSpace { s with spaces := [] } 300 300 100 200 r).2).1 300 525 100 60 (createSpace (createSpace { s with spaces := [] } 300 300 100 200 r).1 300 450 100 60 (createSpace { s with spaces := [] } 300 300 100 200 r).2).2).1 325 620 150 100 (createSpace (createSpace (createSpace { s with spaces := [] } 300 300 100 200 r).1 300 450 100 60 (createSpace { s with spaces := [] } 300 300 100 200 r).2).1 300 525 100 60 (createSpace (createSpace { s with spaces := [] } 300 300 100 200 r).1 300 450 100 60 (createSpace { s with spaces := [] } 300 300 100 200 r).2).2).2).1 450 640 60 60 (createSpace (createSpace (createSpace (createSpace { s with spaces := [] } 300 300 100 200 r).1 300 450 100 60 (createSpace { s with spaces := [] } 300 300 100 200 r).2).1 300 525 100 60 (createSpace (createSpace { s with spaces := [] } 300 300 100 200 r).1 300 450 100 60 (createSpace { s with spaces := [] } 300 300 100 200 r).2).2).1 325 620 150 100 (createSpace (createSpace (createSpace { s with spaces := [] } 300 300 100 200 r).1 300 450 100 60 (createSpace { s with spaces := [] } 300 300 100 200 r).2).1 300 525 100 60 (createSpace (createSpace { s with spaces := [] } 300 300 100 200 r).1 300 450 100 60 (createSpace { s with spaces := [] } 300 300 100 200 r).2).2).2).2).2).1 610 640 60 60 (createSpace (createSpace (createSpace (createSpace (createSpace (createSpace { s with spaces := [] } 300 300 100 200 r).1 300 450 100 60 (createSpace { s with spaces := [] } 300 300 100 200 r).2).1 300 525 100 60 (createSpace (createSpace { s with spaces := [] } 300 300 100 200 r).1 300 450 100 60 (createSpace { s with spaces := [] } 300 300 100 200 r).2).2).1 325 620 150 100 (createSpace (createSpace (createSpace { s with spaces := [] } 300 300 100 200 r).1 300 450 100 60 (createSpace { s with spaces := [] } 300 300 100 200 r).2).1 300 525 100 60 (createSpace (createSpace { s with spaces := [] } 300 300 100 200 r).1 300 450 100 60 (createSpace { s with spaces := [] } 300 300 100 200 r).2).2).2).1 450 640 60 60 (createSpace (createSpace (createSpace (createSpace { s with spaces := [] } 300 300 100 200 r).1 300 450 100 60 (createSpace { s with spaces := [] } 300 300 100 200 r).2).1 300 525 100 60 (createSpace (createSpace { s with spaces := [] } 300 300 100 200 r).1 300 450 100 60 (createSpace { s with spaces := [] } 300 300 100 200 r).2).2).1 325 620 150 100 (createSpace (createSpace (createSpace { s with spaces := [] } 300 300 100 200 r).1 300 450 100 60 (createSpace { s with spaces := [] } 300 300 100 200 r).2).1 300 525 100 60 (createSpace (createSpace { s with spaces := [] } 300 300 100 200 r).1 300 450 100 60 (createSpace { s with spaces := [] } 300 300 100 200 r).2).2).2).2).1 530 640 60 60 (createSpace (createSpace (createSpace (createSpace (createSpace { s with spaces := [] } 300 300 100 200 r).1 300 450 100 60 (createSpace { s with spaces := [] } 300 300 100 200 r).2).1 300 525 100 60 (createSpace (createSpace { s with spaces := [] } 300 300 100 200 r).1 300 450 100 60 (createSpace { s with spaces := [] } 300 300 100 200 r).2).2).1 325 620 150 100 (createSpace (createSpace (createSpace { s with spaces := [] } 300 300 100 200 r).1 300 450 100 60 (createSpace { s with spaces := [] } 300 300 100 200 r).2).1 300 525 100 60 (createSpace (createSpace { s with spaces := [] } 300 300 100 200 r).1 300 450 100 60 (createSpace { s with spaces := [] } 300 300 100 200 r).2).2).2).1 450 640 60 60 (createSpace (createSpace (createSpace (createSpace { s with spaces := [] } 300 300 100 200 r).1 300 450 100 60 (createSpace { s with spaces := [] } 300 300 100 200 r).2).1 300 525 100 60 (createSpace (createSpace { s with spaces := [] } 300 300 100 200 r).1 300 450 100 60 (createSpace { s with spaces := [] } 300 300 100 200 r).2).2).1 325 620 150 100 (createSpace (createSpace (createSpace { s with spaces := [] } 300 300 100 200 r).1 300 450 100 60 (createSpace { s with spaces := [] } 300 300 100 200 r).2).1 300 525 100 60 (createSpace (createSpace { s with spaces := [] } 300 300 100 200 r).1 300 450 100 60 (createSpace { s with spaces := [] } 300 300 100 200 r).2).2).2).2).2).2).1
    (createSpace (createSpace (createSpace (createSpace (createSpace (createSpace (createSpace { s with spaces := [] } 300 300 100 200 r).1 300 450 100 60 (createSpace { s with spaces := [] } 300 300 100 200 r).2).1 300 525 100 60 (createSpace (createSpace { s with spaces := [] } 300 300 100 200 r).1 300 450 100 60 (createSpace { s with spaces := [] } 300 300 100 200 r).2).2).1 325 620 150 100 (createSpace (createSpace (createSpace { s with spaces := [] } 300 300 100 200 r).1 300 450 100 60 (createSpace { s with spaces := [] } 300 300 100 200 r).2).1 300 525 100 60 (createSpace (createSpace { s with spaces := [] } 300 300 100 200 r).1 300 450 100 60 (createSpace { s with spaces := [] } 300 300 100 200 r).2).2).2).1 450 640 60 60 (createSpace (createSpace (createSpace (createSpace { s with spaces := [] } 300 300 100 200 r).1 300 450 100 60 (createSpace { s with spaces := [] } 300 300 100 200 r).2).1 300 525 100 60 (createSpace (createSpace { s with spaces := [] } 300 300 100 200 r).1 300 450 100 60 (createSpace { s with spaces := [] } 300 300 100 200 r).2).2).1 325 620 150 100 (createSpace (createSpace (createSpace { s with spaces := [] } 300 300 100 200 r).1 300 450 100 60 (createSpace { s with spaces := [] } 300 300 100 200 r).2).1 300 525 100 60 (createSpace (createSpace { s with spaces := [] } 300 300 100 200 r).1 300 450 100 60 (createSpace { s with spaces := [] } 300 300 100 200 r).2).2).2).2).1 530 640 60 60 (createSpace (createSpace (createSpace (createSpace (createSpace { s with spaces := [] } 300 300 100 200 r).1 300 450 100 60 (createSpace { s with spaces := [] } 300 300 100 200 r).2).1 300 525 100 60 (createSpace (createSpace { s with spaces := [] } 300 300 100 200 r).1 300 450 100 60 (createSpace { s with spaces := [] } 300 300 100 200 r).2).2).1 325 620 150 100 (createSpace (createSpace (createSpace { s with spaces := [] } 300 300 100 200 r).1 300 450 100 60 (createSpace { s with spaces := [] } 300 300 100 200 r).2).1 300 525 100 60 (createSpace (createSpace { s with spaces := [] } 300 300 100 200 r).1 300 450 100 60 (createSpace { s with spaces := [] } 300 300 100 200 r).2).2).2).1 450 640 60 60 (createSpace (createSpace (createSpace (createSpace { s with spaces := [] } 300 300 100 200 r).1 300 450 100 60 (createSpace { s with spaces := [] } 300 300 100 200 r).2).1 300 525 100 60 (createSpace (createSpace { s with spaces := [] } 300 300 100 200 r).1 300 450 100 60 (createSpace { s with spaces := [] } 300 300 100 200 r).2).2).1 325 620 150 100 (createSpace (createSpace (createSpace { s with spaces := [] } 300 300 100 200 r).1 300 450 100 60 (createSpace { s with spaces := [] } 300 300 100 200 r).2).1 300 525 100 60 (createSpace (createSpace { s with spaces := [] } 300 300 100 200 r).1 300 450 100 60 (createSpace { s with spaces := [] } 300 300 100 200 r).2).2).2).2).2).1 610 640 60 60 (createSpace (createSpace (createSpace (createSpace (createSpace (createSpace { s with spaces := [] } 300 300 100 200 r).1 300 450 100 60 (createSpace { s with spaces := [] } 300 300 100 200 r).2).1 300 525 100 60 (createSpace (createSpace { s with spaces := [] } 300 300 100 200 r).1 300 450 100 60 (createSpace { s with spaces := [] } 300 300 100 200 r).2).2).1 325 620 150 100 (createSpace (createSpace (createSpace { s with spaces := [] } 300 300 100 200 r).1 300 450 100 60 (createSpace { s with spaces := [] } 300 300 100 200 r).2).1 300 525 100 60 (createSpace (createSpace { s with spaces := [] } 300 300 100 200 r).1 300 450 100 60 (createSpace { s with spaces := [] } 300 300 100 200 r).2).2).2).1 450 640 60 60 (createSpace (createSpace (createSpace (createSpace { s with spaces := [] } 300 300 100 200 r).1 300 450 100 60 (createSpace { s with spaces := [] } 300 300 100 200 r).2).1 300 525 100 60 (createSpace (createSpace { s with spaces := [] } 300 300 100 200 r).1 300 450 100 60 (createSpace { s with spaces := [] } 300 300 100 200 r).2).2).1 325 620 150 100 (createSpace (createSpace (createSpace { s with spaces := [] } 300 300 100 200 r).1 300 450 100 60 (createSpace { s with spaces := [] } 300 300 100 200 r).2).1 300 525 100 60 (createSpace (createSpace { s with spaces := [] } 300 300 100 200 r).1 300 450 100 60 (createSpace { s with spaces := [] } 300 300 100 200 r).2).2).2).2).1 530 640 60 60 (createSpace (createSpace (createSpace (createSpace (createSpace { s with spaces := [] } 300 300 100 200 r).1 300 450 100 60 (createSpace { s with spaces := [] } 300 300 100 200 r).2).1 300 525 100 60 (createSpace (createSpace { s with spaces := [] } 300 300 100 200 r).1 300 450 100 60 (createSpace { s with spaces := [] } 300 300 100 200 r).2).2).1 325 620 150 100 (createSpace (createSpace (createSpace { s with spaces := [] } 300 300 100 200 r).1 300 450 100 60 (createSpace { s with spaces := [] } 300 300 100 200 r).2).1 300 525 100 60 (createSpace (createSpace { s with spaces := [] } 300 300 100 200 r).1 300 450 100 60 (createSpace { s with spaces := [] } 300 300 100 200 r).2).2).2).1 450 640 60 60 (createSpace (createSpace (createSpace (createSpace { s with spaces := [] } 300 300 100 200 r).1 300 450 100 60 (createSpace { s with spaces := [] } 300 300 100 200 r).2).1 300 525 100 60 (createSpace (createSpace { s with spaces := [] } 300 300 100 200 r).1 300 450 100 60 (createSpace { s with spaces := [] } 300 300 100 200 r).2).2).1 325 620 150 100 (createSpace (createSpace (createSpace { s with spaces := [] } 300 300 100 200 r).1 300 450 100 60 (createSpace { s with spaces := [] } 300 300 100 200 r).2).1 300 525 100 60 (createSpace (createSpace { s with spaces := [] } 300 300 100 200 r).1 300 450 100 60 (createSpace { s with spaces := [] } 300 300 100 200 r).2).2).2).2).2).2).2
  exact ⟨hr.1, RandLe_trans (RandLe_bump r 14) hr.2⟩

theorem pickStartTime_rand (evs : List WorkerEvent) (dur total : ℚ)
    (fuel : ℕ) (r : Rand) :
    RandLe r (pickStartTime evs dur total fuel r).2 := by
  induction fuel generalizing r with
  | zero => exact RandLe_bump r 1
  | succ fuel ih =>
    rw [pickStartTime]
    dsimp only
    split
    · exact RandLe_bump r 1
    · split
      · exact RandLe_trans (RandLe_bump r 1) (ih _)
      · exact RandLe_bump r 1

theorem createEventsGo_rand (spaces : List Space) (total : ℚ)
    (numEvents : ℕ) (n : ℕ) (acc : List WorkerEvent) (r : Rand) :
    RandLe r (createEventsGo spaces total numEvents n acc r).2 := by
  induction n generalizing acc r with
  | zero => exact RandLe_refl r
  | succ n ih =>
    rw [createEventsGo]
    dsimp only
    exact RandLe_trans (pickStartTime_rand _ _ _ _ _)
      (RandLe_trans (RandLe_bump _ 1) (ih _ _))

theorem createEvents_rand (s : OfficeState) (t : ℚ) (r : Rand) :
    RandLe r (createEvents s t r).2 := by
  unfold createEvents
  dsimp only
  exact RandLe_trans (RandLe_bump r 1) (createEventsGo_rand _ _ _ _ _ _)

theorem InjStr_of {r r2 : Rand} (hstr : r2.str = r.str) (hinj : InjStr r) :
    InjStr r2 := by
  show Function.Injective r2.str
  rw [hstr]
  exact hinj


theorem initializeOffice_own (s : OfficeState) (n : ℕ) (r : Rand)
    (hinj : InjStr r) : OwnInv (initializeOffice s n r).1 := by
  have hd := createDesks_inv s r
  unfold initializeOffice
  rcases hA : createDesks s r with ⟨s1, r1⟩
  rw [hA] at hd
  dsimp only
  have hsp := createSpaces_inv s1 r1
  have hde : (createEvents (createUtilityItems (createSpaces s1 r1).1)
      (60 * 1000) (createSpaces s1 r1).2).1.desks =
      (createUtilityItems (createSpaces s1 r1).1).desks :=
    createEvents_desks _ _ _
  have hev := createEvents_rand (createUtilityItems (createSpaces s1 r1).1)
    (60 * 1000) (createSpaces s1 r1).2
  rcases hB : createSpaces s1 r1 with ⟨s2, r2⟩
  rw [hB] at hsp hde hev
  dsimp only
  rcases hC : createEvents (createUtilityItems s2) (60 * 1000) r2
    with ⟨s4, r3⟩
  rw [hC] at hde hev
  dsimp only at hd hsp hde hev ⊢
  unfold createWorkers
  dsimp only
  have hR3 : RandLe r r3 := RandLe_trans (RandLe_trans hd.2 hsp.2) hev
  have hdesks4 : s4.desks = s1.desks := hde.trans hsp.1
  have hinit : InitInv { s4 with workers := [] } r3 := by
    refine ⟨IdsBelow_nil _ _, ?_, ?_, ?_⟩
    · show (s4.desks.map (fun d => d.id)).Nodup
      rw [hdesks4]
      exact IdsBelow_nodup (InjStr_of hd.2.2.1 hinj) hd.1.1
    · intro d hdm hst
      have hdm2 : d ∈ s1.desks := by rw [← hdesks4]; exact hdm
      exact hd.1.2 d hdm2
    · intro w hw
      cases hw
  have hfin := createWorkersGo_inv (generateRandomNames n) n n _ _ hinit
  have hstrF : (createWorkersGo (generateRandomNames n) n n
      { s4 with workers := [] } r3).2.str = r.str :=
    (RandLe_trans hR3 hfin.2).2.1
  obtain ⟨⟨hids, hdnodup, hac, hnone⟩, hle⟩ := hfin
  refine ⟨⟨IdsBelow_nodup (InjStr_of hstrF hinj) hids, hdnodup⟩, hac, ?_⟩
  intro w hw did hdid
  rw [hnone w hw] at hdid
  exact Option.noConfusion hdid


theorem Reachable_own {s : OfficeState} (h : Reachable s) : OwnInv s := by
  induction h with
  | init cw ch n r hinj => exact initializeOffice_own _ n r hinj
  | reinit s n r h hinj ih => exact initializeOffice_own s n r hinj
  | tick s r h ih => exact updateWorkers_own s r ih
  | reset s r h ih => exact resetDay_own s r ih
  | setTime s t h ih => exact ih
  | setMode s m h ih => exact ih

theorem findW_mem (s : OfficeState) (wid : String) (w : Worker)
    (h : findW s wid = some w) : w ∈ s.workers :=
  List.mem_of_find?_eq_some h

theorem dframe_hold_eq {s s2 : OfficeState}
    (hnd : (s.workers.map (fun w3 => w3.id)).Nodup) (hd : DFrame s s2)
    {wid : String} {w w2 : Worker} (hw : findW s wid = some w)
    (hw2 : findW s2 wid = some w2) :
    w2.occupiedDesk.currentOccupiedDeskId =
      w.occupiedDesk.currentOccupiedDeskId := by
  have hm2 : w2 ∈ s2.workers := findW_mem _ _ _ hw2
  have hid2 : w2.id = wid := findW_mem_id _ _ _ hw2
  have hm : w ∈ s.workers := findW_mem _ _ _ hw
  have hid : w.id = wid := findW_mem_id _ _ _ hw
  have hpair : (w2.id, w2.occupiedDesk.currentOccupiedDeskId) ∈
      s.workers.map (fun w3 =>
        (w3.id, w3.occupiedDesk.currentOccupiedDeskId)) := by
    rw [← hd.2]
    exact List.mem_map_of_mem _ hm2
  rw [List.mem_map] at hpair
  obtain ⟨w1, hw1, hg⟩ := hpair
  rw [Prod.mk.injEq] at hg
  have hweq : w1 = w := mem_eq_of_nodup_ids (fun w3 => w3.id) hnd hw1 hm
    (hg.1.trans (hid2.trans hid.symm))
  rw [← hg.2, hweq]

theorem no_gain_of_dframe {s s2 : OfficeState}
    (hnd : (s.workers.map (fun w3 => w3.id)).Nodup) (hd : DFrame s s2)
    {wid : String} {w w2 : Worker} (hw : findW s wid = some w)
    (hw2 : findW s2 wid = some w2) {did : String}
    (hdid : w2.occupiedDesk.currentOccupiedDeskId = some did)
    (hne : w.occupiedDesk.currentOccupiedDeskId ≠ some did) : False := by
  have heq := dframe_hold_eq hnd hd hw hw2
  rw [hdid] at heq
  exact hne heq.symm

theorem setWorkerDialog_findW_self (s : OfficeState) (wid : String)
    (key : DialogKey) (dur : ℚ) (r : Rand) :
    ∃ t : String, findW (setWorkerDialog s wid key dur r).1 wid =
      (findW s wid).map (fun w3 => { w3 with
        dialog := some ⟨t, dur, s.currentTime⟩ }) := by
  obtain ⟨t, ht⟩ := setWorkerDialog_shape s wid key dur r
  refine ⟨t, ?_⟩
  rw [ht]
  rw [findW_updW_self]
  intro w3
  rfl


theorem handleDeskArrival_gain (s : OfficeState) (wid : String) (r : Rand)
    (w w2 : Worker) (hnd : (s.workers.map (fun w3 => w3.id)).Nodup)
    (hw : findW s wid = some w)
    (hw2 : findW (handleDeskArrival s wid r).1 wid = some w2)
    (did : String)
    (hdid : w2.occupiedDesk.currentOccupiedDeskId = some did)
    (hne : w.occupiedDesk.currentOccupiedDeskId ≠ some did) :
    ∃ desk, findDeskAtLocation s w.location.x w.location.y = some desk ∧
      did = desk.id ∧
      (desk.state = DeskState.AVAILABLE ∨
        (desk.state = DeskState.ASSIGNED ∧
          occupiedByIs desk.occupiedBy w.id = true)) ∧
      ∃ d2 ∈ (handleDeskArrival s wid r).1.desks, d2.id = desk.id ∧
        d2.occupiedBy = some ⟨w.id, w.name⟩ ∧
        (d2.state = DeskState.OCCUPIED ∨
          d2.state = DeskState.ASSIGNED) := by
  unfold handleDeskArrival at hw2 ⊢
  simp only [hw] at hw2 ⊢
  cases hfd : findDeskAtLocation s w.location.x w.location.y with
  | none =>
    simp only [hfd] at hw2
    have hDF : DFrame s (setRandomDestination (updW s wid (fun w3 =>
        { w3 with physicalState := WorkerPhysicalState.WANDERING })) wid
        r).1 := by
      refine DFrame_trans (DFrame_ofUpd _ _ _ ?_)
        (setRandomDestination_dframe _ _ _)
      intro w3
      exact ⟨rfl, rfl⟩
    exact (no_gain_of_dframe hnd hDF hw hw2 hdid hne).elim
  | some desk =>
    simp only [hfd] at hw2 ⊢
    have hdeskmem : desk ∈ s.desks := List.mem_of_find?_eq_some hfd
    split at hw2
    · next hcond =>
      rw [findW_updW_self] at hw2
      · obtain ⟨t0, hsw⟩ := setWorkerDialog_findW_self
          (updW (updD s desk.id (fun d =>
      { d with
        state := if d.state = DeskState.ASSIGNED then DeskState.ASSIGNED
          else DeskState.OCCUPIED,
        occupiedBy := some ⟨w.id, w.name⟩ })) wid (fun w3 =>
      { w3 with
          physicalState := WorkerPhysicalState.WORKING,
          mentalState := WorkerMentalState.HAPPY })) wid DialogKey.HAPPY 5000 r
        rw [hsw] at hw2
        rw [findW_updW_self] at hw2
        · have hstep1 : findW (updD s desk.id (fun d =>
      { d with
        state := if d.state = DeskState.ASSIGNED then DeskState.ASSIGNED
          else DeskState.OCCUPIED,
        occupiedBy := some ⟨w.id, w.name⟩ })) wid = some w := hw
          rw [hstep1] at hw2
          simp only [Option.map_some'] at hw2
          injection hw2 with hw2e
          have hdd : some desk.id = some did := by
            rw [← hw2e] at hdid
            exact hdid
          injection hdd with hdd2
          refine ⟨desk, rfl, hdd2.symm, ?_, ?_⟩
          · have hcond2 := hcond
            simp only [Bool.or_eq_true, Bool.and_eq_true, beq_iff_eq]
              at hcond2
            exact hcond2
          · rw [if_pos hcond]
            refine ⟨{ desk with
                state := if desk.state = DeskState.ASSIGNED then
                  DeskState.ASSIGNED else DeskState.OCCUPIED,
                occupiedBy := some ⟨w.id, w.name⟩ }, ?_, rfl, rfl, ?_⟩
            · show _ ∈ (updD s desk.id (fun d =>
      { d with
        state := if d.state = DeskState.ASSIGNED then DeskState.ASSIGNED
          else DeskState.OCCUPIED,
        occupiedBy := some ⟨w.id, w.name⟩ })).desks
              simp only [updD, List.mem_map]
              exact ⟨desk, hdeskmem, by rw [if_pos rfl]⟩
            · by_cases hA : desk.state = DeskState.ASSIGNED
              · right
                show (if desk.state = DeskState.ASSIGNED then
                  DeskState.ASSIGNED else DeskState.OCCUPIED) =
                    DeskState.ASSIGNED
                rw [if_pos hA]
              · left
                show (if desk.state = DeskState.ASSIGNED then
                  DeskState.ASSIGNED else DeskState.OCCUPIED) =
                    DeskState.OCCUPIED
                rw [if_neg hA]
        · intro w3
          rfl
      · intro w3
        rfl
    · next hcond =>
      have hDF : DFrame s (findDeskForWorker (setWorkerDialog (updW s wid
          (fun w3 => { w3 with mentalState := WorkerMentalState.CONFUSED }))
          wid DialogKey.DESK_OCCUPIED 5000 r).1 wid
          (setWorkerDialog (updW s wid (fun w3 =>
            { w3 with mentalState := WorkerMentalState.CONFUSED }))
            wid DialogKey.DESK_OCCUPIED 5000 r).2).1 := by
        refine DFrame_trans (DFrame_trans (DFrame_ofUpd _ _ _ ?_)
          (setWorkerDialog_dframe _ _ _ _ _)) (findDeskForWorker_dframe _ _ _)
        intro w3
        exact ⟨rfl, rfl⟩
      exact (no_gain_of_dframe hnd hDF hw hw2 hdid hne).elim


theorem InjStr_rand0 : InjStr rand0 := by
  intro a b h
  have h2 : List.replicate a 'a' = List.replicate b 'a' :=
    congrArg String.data h
  have h3 := congrArg List.length h2
  simpa using h3

/-- C1: Desk exclusivity invariant: in every reachable state of the manager
(construction, `initializeOffice` under a collision-free id oracle, ticks of
`updateWorkers`, `resetDay`, and the time/mode setters), and again after any
further `updateWorkers` tick, no two distinct workers hold
`currentOccupiedDeskId` equal to the same desk id; moreover a worker only
gains a `currentOccupiedDeskId` in `handleDeskArrival` when the desk found at
its location is AVAILABLE or ASSIGNED with `occupiedBy` equal to that worker,
the gained id is that desk's id, and the desk simultaneously carries state
OCCUPIED or ASSIGNED with `occupiedBy` set to that worker. -/
theorem C1_desk_exclusivity :
    (∀ s : OfficeState, Reachable s → DeskExclusive s ∧
      ∀ r : Rand, DeskExclusive (updateWorkers s r).1) ∧
    (∀ (s : OfficeState) (wid : String) (r : Rand) (w w2 : Worker)
      (did : String), Reachable s → findW s wid = some w →
      findW (handleDeskArrival s wid r).1 wid = some w2 →
      w2.occupiedDesk.currentOccupiedDeskId = some did →
      w.occupiedDesk.currentOccupiedDeskId ≠ some did →
      ∃ desk, findDeskAtLocation s w.location.x w.location.y = some desk ∧
        did = desk.id ∧
        (desk.state = DeskState.AVAILABLE ∨
          (desk.state = DeskState.ASSIGNED ∧
            occupiedByIs desk.occupiedBy w.id = true)) ∧
        ∃ d2 ∈ (handleDeskArrival s wid r).1.desks, d2.id = desk.id ∧
          d2.occupiedBy = some ⟨w.id, w.name⟩ ∧
          (d2.state = DeskState.OCCUPIED ∨
            d2.state = DeskState.ASSIGNED)) := by
  constructor
  · intro s hreach
    exact ⟨OwnInv.deskExclusive (Reachable_own hreach), fun r =>
      OwnInv.deskExclusive (updateWorkers_own s r (Reachable_own hreach))⟩
  · intro s wid r w w2 did hreach hw hw2 hdid hne
    exact handleDeskArrival_gain s wid r w w2
      (Reachable_own hreach).1.1 hw hw2 did hdid hne

/-- The exclusivity half of C1 instantiated at a concrete reachable state:
the freshly initialised office over the constant-zero oracle. -/
theorem C1_desk_exclusivity_witness :
    DeskExclusive (initializeOffice (OfficeWorkerManager 900 700) 0
      rand0).1 :=
  (C1_desk_exclusivity.1 _ (Reachable.init 900 700 0 rand0 InjStr_rand0)).1


end OfficeSim
